import Mathlib

/-!
# Node pool lifecycle of terraform-provider-rollgcp

A shallow embedding of `rollgcp/resource_container_node_pool.go`: the resource
record, the remote container API seen as a history-dependent oracle, the
create / read / delete callbacks, the blue/green `nodePoolUpdate` sequence and
the resting-state waiter, followed by theorems about them.

Conventions of the embedding:

* Go `error` values are `GoError`; a function returning `error` returns
  `Option GoError` (`none` is `nil`).
* Every externally visible effect (remote call, mutex operation, `SetId`) is
  appended to a trace of `Event`s; the remote service answers a call from the
  trace of everything that happened before it.
* A timeout is a budget of attempts for the retry loop it bounds.
-/

namespace RollGcp

/-! ## Errors -/

/-- Go `error` values that the node pool code can see. -/
inductive GoError where
  /-- A `*googleapi.Error` with its HTTP status code. -/
  | api (code : Nat) (failedPrecondition : Bool) (text : String)
  /-- An error built by `fmt.Errorf` (with `%s`, so nothing is wrapped). -/
  | plain (text : String)
  /-- The timeout error of `resource.Retry` when no attempt set an error. -/
  | timeout
  /-- A run-time panic (nil dereference, failed type assertion), which no
  caller recovers from. -/
  | panic (text : String)
  deriving DecidableEq, Repr

/-- The result of `err.Error()`. -/
def GoError.text : GoError → String
  | .api _ _ t => t
  | .plain t => t
  | .timeout => "timeout while waiting for state to become 'success'"
  | .panic t => t

/-- Modelled from the spec: isGoogleApiErrorWithCode is not among the sources;
errors are classified by HTTP-style status code, 404 meaning not-found. -/
def isGoogleApiErrorWithCode (err : GoError) (code : Nat) : Bool :=
  match err with
  | .api c _ _ => c == code
  | _ => false

/-- Modelled from the spec: isFailedPreconditionError is not among the sources;
it recognises the specific failed-precondition class of remote errors
(remote resource busy, retry later). -/
def isFailedPreconditionError (err : GoError) : Bool :=
  match err with
  | .api _ fp _ => fp
  | _ => false

/-! ## Resting states -/

/-- Modelled from the spec: the RestingState type is declared outside the
sources; a status is classified as Ready, Error or not classified at all, and
the unclassified value is the zero value that a map lookup of an absent key
yields. -/
inductive RestingState where
  | Undefined
  | ReadyState
  | ErrorState
  deriving DecidableEq, Repr

open RestingState

/-- The table `containerNodePoolRestingStates`, read as the map lookup
`containerNodePoolRestingStates[state]` (absent keys give the zero value). -/
def containerNodePoolRestingStates (state : String) : RestingState :=
  if state = "RUNNING" then ReadyState
  else if state = "RUNNING_WITH_ERROR" then ErrorState
  else if state = "ERROR" then ErrorState
  else Undefined

/-! ## Strings -/

/-- The segments of a character sequence between its `/` separators. -/
def splitSlash : List Char → List (List Char)
  | [] => [[]]
  | c :: cs =>
    if c = '/' then [] :: splitSlash cs
    else
      match splitSlash cs with
      | [] => [[c]]
      | seg :: rest => (c :: seg) :: rest

/-- Segments joined by `/`. -/
def joinSlash : List (List Char) → List Char
  | [] => []
  | [x] => x
  | x :: y :: rest => x ++ '/' :: joinSlash (y :: rest)

/-- Go `strings.Split(s, "/")`. -/
def stringsSplit (s : String) : List String :=
  (splitSlash s.data).map String.mk

/-- Go `strings.Join(xs, "/")`. -/
def stringsJoin (xs : List String) : String :=
  String.mk (joinSlash (xs.map String.data))

/-- Go `%q` formatting of a string (escapes inside the string are not
modelled). -/
def goQuote (s : String) : String := "\"" ++ s ++ "\""

/-- The identifier `getNodePoolName` reads the pool name from: the last path
component of the id (`splits[len(splits)-1]`; the split is never empty). -/
def getNodePoolName (id : String) : String :=
  let splits := stringsSplit id
  splits.getLast?.getD ""

/-- Everything of the id leading up to its last path component. -/
def getNodePoolIdHead (id : String) : String :=
  let splits := stringsSplit id
  let splits := splits.dropLast
  stringsJoin splits

/-! ## Data model -/

/-- The owning scope of a node pool. -/
structure NodePoolInformation where
  project : String
  location : String
  cluster : String
  deriving DecidableEq, Repr

/-- The mutex key of a cluster (`containerClusterMutexKey`). -/
def containerClusterMutexKey (project location clusterName : String) : String :=
  "google-container-cluster/" ++ project ++ "/" ++ location ++ "/" ++ clusterName

namespace NodePoolInformation

def fullyQualifiedName (nodePoolInformation : NodePoolInformation) (nodeName : String) :
    String :=
  "projects/" ++ nodePoolInformation.project ++ "/locations/" ++ nodePoolInformation.location
    ++ "/clusters/" ++ nodePoolInformation.cluster ++ "/nodePools/" ++ nodeName

def parent (nodePoolInformation : NodePoolInformation) : String :=
  "projects/" ++ nodePoolInformation.project ++ "/locations/" ++ nodePoolInformation.location
    ++ "/clusters/" ++ nodePoolInformation.cluster

def lockKey (nodePoolInformation : NodePoolInformation) : String :=
  containerClusterMutexKey nodePoolInformation.project nodePoolInformation.location
    nodePoolInformation.cluster

end NodePoolInformation

structure NodePoolAutoscaling where
  Enabled : Bool
  MinNodeCount : Int
  MaxNodeCount : Int
  deriving DecidableEq, Repr

structure MaxPodsConstraint where
  MaxPodsPerNode : Int
  deriving DecidableEq, Repr

structure NodeManagement where
  AutoRepair : Bool
  AutoUpgrade : Bool
  deriving DecidableEq, Repr

structure UpgradeSettings where
  MaxSurge : Int
  MaxUnavailable : Int
  deriving DecidableEq, Repr

/-- The remote entity `containerBeta.NodePool`, restricted to the fields the
node pool resource reads or writes. The node configuration is kept opaque.
Pointer-valued fields are options (`none` is `nil`). -/
structure NodePool where
  Name : String
  InitialNodeCount : Int
  Config : String
  Locations : List String
  Version : String
  Autoscaling : Option NodePoolAutoscaling
  MaxPodsConstraint : Option MaxPodsConstraint
  Management : Option NodeManagement
  UpgradeSettings : Option UpgradeSettings
  InstanceGroupUrls : List String
  Status : String
  StatusMessage : String
  deriving DecidableEq, Repr

/-- The handle of an asynchronous remote operation. -/
structure Operation where
  Name : String
  deriving DecidableEq, Repr

/-- The resource record `schema.ResourceData` of a node pool: its identity and
the value of every schema field. Blocks with `MaxItems: 1` are options; the
node configuration block is kept opaque. -/
structure ResourceData where
  id : String
  project : String
  location : String
  cluster : String
  name : String
  name_prefix : String
  initial_node_count : Int
  node_count : Int
  node_locations : List String
  version : String
  node_config : String
  autoscaling : Option (Int × Int)
  max_pods_per_node : Int
  management : Option (Bool × Bool)
  upgrade_settings : Option (Int × Int)
  instance_group_urls : List String
  deriving DecidableEq, Repr

/-- The dynamic value of a schema field, the `interface{}` that `d.GetOk`
returns: a string, an int, the `[]interface{}` of a list field (kept by its
length), the `*schema.Set` of a set field, or nil for a key that the schema
does not have. -/
inductive SchemaValue where
  | null
  | string (s : String)
  | int (n : Int)
  | list (length : Nat)
  | set (elems : List String)
  deriving DecidableEq, Repr

/-- The name of the dynamic type of a value, as a failed type assertion
prints it. -/
def SchemaValue.goType : SchemaValue → String
  | .null => "nil"
  | .string _ => "string"
  | .int _ => "int"
  | .list _ => "[]interface {}"
  | .set _ => "*schema.Set"

/-- Whether a value is the zero value of its type. -/
def SchemaValue.isZero : SchemaValue → Bool
  | .null => true
  | .string s => s == ""
  | .int n => n == 0
  | .list length => length == 0
  | .set elems => elems.isEmpty

/-- The value of a schema field by its key, with the type the schema gives
it. -/
def ResourceData.Get (d : ResourceData) (key : String) : SchemaValue :=
  if key = "project" then .string d.project
  else if key = "location" then .string d.location
  else if key = "cluster" then .string d.cluster
  else if key = "name" then .string d.name
  else if key = "name_prefix" then .string d.name_prefix
  else if key = "version" then .string d.version
  else if key = "initial_node_count" then .int d.initial_node_count
  else if key = "node_count" then .int d.node_count
  else if key = "max_pods_per_node" then .int d.max_pods_per_node
  else if key = "node_locations" then .set d.node_locations
  else if key = "instance_group_urls" then .list d.instance_group_urls.length
  else if key = "node_config" then .list (if d.node_config = "" then 0 else 1)
  else if key = "autoscaling" then .list (if d.autoscaling.isSome then 1 else 0)
  else if key = "management" then .list (if d.management.isSome then 1 else 0)
  else if key = "upgrade_settings" then .list (if d.upgrade_settings.isSome then 1 else 0)
  else .null

/-- The call `d.GetOk(key)`: the value of the field, and whether it is set to
something other than the zero value of its type. -/
def ResourceData.GetOk (d : ResourceData) (key : String) : SchemaValue × Bool :=
  (d.Get key, !(d.Get key).isZero)

/-! ## The remote service and the execution context -/

/-- Externally visible effects, in the order they happen. -/
inductive Event where
  /-- Call `mutexKV.Lock(key)`. -/
  | lock (key : String)
  /-- Call `mutexKV.Unlock(key)`. -/
  | unlock (key : String)
  /-- Call `d.SetId(id)`. -/
  | setId (id : String)
  /-- Call `NodePools.Create(parent, req).Do()`. -/
  | createCall (parent : String) (nodePool : NodePool)
  /-- Call `NodePools.Delete(name).Do()`. -/
  | deleteCall (name : String)
  /-- Call `NodePools.Get(name).Do()`. -/
  | getCall (name : String)
  /-- Call `InstanceGroupManagers.Get(project, zone, name).Do()`. -/
  | igmGetCall (project zone name : String)
  /-- Call `containerOperationWait(config, operation, ..., activity, ...)`. -/
  | operationWait (operation : Option Operation) (activity : String)
  deriving DecidableEq, Repr

/-- The cloud API collaborator. Each call is answered from the trace of the
events that preceded it, so any deterministic behaviour of the service
(scripted failures, a pool that appears after its creation, ...) is an
instance. `operationWait` is the outcome of `containerOperationWait`, which
polls the operation to its terminal state. Request headers (the user project
override) do not influence the control flow and are left out. -/
structure Remote where
  create : List Event → String → NodePool → Except GoError Operation
  delete : List Event → String → Except GoError Operation
  get : List Event → String → Except GoError NodePool
  igmGet : List Event → String → String → String → Except GoError Int
  operationWait : List Event → Option Operation → Option GoError

/-- The provider configuration `Config`, restricted to what the node pool
code reads, with the provider-level location that `getLocation` falls back
to. -/
structure Config where
  Project : String
  fallbackLocation : Except GoError String

/-- Everything a callback receives apart from the resource record. Timeouts are
budgets of attempts. The helpers that are declared outside the sources and
whose results the callbacks only pass along are parameters. -/
structure Env where
  config : Config
  remote : Remote
  /-- Budget `d.Timeout(schema.TimeoutCreate)`. -/
  timeoutCreate : Nat
  /-- Budget `d.Timeout(schema.TimeoutUpdate)`. -/
  timeoutUpdate : Nat
  /-- Budget `d.Timeout(schema.TimeoutDelete)`. -/
  timeoutDelete : Nat
  /-- Outcome of `generateUserAgentString(d, config.userAgent)`. -/
  generateUserAgentString : Except GoError String
  /-- The unique suffix that `resource.PrefixedUniqueId` appends. -/
  uniqueSuffix : List Event → String
  /-- The submatches of `instanceGroupManagerURL.FindStringSubmatch(url)`:
  project, zone and manager name, or `none` when the URL does not match. -/
  igmMatch : String → Option (String × String × String)
  expandNodeConfig : String → String
  flattenNodeConfig : String → String

/-- The mutable state of a callback: the resource record and the trace. -/
structure St where
  d : ResourceData
  trace : List Event
  deriving DecidableEq, Repr

namespace St

/-- Record an event. -/
def emit (s : St) (e : Event) : St :=
  { s with trace := s.trace ++ [e] }

/-- The call `d.SetId(v)`. -/
def SetId (s : St) (v : String) : St :=
  { d := { s.d with id := v }, trace := s.trace ++ [Event.setId v] }

end St

/-- The mutating remote call behind an event, if it is one: a create under a
parent for a pool name, or a delete of a fully qualified name. -/
inductive MutatingCall where
  | create (parent name : String)
  | delete (name : String)
  deriving DecidableEq, Repr

def Event.mutating : Event → Option MutatingCall
  | .createCall parent nodePool => some (.create parent nodePool.Name)
  | .deleteCall name => some (.delete name)
  | _ => none

/-- The mutating remote calls of a trace, in order. -/
def mutatingCalls (trace : List Event) : List MutatingCall :=
  trace.filterMap Event.mutating

/-! ## Helpers of the callbacks -/

/-- Project resolution (`getProjectFromSchema`): the resource's own value when
the field is named and set, else the provider-level project, else an error.
The type assertion `res.(string)` panics on a value that is not a string. -/
def getProjectFromSchema (projectSchemaField : String) (d : ResourceData) (config : Config) :
    Except GoError String :=
  let (res, ok) := d.GetOk projectSchemaField
  if ok && projectSchemaField != "" then
    match res with
    | .string v => .ok v
    | other =>
      .error (.panic ("interface conversion: interface {} is " ++ other.goType
        ++ ", not string"))
  else if config.Project != "" then .ok config.Project
  else .error (.plain (projectSchemaField ++ ": required field is not set"))

/-- The call `getProject(d, config)`: project resolution on the field
`project`. -/
def getProject (d : ResourceData) (config : Config) : Except GoError String :=
  getProjectFromSchema "project" d config

/-- Modelled from the spec: getLocation is not among the sources; the
resource's own location when it is set, otherwise the provider-level location
of the configuration. -/
def getLocation (d : ResourceData) (config : Config) : Except GoError String :=
  let (res, ok) := d.GetOk "location"
  if ok then
    match res with
    | .string v => .ok v
    | _ => config.fallbackLocation
  else config.fallbackLocation

def extractNodePoolInformation (d : ResourceData) (config : Config) :
    Except GoError NodePoolInformation :=
  match getProject d config with
  | .error err => .error err
  | .ok project =>
    match getLocation d config with
    | .error err => .error err
    | .ok location => .ok { project := project, location := location, cluster := d.cluster }

/-- Modelled from the spec: handleNotFoundError is not among the sources; a
not-found error (404) marks the resource as gone by clearing its identity and
yields nil, any other error is returned with the resource named in front. -/
def handleNotFoundError (err : GoError) (s : St) (resource : String) : St × Option GoError :=
  if isGoogleApiErrorWithCode err 404 then (s.SetId "", none)
  else (s, some (.plain ("Error when reading or editing " ++ resource ++ ": " ++ err.text)))

/-- What the function handed to `resource.Retry` reports besides success. -/
inductive RetryError where
  | RetryableError (err : GoError)
  | NonRetryableError (err : GoError)
  deriving DecidableEq, Repr

/-- The loop of `resource.Retry`: run `f` until it succeeds, fails for good or
the budget of attempts is used up. On timeout the error of the last attempt is
returned, or the timeout error when there was no attempt. -/
def retryLoop {σ : Type} (f : σ → σ × Option RetryError) :
    Nat → Option GoError → σ → σ × Option GoError
  | 0, resultErr, s => (s, some (resultErr.getD GoError.timeout))
  | n + 1, _, s =>
    match f s with
    | (s', none) => (s', none)
    | (s', some (.RetryableError err)) => retryLoop f n (some err) s'
    | (s', some (.NonRetryableError err)) => (s', some err)

/-- The SDK function `resource.Retry(timeout, f)`. -/
def Retry {σ : Type} (timeout : Nat) (f : σ → σ × Option RetryError) (s : σ) :
    σ × Option GoError :=
  retryLoop f timeout none s

/-- Go `int` arithmetic: the two's complement value of an integer in 64
bits. -/
def wrapInt (x : Int) : Int :=
  (x + 2 ^ 63) % 2 ^ 64 - 2 ^ 63

/-- The function that `containerNodePoolAwaitRestingState` hands to
`resource.Retry`: one fetch of the pool. The state of the loop is the trace and
the named result `state`, which keeps the last status fetched. -/
def awaitAttempt (env : Env) (name : String) (p : List Event × String) :
    (List Event × String) × Option RetryError :=
  let trace' := p.1 ++ [Event.getCall name]
  match env.remote.get p.1 name with
  | .error gErr => ((trace', p.2), some (.NonRetryableError gErr))
  | .ok nodePool =>
    let state := nodePool.Status
    match containerNodePoolRestingStates state with
    | ReadyState => ((trace', state), none)
    | ErrorState => ((trace', state), none)
    | Undefined =>
      ((trace', state), some (.RetryableError (.plain ("NodePool " ++ goQuote name
        ++ " has state " ++ goQuote state ++ " with message "
        ++ goQuote nodePool.StatusMessage))))

/-- The waiter `containerNodePoolAwaitRestingState`: poll the pool until its
status is a resting state; the result is the last status fetched and the error
of the loop. -/
def containerNodePoolAwaitRestingState (env : Env) (name : String) (timeout : Nat)
    (trace : List Event) : List Event × String × Option GoError :=
  let r := Retry timeout (awaitAttempt env name) (trace, "")
  (r.1.1, r.1.2, r.2)

/-- The unique name `resource.PrefixedUniqueId(p)` of the SDK: the given
beginning followed by a fresh suffix. -/
def PrefixedUniqueId (env : Env) (trace : List Event) (p : String) : String :=
  p ++ env.uniqueSuffix trace

/-- The unique name `resource.UniqueId()`. -/
def UniqueId (env : Env) (trace : List Event) : String :=
  PrefixedUniqueId env trace "terraform-"

/-- The function `expandNodePool(d, "")`: the desired remote entity of a
resource record. Every call site passes the empty key prefix, which the
embedding specialises to. -/
def expandNodePool (env : Env) (trace : List Event) (d : ResourceData) :
    Except GoError NodePool :=
  let nameR : Except GoError String :=
    if d.name != "" then
      if ResourceData.name_prefix d != "" then
        .error (.plain "Cannot specify both name and name_prefix for a node_pool")
      else .ok d.name
    else if ResourceData.name_prefix d != "" then
      .ok (PrefixedUniqueId env trace (ResourceData.name_prefix d))
    else .ok (UniqueId env trace)
  match nameR with
  | .error err => .error err
  | .ok name =>
    let nodeCount : Int := if d.initial_node_count != 0 then d.initial_node_count else 0
    let nodeCountR : Except GoError Int :=
      if d.node_count != 0 then
        if nodeCount != 0 then
          .error (.plain ("Cannot set both initial_node_count and node_count on node pool "
            ++ name))
        else .ok d.node_count
      else .ok nodeCount
    match nodeCountR with
    | .error err => .error err
    | .ok nodeCount =>
      .ok {
        Name := name
        InitialNodeCount := nodeCount
        Config := env.expandNodeConfig d.node_config
        Locations := d.node_locations
        Version := d.version
        Autoscaling := d.autoscaling.map fun a =>
          { Enabled := true, MinNodeCount := a.1, MaxNodeCount := a.2 }
        MaxPodsConstraint :=
          if d.max_pods_per_node != 0 then some { MaxPodsPerNode := d.max_pods_per_node }
          else none
        Management := d.management.map fun m => { AutoRepair := m.1, AutoUpgrade := m.2 }
        UpgradeSettings := d.upgrade_settings.map fun u =>
          { MaxSurge := u.1, MaxUnavailable := u.2 }
        InstanceGroupUrls := []
        Status := ""
        StatusMessage := "" }

/-- The loop of `flattenNodePool` over the instance group URLs of a pool: the
sum of the target sizes and the URLs of the managers that still exist. -/
def flattenInstanceGroups (env : Env) :
    List String → List Event → Int → List String → List Event × Except GoError (Int × List String)
  | [], trace, size, igmUrls => (trace, .ok (size, igmUrls))
  | url :: rest, trace, size, igmUrls =>
    match env.igmMatch url with
    | none =>
      (trace, .error (.plain ("Error reading instance group manage URL '" ++ goQuote url ++ "'")))
    | some (project, zone, name) =>
      let trace' := trace ++ [Event.igmGetCall project zone name]
      match env.remote.igmGet trace project zone name with
      | .error err =>
        if isGoogleApiErrorWithCode err 404 then
          flattenInstanceGroups env rest trace' size igmUrls
        else
          (trace', .error (.plain
            ("Error reading instance group manager returned as an instance group URL: "
              ++ goQuote err.text)))
      | .ok targetSize =>
        flattenInstanceGroups env rest trace' (wrapInt (size + targetSize)) (igmUrls ++ [url])

/-- The map that `flattenNodePool` returns. A key that the map may lack is an
option. -/
structure FlatNodePool where
  name : String
  name_prefix : String
  initial_node_count : Int
  node_locations : List String
  node_count : Int
  node_config : String
  instance_group_urls : List String
  version : String
  autoscaling : Option (Option (Int × Int))
  max_pods_per_node : Option Int
  management : Bool × Bool
  upgrade_settings : Option (Int × Int)
  deriving DecidableEq, Repr

/-- The function `flattenNodePool(d, config, np, "")`. -/
def flattenNodePool (env : Env) (d : ResourceData) (np : NodePool) (trace : List Event) :
    List Event × Except GoError FlatNodePool :=
  match env.generateUserAgentString with
  | .error err => (trace, .error err)
  | .ok _ =>
    match flattenInstanceGroups env np.InstanceGroupUrls trace 0 [] with
    | (trace, .error err) => (trace, .error err)
    | (trace, .ok (size, igmUrls)) =>
      let nodeCount : Int :=
        if igmUrls.length > 0 then Int.tdiv size igmUrls.length else 0
      match np.Management with
      | none => (trace, .error (.panic "invalid memory address or nil pointer dereference"))
      | some management =>
        (trace, .ok {
          name := np.Name
          name_prefix := ResourceData.name_prefix d
          initial_node_count := np.InitialNodeCount
          node_locations := np.Locations
          node_count := nodeCount
          node_config := env.flattenNodeConfig np.Config
          instance_group_urls := igmUrls
          version := np.Version
          autoscaling := np.Autoscaling.map fun a =>
            if a.Enabled then some (a.MinNodeCount, a.MaxNodeCount) else none
          max_pods_per_node := np.MaxPodsConstraint.map fun m => m.MaxPodsPerNode
          management := (management.AutoRepair, management.AutoUpgrade)
          upgrade_settings := np.UpgradeSettings.map fun u => (u.MaxSurge, u.MaxUnavailable) })

/-- The loop `for k, v := range npMap { d.Set(k, v) }` of the read callback. -/
def ResourceData.setAll (d : ResourceData) (m : FlatNodePool) : ResourceData :=
  { d with
    name := m.name
    name_prefix := FlatNodePool.name_prefix m
    initial_node_count := m.initial_node_count
    node_locations := m.node_locations
    node_count := m.node_count
    node_config := m.node_config
    instance_group_urls := m.instance_group_urls
    version := m.version
    autoscaling := m.autoscaling.getD d.autoscaling
    max_pods_per_node := m.max_pods_per_node.getD d.max_pods_per_node
    management := some m.management
    upgrade_settings := match m.upgrade_settings with
      | some u => some u
      | none => d.upgrade_settings }

/-! ## The callbacks -/

def resourceContainerNodePoolRead (env : Env) (s : St) : St × Option GoError :=
  match env.generateUserAgentString with
  | .error err => (s, some err)
  | .ok _ =>
    match extractNodePoolInformation s.d env.config with
    | .error err => (s, some err)
    | .ok nodePoolInfo =>
      let name := getNodePoolName s.d.id
      let r := env.remote.get s.trace (nodePoolInfo.fullyQualifiedName name)
      let s := s.emit (.getCall (nodePoolInfo.fullyQualifiedName name))
      match r with
      | .error err =>
        handleNotFoundError err s
          ("NodePool " ++ goQuote name ++ " from cluster " ++ goQuote nodePoolInfo.cluster)
      | .ok nodePool =>
        match flattenNodePool env s.d nodePool s.trace with
        | (trace, .error err) => ({ s with trace := trace }, some err)
        | (trace, .ok npMap) =>
          let d := s.d.setAll npMap
          let d := { d with location := nodePoolInfo.location }
          let d := { d with project := nodePoolInfo.project }
          ({ d := d, trace := trace }, none)

/-- The function that the create callback hands to `resource.Retry`: one
create call, to be retried when the cluster is busy. The state of the loop is
the trace and the variable `operation`. -/
def createAttempt (env : Env) (nodePoolInfo : NodePoolInformation) (nodePool : NodePool)
    (p : List Event × Option Operation) : (List Event × Option Operation) × Option RetryError :=
  let trace' := p.1 ++ [Event.createCall nodePoolInfo.parent nodePool]
  match env.remote.create p.1 nodePoolInfo.parent nodePool with
  | .error err =>
    if isFailedPreconditionError err then ((trace', none), some (.RetryableError err))
    else ((trace', none), some (.NonRetryableError err))
  | .ok operation => ((trace', some operation), none)

/-- The submission loop of the create callback. -/
def createSubmit (env : Env) (nodePoolInfo : NodePoolInformation) (nodePool : NodePool)
    (timeout : Nat) (trace : List Event) : List Event × Option Operation × Option GoError :=
  let r := Retry timeout (createAttempt env nodePoolInfo nodePool) (trace, none)
  (r.1.1, r.1.2, r.2)

/-- The create callback from the point where the cluster mutex is held until
it returns (the unlock is deferred). -/
def createLocked (env : Env) (nodePoolInfo : NodePoolInformation) (nodePool : NodePool)
    (s : St) : St × Option GoError :=
  let timeout := env.timeoutCreate
  let s := s.SetId ("projects/" ++ nodePoolInfo.project ++ "/locations/"
    ++ nodePoolInfo.location ++ "/clusters/" ++ nodePoolInfo.cluster ++ "/nodePools/"
    ++ nodePool.Name)
  match createSubmit env nodePoolInfo nodePool timeout s.trace with
  | (trace, _, some err) =>
    ({ s with trace := trace }, some (.plain ("error creating NodePool: " ++ err.text)))
  | (trace, operation, none) =>
    let s := { s with trace := trace }
    let waitErr := env.remote.operationWait s.trace operation
    let s := s.emit (.operationWait operation "creating GKE NodePool")
    match waitErr with
    | some waitErr => (s.SetId "", some waitErr)
    | none =>
      match resourceContainerNodePoolRead env s with
      | (s, some err) => (s, some err)
      | (s, none) =>
        match containerNodePoolAwaitRestingState env s.d.id env.timeoutCreate s.trace with
        | (trace, _, some err) => ({ s with trace := trace }, some err)
        | (trace, state, none) =>
          let s := { s with trace := trace }
          if containerNodePoolRestingStates state = ErrorState then
            (s, some (.plain ("NodePool " ++ nodePool.Name ++ " was created in the error state "
              ++ goQuote state)))
          else (s, none)

def resourceContainerNodePoolCreate (env : Env) (s : St) : St × Option GoError :=
  match env.generateUserAgentString with
  | .error err => (s, some err)
  | .ok _ =>
    match extractNodePoolInformation s.d env.config with
    | .error err => (s, some err)
    | .ok nodePoolInfo =>
      match expandNodePool env s.trace s.d with
      | .error err => (s, some err)
      | .ok nodePool =>
        let s := s.emit (.lock nodePoolInfo.lockKey)
        let r := createLocked env nodePoolInfo nodePool s
        (r.1.emit (.unlock nodePoolInfo.lockKey), r.2)

/-- The function that the delete callback hands to `resource.Retry`: one
delete call, to be retried when the cluster is busy. -/
def deleteAttempt (env : Env) (nodePoolInfo : NodePoolInformation) (name : String)
    (p : List Event × Option Operation) : (List Event × Option Operation) × Option RetryError :=
  let trace' := p.1 ++ [Event.deleteCall (nodePoolInfo.fullyQualifiedName name)]
  match env.remote.delete p.1 (nodePoolInfo.fullyQualifiedName name) with
  | .error err =>
    if isFailedPreconditionError err then ((trace', none), some (.RetryableError err))
    else ((trace', none), some (.NonRetryableError err))
  | .ok operation => ((trace', some operation), none)

/-- The submission loop of the delete callback. -/
def deleteSubmit (env : Env) (nodePoolInfo : NodePoolInformation) (name : String)
    (timeout : Nat) (trace : List Event) : List Event × Option Operation × Option GoError :=
  let r := Retry timeout (deleteAttempt env nodePoolInfo name) (trace, none)
  (r.1.1, r.1.2, r.2)

/-- The delete callback from the point where the cluster mutex is held until
it returns (the unlock is deferred). -/
def deleteLocked (env : Env) (nodePoolInfo : NodePoolInformation) (name : String)
    (s : St) : St × Option GoError :=
  let timeout := env.timeoutDelete
  match deleteSubmit env nodePoolInfo name timeout s.trace with
  | (trace, _, some err) =>
    ({ s with trace := trace }, some (.plain ("Error deleting NodePool: " ++ err.text)))
  | (trace, operation, none) =>
    let s := { s with trace := trace }
    let waitErr := env.remote.operationWait s.trace operation
    let s := s.emit (.operationWait operation "deleting GKE NodePool")
    match waitErr with
    | some waitErr => (s, some waitErr)
    | none => (s.SetId "", none)

def resourceContainerNodePoolDelete (env : Env) (s : St) : St × Option GoError :=
  match env.generateUserAgentString with
  | .error err => (s, some err)
  | .ok _ =>
    match extractNodePoolInformation s.d env.config with
    | .error err => (s, some err)
    | .ok nodePoolInfo =>
      let name := getNodePoolName s.d.id
      match containerNodePoolAwaitRestingState env (nodePoolInfo.fullyQualifiedName name)
          env.timeoutDelete s.trace with
      | (trace, _, some err) =>
        if isGoogleApiErrorWithCode err 404 then ({ s with trace := trace }, none)
        else ({ s with trace := trace }, some err)
      | (trace, _, none) =>
        let s := { s with trace := trace }
        let s := s.emit (.lock nodePoolInfo.lockKey)
        let r := deleteLocked env nodePoolInfo name s
        (r.1.emit (.unlock nodePoolInfo.lockKey), r.2)

/-- The assignment `d.Set("initial_node_count", v)`. -/
def St.setInitialNodeCount (s : St) (v : Int) : St :=
  { s with d := { s.d with initial_node_count := v } }

/-- The assignment `d.Set("name", v)`, which cannot fail on a string. -/
def St.setName (s : St) (v : String) : St :=
  { s with d := { s.d with name := v } }

/-- The blue/green replacement `nodePoolUpdate(d, meta, nodePoolInfo, "", timeout)`.
The arguments `nodePoolInfo` and `timeout` are not used by the body; the key
prefix is empty at the only call site. The results of the two delete calls are
dropped, as in the source. -/
def nodePoolUpdate (env : Env) (_nodePoolInfo : NodePoolInformation) (s : St) :
    St × Option GoError :=
  let name := getNodePoolName s.d.id
  let tmpName := "temp-node-pool"
  let s := s.setInitialNodeCount 0
  let s := s.SetId (getNodePoolIdHead s.d.id ++ "/" ++ tmpName)
  let s := s.setName tmpName
  match resourceContainerNodePoolCreate env s with
  | (s, some err) => (s, some err)
  | (s, none) =>
    let s := s.SetId (getNodePoolIdHead s.d.id ++ "/" ++ name)
    let s := s.setInitialNodeCount 0
    let s := s.setName name
    let s := (resourceContainerNodePoolDelete env s).1
    match resourceContainerNodePoolCreate env s with
    | (s, some err) => (s, some err)
    | (s, none) =>
      let s := s.SetId (getNodePoolIdHead s.d.id ++ "/" ++ tmpName)
      let s := s.setName tmpName
      let s := (resourceContainerNodePoolDelete env s).1
      let s := s.SetId (getNodePoolIdHead s.d.id ++ "/" ++ name)
      let s := s.setName name
      (s, none)

def resourceContainerNodePoolUpdate (env : Env) (s : St) : St × Option GoError :=
  match env.generateUserAgentString with
  | .error err => (s, some err)
  | .ok _ =>
    match extractNodePoolInformation s.d env.config with
    | .error err => (s, some err)
    | .ok nodePoolInfo =>
      let name := getNodePoolName s.d.id
      match containerNodePoolAwaitRestingState env (nodePoolInfo.fullyQualifiedName name)
          env.timeoutUpdate s.trace with
      | (trace, _, some err) => ({ s with trace := trace }, some err)
      | (trace, _, none) =>
        match nodePoolUpdate env nodePoolInfo { s with trace := trace } with
        | (s, some err) => (s, some err)
        | (s, none) =>
          match containerNodePoolAwaitRestingState env (nodePoolInfo.fullyQualifiedName name)
              env.timeoutUpdate s.trace with
          | (trace, _, some err) => ({ s with trace := trace }, some err)
          | (trace, _, none) => resourceContainerNodePoolRead env { s with trace := trace }

def resourceContainerNodePoolExists (env : Env) (s : St) : St × Bool × Option GoError :=
  match extractNodePoolInformation s.d env.config with
  | .error err => (s, false, some err)
  | .ok nodePoolInfo =>
    match env.generateUserAgentString with
    | .error err => (s, false, some err)
    | .ok _ =>
      let name := getNodePoolName s.d.id
      let r := env.remote.get s.trace (nodePoolInfo.fullyQualifiedName name)
      let s := s.emit (.getCall (nodePoolInfo.fullyQualifiedName name))
      match r with
      | .error err =>
        match handleNotFoundError err s ("Container NodePool " ++ name) with
        | (s, none) => (s, false, none)
        | (s, some err) => (s, true, some err)
      | .ok _ => (s, true, none)

/-- The trace `t'` continues the trace `t`, and the mutating remote calls
among the added events are exactly `calls`. -/
def Extends (t t' : List Event) (calls : List MutatingCall) : Prop :=
  ∃ new, t' = t ++ new ∧ mutatingCalls new = calls

/-- Every remote call succeeds. -/
def Remote.AllCallsSucceed (remote : Remote) : Prop :=
  (∀ h parent nodePool, ∃ operation, remote.create h parent nodePool = .ok operation) ∧
  (∀ h name, ∃ operation, remote.delete h name = .ok operation) ∧
  (∀ h name, ∃ nodePool, remote.get h name = .ok nodePool) ∧
  (∀ h project zone name, ∃ targetSize, remote.igmGet h project zone name = .ok targetSize) ∧
  (∀ h operation, remote.operationWait h operation = none)

/-! ## Scenarios

Concrete remote services and resource records on which the theorems below are
instantiated. -/

/-- A pool as the service reports it, with the given name and status. -/
def reportedPool (name status : String) : NodePool :=
  { Name := name, InitialNodeCount := 1, Config := "", Locations := [], Version := "1.27",
    Autoscaling := none, MaxPodsConstraint := none,
    Management := some { AutoRepair := false, AutoUpgrade := false },
    UpgradeSettings := none, InstanceGroupUrls := [], Status := status, StatusMessage := "" }

/-- A service whose calls have fixed outcomes: each kind of call fails with the
given error, or succeeds when there is none; a fetched pool has the given
status. -/
def fixedRemote (createErr deleteErr getErr waitErr : Option GoError) (status : String) :
    Remote :=
  { create := fun _ _ _ =>
      match createErr with
      | some e => .error e
      | none => .ok { Name := "operation-create" }
    delete := fun _ _ =>
      match deleteErr with
      | some e => .error e
      | none => .ok { Name := "operation-delete" }
    get := fun _ name =>
      match getErr with
      | some e => .error e
      | none => .ok (reportedPool (getNodePoolName name) status)
    igmGet := fun _ _ _ _ => .ok 3
    operationWait := fun _ _ => waitErr }

/-- The execution context of the scenarios around a given service. -/
def scenarioEnv (remote : Remote) : Env :=
  { config := { Project := "P", fallbackLocation := .ok "L" }
    remote := remote
    timeoutCreate := 3
    timeoutUpdate := 3
    timeoutDelete := 3
    generateUserAgentString := .ok "terraform"
    uniqueSuffix := fun _ => "20240101000000000000000001"
    igmMatch := fun _ => none
    expandNodeConfig := fun c => c
    flattenNodeConfig := fun c => c }

/-- The record of the pool `p` of cluster `C`. -/
def poolRecord : ResourceData :=
  { id := "projects/P/locations/L/clusters/C/nodePools/p"
    project := "P"
    location := "L"
    cluster := "C"
    name := "p"
    name_prefix := ""
    initial_node_count := 0
    node_count := 1
    node_locations := []
    version := "1.27"
    node_config := ""
    autoscaling := none
    max_pods_per_node := 0
    management := none
    upgrade_settings := none
    instance_group_urls := [] }

/-- The scope of `poolRecord`. -/
def poolScope : NodePoolInformation :=
  { project := "P", location := "L", cluster := "C" }

/-- A server-side failure that is not a busy cluster. -/
def backendError : GoError := .api 500 false "googleapi: Error 500: backend error"

/-- The not-found answer of the service. -/
def notFoundError : GoError := .api 404 false "googleapi: Error 404: not found"

/-- Every call succeeds and every pool is running. -/
def healthyRemote : Remote := fixedRemote none none none none "RUNNING"

/-- The create call fails outright. -/
def createFailsRemote : Remote := fixedRemote (some backendError) none none none "RUNNING"

/-- The delete call fails outright. -/
def deleteFailsRemote : Remote := fixedRemote none (some backendError) none none "RUNNING"

/-- Calls are accepted but their operations fail. -/
def waitFailsRemote : Remote :=
  fixedRemote none none none (some (.plain "Error waiting for operation: failed")) "RUNNING"

/-- Every call succeeds but the pools rest in the error state. -/
def brokenPoolRemote : Remote := fixedRemote none none none none "ERROR"

/-- No pool exists. -/
def goneRemote : Remote := fixedRemote none none (some notFoundError) none "RUNNING"

/-- A healthy service, except that it rejects the create call for pools with
some names and the delete call for some fully qualified names. -/
def faultyRemote (createErr deleteErr : String → Option GoError) : Remote :=
  { healthyRemote with
    create := fun _ _ nodePool =>
      match createErr nodePool.Name with
      | some e => .error e
      | none => .ok { Name := "operation-create" }
    delete := fun _ name =>
      match deleteErr name with
      | some e => .error e
      | none => .ok { Name := "operation-delete" } }

/-- The answer of the service to the creation of a pool that exists. -/
def alreadyExistsError : GoError := .api 409 false "googleapi: Error 409: already exists"

/-- The delete call for the original pool `p` fails, so that `p` still exists
and its re-creation is rejected. -/
def originalDeleteFailsRemote : Remote :=
  faultyRemote (fun name => if name = "p" then some alreadyExistsError else none)
    (fun name =>
      if name = "projects/P/locations/L/clusters/C/nodePools/p" then some backendError
      else none)

/-- Only the delete call for the temporary pool fails. -/
def tempDeleteFailsRemote : Remote :=
  faultyRemote (fun _ => none)
    (fun name =>
      if name = "projects/P/locations/L/clusters/C/nodePools/temp-node-pool" then
        some backendError
      else none)

/-- The service cannot be reached for a fetch. -/
def fetchFailsRemote : Remote := fixedRemote none none (some backendError) none "RUNNING"

/-- The service answers the successive fetches of the pool `name`, the first
of them made after `trace`, with pools of the listed statuses. -/
def FetchesYield (env : Env) (name : String) : List Event → List String → Prop
  | _, [] => True
  | trace, status :: rest =>
    (∃ nodePool, env.remote.get trace name = .ok nodePool ∧ nodePool.Status = status) ∧
    FetchesYield env name (trace ++ [Event.getCall name]) rest

/-- The call is rejected with a failed-precondition error at each of the next
`n` attempts, the first of them made after `trace`; `event` is the event an
attempt adds to the trace. -/
def BusyFor (call : List Event → Except GoError Operation) (event : Event) :
    List Event → Nat → Prop
  | _, 0 => True
  | trace, n + 1 =>
    (∃ err, call trace = .error err ∧ isFailedPreconditionError err = true) ∧
    BusyFor call event (trace ++ [event]) n

/-- The error of a busy cluster. -/
def busyError : GoError := .api 400 true "googleapi: Error 400: cluster is busy, failedPrecondition"

/-- A service whose fetches of a pool report the listed statuses one after the
other, and not-found once the list is used up. -/
def pollingRemote (statuses : List String) : Remote :=
  { healthyRemote with
    get := fun h name =>
      match statuses[List.count (Event.getCall name) h]? with
      | some status => .ok (reportedPool (getNodePoolName name) status)
      | none => .error notFoundError }

/-- A healthy service, except that the cluster is busy for the first `n`
create calls and the first `n` delete calls. -/
def busyRemote (n : Nat) : Remote :=
  { healthyRemote with
    create := fun h parent nodePool =>
      if List.count (Event.createCall parent nodePool) h < n then .error busyError
      else .ok { Name := "operation-create" }
    delete := fun h name =>
      if List.count (Event.deleteCall name) h < n then .error busyError
      else .ok { Name := "operation-delete" } }

/-- The lookups of the instance group managers behind the listed URLs, the
first of them made after `trace`, have the listed outcomes: each URL has the
shape of a manager URL, and the lookup of its manager yields a target size, or
reports not-found when the outcome is `none`. -/
def LookupsYield (env : Env) : List Event → List (String × Option Int) → Prop
  | _, [] => True
  | trace, (url, outcome) :: rest =>
    ∃ project zone name, env.igmMatch url = some (project, zone, name) ∧
      (match outcome with
        | some targetSize => env.remote.igmGet trace project zone name = .ok targetSize
        | none => ∃ err, env.remote.igmGet trace project zone name = .error err ∧
            isGoogleApiErrorWithCode err 404 = true) ∧
      LookupsYield env (trace ++ [Event.igmGetCall project zone name]) rest

/-- The target sizes of the managers that exist, in the order of the lookups. -/
def existingSizes (lookups : List (String × Option Int)) : List Int :=
  lookups.filterMap Prod.snd

/-- The URLs of the managers that exist, in the order of the lookups. -/
def existingUrls (lookups : List (String × Option Int)) : List String :=
  (lookups.filter fun l => l.2.isSome).map Prod.fst

/-- A healthy service whose instance group managers have the target sizes of
the table; a manager that the table lacks, or lists without a size, is
not found. -/
def igmRemote (table : List (String × Option Int)) : Remote :=
  { healthyRemote with
    igmGet := fun _ _ _ name =>
      match table.lookup name with
      | some (some targetSize) => .ok targetSize
      | _ => .error notFoundError }

/-- The execution context around `igmRemote`, in which every URL is read as
the manager of that name in project `P`. -/
def igmEnv (table : List (String × Option Int)) : Env :=
  { scenarioEnv (igmRemote table) with
    igmMatch := fun url => some ("P", "us-central1-a", url) }

/-- A running pool backed by the instance groups of the listed URLs. -/
def groupedPool (urls : List String) : NodePool :=
  { reportedPool "p" "RUNNING" with InstanceGroupUrls := urls }

/-- Whether the event is an operation of the cluster mutex. -/
def Event.isMutex : Event → Bool
  | .lock _ => true
  | .unlock _ => true
  | _ => false

/-- The trace `t'` continues the trace `t` without any operation of the
mutex. -/
def NoMutex (t t' : List Event) : Prop :=
  ∃ new, t' = t ++ new ∧ ∀ e ∈ new, e.isMutex = false

/-- A record that sets a name and a name beginning at once, and both node
counts. -/
def conflictingRecord : ResourceData :=
  { poolRecord with name := "a", name_prefix := "b", initial_node_count := 1, node_count := 2 }

/-- A record that sets the name, the version and every optional block. -/
def fullRecord : ResourceData :=
  { poolRecord with
    autoscaling := some (1, 5)
    max_pods_per_node := 110
    management := some (true, false)
    upgrade_settings := some (2, 1) }

/-! ## The guest accelerator diff

The function `resourceNodeConfigEmptyGuestAccelerator` of
`resource_container_cluster.go`. -/

/-- A `guest_accelerator` block of the node configuration: its count and the
rest of the block, which is only compared. -/
structure GuestAccelerator where
  count : Int
  type : String
  deriving DecidableEq, Repr

/-- How the loop over the new blocks ends: it runs to its end with the index
into the old list and the flag `hasAcceleratorWithEmptyCount`, it returns
early from the function, or an index is out of range. -/
inductive AcceleratorLoop where
  | finished (index : Nat) (hasAcceleratorWithEmptyCount : Bool)
  | returned
  | indexOutOfRange
  deriving DecidableEq, Repr

/-- The loop `for i, item := range nList` with its variables `index` and
`hasAcceleratorWithEmptyCount`. -/
def acceleratorLoop (oList : List GuestAccelerator) :
    List GuestAccelerator → Nat → Bool → AcceleratorLoop
  | [], index, hasAcceleratorWithEmptyCount => .finished index hasAcceleratorWithEmptyCount
  | item :: rest, index, hasAcceleratorWithEmptyCount =>
    if item.count = 0 then acceleratorLoop oList rest index true
    else if index ≥ oList.length then .returned
    else
      match oList[index]? with
      | none => .indexOutOfRange
      | some old =>
        if item ≠ old then .returned
        else acceleratorLoop oList rest (index + 1) hasAcceleratorWithEmptyCount

/-- What the function does to the diff: it leaves it untouched and returns
nil, it calls `diff.Clear` on the guest accelerators and returns the result of
that call, or it stops on an index that is out of range. -/
inductive AcceleratorDiff where
  | untouched
  | cleared (err : Option GoError)
  | indexOutOfRange
  deriving DecidableEq, Repr

/-- The function `resourceNodeConfigEmptyGuestAccelerator` on the old and the
new list of `node_config.0.guest_accelerator`; `clear` is the result of
`diff.Clear`. -/
def resourceNodeConfigEmptyGuestAccelerator (clear : Option GoError)
    (oList nList : List GuestAccelerator) : AcceleratorDiff :=
  if nList.length = oList.length ∨ nList.length = 0 then .untouched
  else
    match acceleratorLoop oList nList 0 false with
    | .returned => .untouched
    | .indexOutOfRange => .indexOutOfRange
    | .finished index hasAcceleratorWithEmptyCount =>
      if hasAcceleratorWithEmptyCount && index == oList.length then .cleared clear
      else .untouched

/-- The new list without its blocks of count 0. -/
def positiveCount (nList : List GuestAccelerator) : List GuestAccelerator :=
  nList.filter fun item => item.count ≠ 0

/-! ## The version of a base path

The function `removeBasePathVersion` of `config.go` replaces the matches of
the regular expression `(?P<base>http[s]://.*)(?P<version>/[^/]+?/$)` by the
group `base` followed by `/`. A match starts at the leftmost position from
which the text reads `https://` (the class `[s]` stands for the letter `s`),
then a part without line break (`.*`), then `/`, a non-empty part without `/`
and a last `/` at the end of the text (`$`); it always reaches the end of the
text, so there is at most one. -/

/-- The characters of `https://`. -/
def schemeChars : List Char := "https://".data

/-- What follows `https://` in a text that begins with it. -/
def afterScheme (l : List Char) : Option (List Char) :=
  if l.take 8 = schemeChars then some (l.drop 8) else none

/-- For the text `t` that follows `https://`: the part `r` of the group `base`
after the scheme, when `t` is `r`, `/`, a version and `/`, with `r` free of
line breaks and the version non-empty and free of `/`. -/
def versionBase (t : List Char) : Option (List Char) :=
  match (splitSlash t).reverse with
  | last :: version :: b :: more =>
    if last = [] ∧ version ≠ [] ∧ '\n' ∉ joinSlash (b :: more).reverse then
      some (joinSlash (b :: more).reverse)
    else none
  | _ => none

/-- The replacement `re.ReplaceAllString(url, "$1/")` on the characters of the
text: the text up to the leftmost match, then the group `base` and `/`. -/
def replaceVersion : List Char → List Char
  | [] => []
  | c :: cs =>
    match (afterScheme (c :: cs)).bind versionBase with
    | some r => schemeChars ++ r ++ ['/']
    | none => c :: replaceVersion cs

def removeBasePathVersion (url : String) : String :=
  String.mk (replaceVersion url.data)

/-- The default base path of the container beta API. -/
def ContainerBetaDefaultBasePath : String := "https://container.googleapis.com/v1beta1/"

/-! ## The health of a run

A run is judged by its own events. Each remote call of a callback is answered
from the trace before it and is then recorded as the next event, so the calls
that a run makes, and the histories at which it makes them, can be read off
its trace. -/

/-- Whether an event is a fetch: the read of a pool or of an instance group
manager. -/
def Event.isFetch : Event → Bool
  | .getCall _ => true
  | .igmGetCall _ _ _ => true
  | _ => false

/-- Whether the service answers the remote call behind the event `e`, made
after the history `h`, with success; for the fetch of a pool, whether in
addition the pool reported is well formed (it carries a management block and
its instance group URLs have the shape of instance group manager URLs) and is
not in an error state. An event that is no remote call counts as answered. -/
def Env.answerOk (env : Env) (h : List Event) : Event → Bool
  | .createCall parent nodePool =>
    match env.remote.create h parent nodePool with
    | .ok _ => true
    | .error _ => false
  | .deleteCall name =>
    match env.remote.delete h name with
    | .ok _ => true
    | .error _ => false
  | .getCall name =>
    match env.remote.get h name with
    | .ok nodePool =>
      decide (containerNodePoolRestingStates nodePool.Status ≠ ErrorState)
        && nodePool.Management.isSome
        && nodePool.InstanceGroupUrls.all fun url => (env.igmMatch url).isSome
    | .error _ => false
  | .igmGetCall project zone name =>
    match env.remote.igmGet h project zone name with
    | .ok _ => true
    | .error _ => false
  | .operationWait operation _ => (env.remote.operationWait h operation).isNone
  | _ => true

/-- Whether the event `e` is the fetch of a pool that the service, asked after
the history `h`, reports in transition, that is, in no resting state. -/
def Env.inTransition (env : Env) (h : List Event) : Event → Bool
  | .getCall name =>
    match env.remote.get h name with
    | .ok nodePool => decide (containerNodePoolRestingStates nodePool.Status = Undefined)
    | .error _ => false
  | _ => false

/-- Whether the events `new`, which follow the history `h`, make a healthy
run: every remote call among them is answered with success, every pool fetched
is well formed and not in an error state, and every fetch that finds a pool in
transition is followed by a further fetch, so that no wait for a resting state
gives up. -/
def Env.runOk (env : Env) : List Event → List Event → Bool
  | _, [] => true
  | h, e :: rest =>
    env.answerOk h e
      && (!env.inTransition h e || (rest.head?.map Event.isFetch).getD false)
      && env.runOk (h ++ [e]) rest

/-- The run that leads from the trace `t` to the trace `final` is healthy, seen
event by event. -/
def Env.Healthy (env : Env) (t final : List Event) : Prop :=
  ∀ h e rest, t <+: h → final = h ++ e :: rest →
    env.answerOk h e = true ∧
    (env.inTransition h e = true → ∃ e' rest', rest = e' :: rest' ∧ e'.isFetch = true)

/-- What a cluster that starts with the pools `initial` knows of the pool with
the fully qualified name `name` after the history `h`: whether the pool
exists, and how many times it has been fetched since it was created. -/
def poolState (initial : List String) (name : String) (h : List Event) : Bool × Nat :=
  h.foldl (fun st e =>
    match e with
    | .createCall parent nodePool =>
      if parent ++ "/nodePools/" ++ nodePool.Name = name then
        (true, if st.1 then st.2 else 0)
      else st
    | .deleteCall n => if n = name then (false, 0) else st
    | .getCall n => if n = name then (st.1, st.2 + 1) else st
    | _ => st) (initial.contains name, 1)

/-- A cluster that keeps track of its pools. It starts with the running pools
`initial`; the creation of a pool that exists is rejected, a pool that does not
exist is not found by a fetch or a delete call, and a pool that has just been
created is reported as `PROVISIONING` at its first fetch and as `RUNNING` from
then on. -/
def clusterRemote (initial : List String) : Remote :=
  { create := fun h parent nodePool =>
      if (poolState initial (parent ++ "/nodePools/" ++ nodePool.Name) h).1 then
        .error alreadyExistsError
      else .ok { Name := "operation-create" }
    delete := fun h name =>
      if (poolState initial name h).1 then .ok { Name := "operation-delete" }
      else .error notFoundError
    get := fun h name =>
      match poolState initial name h with
      | (true, 0) => .ok (reportedPool (getNodePoolName name) "PROVISIONING")
      | (true, _) => .ok (reportedPool (getNodePoolName name) "RUNNING")
      | (false, _) => .error notFoundError
    igmGet := fun _ _ _ _ => .ok 3
    operationWait := fun _ _ => none }

/-- Every call succeeds but the pools never leave the `PROVISIONING` state. -/
def stuckPoolRemote : Remote := fixedRemote none none none none "PROVISIONING"

/-! # Theorems -/

/-! ## Path components -/

theorem splitSlash_ne_nil (l : List Char) : splitSlash l ≠ [] := by
  cases l with
  | nil => simp [splitSlash]
  | cons c cs =>
    unfold splitSlash
    split
    · simp
    · split <;> simp

theorem splitSlash_append_slash (a b : List Char) :
    splitSlash (a ++ '/' :: b) = splitSlash a ++ splitSlash b := by
  induction a with
  | nil => simp [splitSlash]
  | cons c cs ih =>
    by_cases hc : c = '/'
    · simp [splitSlash, hc, ih]
    · have h1 := splitSlash_ne_nil cs
      cases hs : splitSlash cs with
      | nil => exact absurd hs h1
      | cons seg rest => simp [splitSlash, hc, ih, hs]

theorem splitSlash_no_slash (l : List Char) : ∀ seg ∈ splitSlash l, '/' ∉ seg := by
  induction l with
  | nil => simp [splitSlash]
  | cons c cs ih =>
    by_cases hc : c = '/'
    · simp only [splitSlash, hc, if_true]
      intro seg hseg
      rcases List.mem_cons.mp hseg with h | h
      · simp [h]
      · exact ih seg h
    · cases hs : splitSlash cs with
      | nil => exact absurd hs (splitSlash_ne_nil cs)
      | cons seg rest =>
        rw [hs] at ih
        simp only [splitSlash, hc, if_false, hs]
        intro seg' hseg'
        rcases List.mem_cons.mp hseg' with h | h
        · subst h
          have := ih seg (List.mem_cons_self _ _)
          simp only [List.mem_cons, not_or]
          exact ⟨fun h => hc h.symm, this⟩
        · exact ih seg' (List.mem_cons_of_mem _ h)

theorem splitSlash_of_no_slash (l : List Char) (h : '/' ∉ l) : splitSlash l = [l] := by
  induction l with
  | nil => simp [splitSlash]
  | cons c cs ih =>
    simp only [List.mem_cons, not_or] at h
    have hc : c ≠ '/' := fun e => h.1 e.symm
    simp [splitSlash, hc, ih h.2]

/-- The last path component of `a ++ "/" ++ b` is the last path component of `b`. -/
theorem getNodePoolName_append_slash (a b : String) :
    getNodePoolName (a ++ "/" ++ b) = getNodePoolName b := by
  have hd : (a ++ "/" ++ b).data = a.data ++ '/' :: b.data := by
    simp [String.data_append]
  simp only [getNodePoolName, stringsSplit, hd, splitSlash_append_slash, List.map_append]
  rw [List.getLast?_append_of_ne_nil]
  simp [splitSlash_ne_nil]

/-- The last path component of an id has no `/`. -/
theorem getNodePoolName_no_slash (id : String) : '/' ∉ (getNodePoolName id).data := by
  have h1 := splitSlash_ne_nil id.data
  have h2 := splitSlash_no_slash id.data
  simp only [getNodePoolName, stringsSplit]
  rw [List.getLast?_map]
  rcases List.getLast?_eq_some_iff.mp (List.getLast?_eq_getLast _ h1) with ⟨ys, hys⟩
  rw [hys] at h2 ⊢
  simp
  exact h2 _ (by simp)

theorem getNodePoolName_of_no_slash (n : String) (h : '/' ∉ n.data) : getNodePoolName n = n := by
  simp [getNodePoolName, stringsSplit, splitSlash_of_no_slash _ h]

theorem getNodePoolName_idem (id : String) :
    getNodePoolName (getNodePoolName id) = getNodePoolName id :=
  getNodePoolName_of_no_slash _ (getNodePoolName_no_slash id)


/-! ## Traces -/

theorem mutatingCalls_append (a b : List Event) :
    mutatingCalls (a ++ b) = mutatingCalls a ++ mutatingCalls b := by
  simp [mutatingCalls, List.filterMap_append]

theorem Extends.refl (t : List Event) : Extends t t [] :=
  ⟨[], by simp, rfl⟩

theorem Extends.trans {t t' t'' : List Event} {c c' : List MutatingCall}
    (h : Extends t t' c) (h' : Extends t' t'' c') : Extends t t'' (c ++ c') := by
  obtain ⟨n, hn, hc⟩ := h
  obtain ⟨n', hn', hc'⟩ := h'
  exact ⟨n ++ n', by rw [hn', hn, List.append_assoc], by rw [mutatingCalls_append, hc, hc']⟩

theorem Extends.emit (t : List Event) (e : Event) :
    Extends t (t ++ [e]) e.mutating.toList :=
  ⟨[e], rfl, by cases h : e.mutating <;> simp [mutatingCalls, h]⟩

/-! ## The retry loop -/

theorem retryLoop_succ_none {σ : Type} (f : σ → σ × Option RetryError) (n : Nat)
    (r : Option GoError) (s s' : σ) (h : f s = (s', none)) :
    retryLoop f (n + 1) r s = (s', none) := by
  simp [retryLoop, h]

theorem retryLoop_succ_nonRetryable {σ : Type} (f : σ → σ × Option RetryError) (n : Nat)
    (r : Option GoError) (s s' : σ) (e : GoError)
    (h : f s = (s', some (.NonRetryableError e))) :
    retryLoop f (n + 1) r s = (s', some e) := by
  simp [retryLoop, h]

/-- A property of the loop state that every attempt preserves holds when the
loop ends. -/
theorem retryLoop_invariant {σ : Type} (f : σ → σ × Option RetryError) (P : σ → Prop)
    (hf : ∀ s, P s → P (f s).1) :
    ∀ (n : Nat) (r : Option GoError) (s : σ), P s → P (retryLoop f n r s).1 := by
  intro n
  induction n with
  | zero => intro r s hs; simpa [retryLoop] using hs
  | succ n ih =>
    intro r s hs
    have h1 := hf s hs
    unfold retryLoop
    rcases hfs : f s with ⟨s', _ | ⟨e⟩ | ⟨e⟩⟩
    · rw [hfs] at h1; simpa using h1
    · rw [hfs] at h1; simpa using ih (some e) s' h1
    · rw [hfs] at h1; simpa using h1

/-! ## The resting-state waiter -/

/-- The waiter only adds fetches to the trace. -/
theorem awaitAttempt_trace (env : Env) (name : String) (p : List Event × String) :
    (awaitAttempt env name p).1.1 = p.1 ++ [Event.getCall name] := by
  unfold awaitAttempt
  cases hg : env.remote.get p.1 name with
  | error e => rfl
  | ok np =>
    simp only
    cases hc : containerNodePoolRestingStates np.Status <;> rfl

theorem containerNodePoolAwaitRestingState_extends (env : Env) (name : String) (timeout : Nat)
    (trace : List Event) :
    Extends trace (containerNodePoolAwaitRestingState env name timeout trace).1 [] := by
  unfold containerNodePoolAwaitRestingState Retry
  apply retryLoop_invariant (awaitAttempt env name) (fun p => Extends trace p.1 [])
  · intro p hp
    rw [awaitAttempt_trace]
    simpa using hp.trans (Extends.emit p.1 (Event.getCall name))
  · exact Extends.refl _

theorem Extends.isPrefix {t t' : List Event} {c : List MutatingCall} (h : Extends t t' c) :
    t <+: t' := by
  obtain ⟨n, hn, _⟩ := h
  exact ⟨n, hn.symm⟩

/-! ## Reading a pool -/

/-- The loop over the instance groups only adds manager lookups to the trace. -/
theorem flattenInstanceGroups_extends (env : Env) (urls : List String) :
    ∀ (trace : List Event) (size : Int) (igmUrls : List String),
      Extends trace (flattenInstanceGroups env urls trace size igmUrls).1 [] := by
  induction urls with
  | nil => intro trace size igmUrls; exact Extends.refl _
  | cons url rest ih =>
    intro trace size igmUrls
    unfold flattenInstanceGroups
    cases hm : env.igmMatch url with
    | none => exact Extends.refl _
    | some m =>
      obtain ⟨project, zone, name⟩ := m
      have hstep : Extends trace (trace ++ [Event.igmGetCall project zone name]) [] :=
        Extends.emit _ _
      cases hg : env.remote.igmGet trace project zone name with
      | error err =>
        by_cases h404 : isGoogleApiErrorWithCode err 404 = true
        · simpa [hg, h404] using hstep.trans (ih _ size igmUrls)
        · simpa [hg, h404] using hstep
      | ok targetSize =>
        simpa [hg] using hstep.trans (ih _ (wrapInt (size + targetSize)) (igmUrls ++ [url]))

theorem flattenNodePool_extends (env : Env) (d : ResourceData) (np : NodePool)
    (trace : List Event) : Extends trace (flattenNodePool env d np trace).1 [] := by
  unfold flattenNodePool
  cases env.generateUserAgentString with
  | error err => exact Extends.refl _
  | ok ua =>
    have h := flattenInstanceGroups_extends env np.InstanceGroupUrls trace 0 []
    rcases hf : flattenInstanceGroups env np.InstanceGroupUrls trace 0 [] with ⟨t, _ | ⟨size, urls⟩⟩
    · rw [hf] at h; simpa using h
    · rw [hf] at h
      cases np.Management <;> simpa using h

theorem handleNotFoundError_extends (err : GoError) (s : St) (resource : String) :
    Extends s.trace (handleNotFoundError err s resource).1.trace [] := by
  unfold handleNotFoundError
  split
  · exact Extends.emit s.trace (Event.setId "")
  · exact Extends.refl _

/-- The read callback issues no mutating remote call. -/
theorem resourceContainerNodePoolRead_extends (env : Env) (s : St) :
    Extends s.trace (resourceContainerNodePoolRead env s).1.trace [] := by
  unfold resourceContainerNodePoolRead
  cases env.generateUserAgentString with
  | error err => exact Extends.refl _
  | ok ua =>
    cases extractNodePoolInformation s.d env.config with
    | error err => exact Extends.refl _
    | ok info =>
      have hstep : Extends s.trace
          (s.emit (.getCall (info.fullyQualifiedName (getNodePoolName s.d.id)))).trace [] :=
        Extends.emit _ _
      simp only
      cases env.remote.get s.trace (info.fullyQualifiedName (getNodePoolName s.d.id)) with
      | error err => simpa using hstep.trans (handleNotFoundError_extends err _ _)
      | ok np =>
        have h := flattenNodePool_extends env
          (s.emit (.getCall (info.fullyQualifiedName (getNodePoolName s.d.id)))).d np
          (s.emit (.getCall (info.fullyQualifiedName (getNodePoolName s.d.id)))).trace
        simp only
        rcases hf : flattenNodePool env
          (s.emit (.getCall (info.fullyQualifiedName (getNodePoolName s.d.id)))).d np
          (s.emit (.getCall (info.fullyQualifiedName (getNodePoolName s.d.id)))).trace
          with ⟨t, _ | m⟩
        · rw [hf] at h; simpa using hstep.trans h
        · rw [hf] at h; simpa using hstep.trans h

/-! ## Submitting a call -/

theorem createAttempt_trace (env : Env) (info : NodePoolInformation) (np : NodePool)
    (p : List Event × Option Operation) :
    (createAttempt env info np p).1.1 = p.1 ++ [Event.createCall info.parent np] := by
  unfold createAttempt
  cases env.remote.create p.1 info.parent np with
  | error e => simp only; split <;> rfl
  | ok op => rfl

theorem deleteAttempt_trace (env : Env) (info : NodePoolInformation) (name : String)
    (p : List Event × Option Operation) :
    (deleteAttempt env info name p).1.1
      = p.1 ++ [Event.deleteCall (info.fullyQualifiedName name)] := by
  unfold deleteAttempt
  cases env.remote.delete p.1 (info.fullyQualifiedName name) with
  | error e => simp only; split <;> rfl
  | ok op => rfl

theorem createSubmit_isPrefix (env : Env) (info : NodePoolInformation) (np : NodePool)
    (timeout : Nat) (trace : List Event) :
    trace <+: (createSubmit env info np timeout trace).1 := by
  unfold createSubmit Retry
  apply retryLoop_invariant (createAttempt env info np) (fun p => trace <+: p.1)
  · intro p hp
    rw [createAttempt_trace]
    exact hp.trans (List.prefix_append _ _)
  · exact List.prefix_refl _

/-- With a positive budget the submission loop makes the create call first. -/
theorem createSubmit_first_call (env : Env) (info : NodePoolInformation) (np : NodePool)
    (timeout : Nat) (trace : List Event) (ht : 0 < timeout) :
    trace ++ [Event.createCall info.parent np] <+: (createSubmit env info np timeout trace).1 := by
  obtain ⟨n, rfl⟩ := Nat.exists_eq_succ_of_ne_zero (Nat.pos_iff_ne_zero.mp ht)
  have hinv := retryLoop_invariant (createAttempt env info np)
    (fun p => trace ++ [Event.createCall info.parent np] <+: p.1)
    (fun p hp => by
      show _ <+: (createAttempt env info np p).1.1
      rw [createAttempt_trace]; exact hp.trans (List.prefix_append _ _))
  have h1 := createAttempt_trace env info np (trace, none)
  unfold createSubmit Retry retryLoop
  rcases hfs : createAttempt env info np (trace, none) with ⟨s', _ | ⟨e⟩ | ⟨e⟩⟩
  · rw [hfs] at h1; simp only at h1 ⊢; rw [h1]
  · rw [hfs] at h1; simp only at h1 ⊢
    exact hinv n (some e) s' (by show _ <+: s'.1; rw [h1])
  · rw [hfs] at h1; simp only at h1 ⊢; rw [h1]

theorem createSubmit_ok (env : Env) (info : NodePoolInformation) (np : NodePool)
    (timeout : Nat) (trace : List Event) (op : Operation) (ht : 0 < timeout)
    (h : env.remote.create trace info.parent np = .ok op) :
    createSubmit env info np timeout trace
      = (trace ++ [Event.createCall info.parent np], some op, none) := by
  obtain ⟨n, rfl⟩ := Nat.exists_eq_succ_of_ne_zero (Nat.pos_iff_ne_zero.mp ht)
  simp [createSubmit, Retry, retryLoop, createAttempt, h]

theorem createSubmit_fail (env : Env) (info : NodePoolInformation) (np : NodePool)
    (timeout : Nat) (trace : List Event) (e : GoError) (ht : 0 < timeout)
    (h : env.remote.create trace info.parent np = .error e)
    (hfp : isFailedPreconditionError e = false) :
    createSubmit env info np timeout trace
      = (trace ++ [Event.createCall info.parent np], none, some e) := by
  obtain ⟨n, rfl⟩ := Nat.exists_eq_succ_of_ne_zero (Nat.pos_iff_ne_zero.mp ht)
  simp [createSubmit, Retry, retryLoop, createAttempt, h, hfp]

theorem deleteSubmit_ok (env : Env) (info : NodePoolInformation) (name : String)
    (timeout : Nat) (trace : List Event) (op : Operation) (ht : 0 < timeout)
    (h : env.remote.delete trace (info.fullyQualifiedName name) = .ok op) :
    deleteSubmit env info name timeout trace
      = (trace ++ [Event.deleteCall (info.fullyQualifiedName name)], some op, none) := by
  obtain ⟨n, rfl⟩ := Nat.exists_eq_succ_of_ne_zero (Nat.pos_iff_ne_zero.mp ht)
  simp [deleteSubmit, Retry, retryLoop, deleteAttempt, h]

/-! ## The create callback -/

/-- Whatever the create callback does after the submission loop only adds to
the trace the loop left. -/
theorem createLocked_submit_isPrefix (env : Env) (info : NodePoolInformation) (np : NodePool)
    (s : St) :
    (createSubmit env info np env.timeoutCreate
        (s.trace ++ [Event.setId (info.fullyQualifiedName np.Name)])).1
      <+: (createLocked env info np s).1.trace := by
  unfold createLocked
  simp only [St.SetId, St.emit, ← NodePoolInformation.fullyQualifiedName.eq_1]
  rcases hcs : createSubmit env info np env.timeoutCreate
    (s.trace ++ [Event.setId (info.fullyQualifiedName np.Name)]) with ⟨t, op, _ | e⟩
  · simp only
    cases hw : env.remote.operationWait t op with
    | some we =>
      simp only
      exact (List.prefix_append _ _).trans (List.prefix_append _ _)
    | none =>
      simp only
      have hr := (resourceContainerNodePoolRead_extends env
        { d := { s.d with id := info.fullyQualifiedName np.Name },
          trace := t ++ [Event.operationWait op "creating GKE NodePool"] }).isPrefix
      have h0 := (List.prefix_append t [Event.operationWait op "creating GKE NodePool"]).trans hr
      rcases hread : resourceContainerNodePoolRead env
        { d := { s.d with id := info.fullyQualifiedName np.Name },
          trace := t ++ [Event.operationWait op "creating GKE NodePool"] } with ⟨s', _ | e⟩
      · rw [hread] at h0
        simp only
        have ha := (containerNodePoolAwaitRestingState_extends env s'.d.id env.timeoutCreate
          s'.trace).isPrefix
        rcases haw : containerNodePoolAwaitRestingState env s'.d.id env.timeoutCreate s'.trace
          with ⟨t', st, _ | e⟩
        · rw [haw] at ha
          simp only
          split <;> exact h0.trans ha
        · rw [haw] at ha
          exact h0.trans ha
      · rw [hread] at h0
        exact h0
  · exact List.prefix_refl _

theorem resourceContainerNodePoolCreate_eq (env : Env) (s : St) (ua : String)
    (info : NodePoolInformation) (np : NodePool)
    (hua : env.generateUserAgentString = .ok ua)
    (hinfo : extractNodePoolInformation s.d env.config = .ok info)
    (hnp : expandNodePool env s.trace s.d = .ok np) :
    resourceContainerNodePoolCreate env s
      = ((createLocked env info np (s.emit (.lock info.lockKey))).1.emit (.unlock info.lockKey),
         (createLocked env info np (s.emit (.lock info.lockKey))).2) := by
  simp [resourceContainerNodePoolCreate, hua, hinfo, hnp]

/-- C4: for every project, location, cluster and expanded pool name, the create
callback assigns the identity `projects/P/locations/L/clusters/C/nodePools/N`,
which is the fully qualified name of the pool, before it issues the first
remote create call: the events of the callback begin with the lock and the
assignment of that identity, and with a positive budget the create call comes
right after them. -/
theorem resourceContainerNodePoolCreate_sets_id_before_create_call (env : Env) (s : St)
    (ua : String) (nodePoolInfo : NodePoolInformation) (nodePool : NodePool)
    (hua : env.generateUserAgentString = .ok ua)
    (hinfo : extractNodePoolInformation s.d env.config = .ok nodePoolInfo)
    (hnp : expandNodePool env s.trace s.d = .ok nodePool) :
    nodePoolInfo.fullyQualifiedName nodePool.Name
        = "projects/" ++ nodePoolInfo.project ++ "/locations/" ++ nodePoolInfo.location
          ++ "/clusters/" ++ nodePoolInfo.cluster ++ "/nodePools/" ++ nodePool.Name ∧
    s.trace ++ [Event.lock nodePoolInfo.lockKey,
        Event.setId (nodePoolInfo.fullyQualifiedName nodePool.Name)]
      <+: (resourceContainerNodePoolCreate env s).1.trace ∧
    (0 < env.timeoutCreate →
      s.trace ++ [Event.lock nodePoolInfo.lockKey,
          Event.setId (nodePoolInfo.fullyQualifiedName nodePool.Name),
          Event.createCall nodePoolInfo.parent nodePool]
        <+: (resourceContainerNodePoolCreate env s).1.trace) := by
  have hpre := createLocked_submit_isPrefix env nodePoolInfo nodePool
    (s.emit (.lock nodePoolInfo.lockKey))
  rw [resourceContainerNodePoolCreate_eq env s ua nodePoolInfo nodePool hua hinfo hnp]
  refine ⟨rfl, ?_, ?_⟩
  · have h1 := createSubmit_isPrefix env nodePoolInfo nodePool env.timeoutCreate
      ((s.emit (.lock nodePoolInfo.lockKey)).trace
        ++ [Event.setId (nodePoolInfo.fullyQualifiedName nodePool.Name)])
    have h2 := (h1.trans hpre).trans (List.prefix_append _ [Event.unlock nodePoolInfo.lockKey])
    simpa [St.emit] using h2
  · intro ht
    have h1 := createSubmit_first_call env nodePoolInfo nodePool env.timeoutCreate
      ((s.emit (.lock nodePoolInfo.lockKey)).trace
        ++ [Event.setId (nodePoolInfo.fullyQualifiedName nodePool.Name)]) ht
    have h2 := (h1.trans hpre).trans (List.prefix_append _ [Event.unlock nodePoolInfo.lockKey])
    simpa [St.emit] using h2

/-- C4, instantiated on the record of pool `p` and a healthy service: the
callback locks the cluster, assigns the identity and only then issues the
create call. -/
theorem resourceContainerNodePoolCreate_sets_id_before_create_call_witness :
    poolScope.fullyQualifiedName "p" = "projects/P/locations/L/clusters/C/nodePools/p" ∧
    [Event.lock "google-container-cluster/P/L/C",
        Event.setId "projects/P/locations/L/clusters/C/nodePools/p",
        Event.createCall "projects/P/locations/L/clusters/C"
          { Name := "p", InitialNodeCount := 1, Config := "", Locations := [],
            Version := "1.27", Autoscaling := none, MaxPodsConstraint := none,
            Management := none, UpgradeSettings := none, InstanceGroupUrls := [],
            Status := "", StatusMessage := "" }]
      <+: (resourceContainerNodePoolCreate (scenarioEnv healthyRemote) ⟨poolRecord, []⟩).1.trace := by
  have h := resourceContainerNodePoolCreate_sets_id_before_create_call
    (scenarioEnv healthyRemote) ⟨poolRecord, []⟩ "terraform" poolScope
    { Name := "p", InitialNodeCount := 1, Config := "", Locations := [], Version := "1.27",
      Autoscaling := none, MaxPodsConstraint := none, Management := none,
      UpgradeSettings := none, InstanceGroupUrls := [], Status := "", StatusMessage := "" }
    rfl rfl rfl
  exact ⟨by decide, by simpa using h.2.2 (by decide)⟩

theorem createLocked_of_submit_error (env : Env) (info : NodePoolInformation) (np : NodePool)
    (s : St) (trace : List Event) (operation : Option Operation) (err : GoError)
    (hsub : createSubmit env info np env.timeoutCreate
      (s.trace ++ [Event.setId (info.fullyQualifiedName np.Name)]) = (trace, operation, some err)) :
    createLocked env info np s
      = ({ d := { s.d with id := info.fullyQualifiedName np.Name }, trace := trace },
         some (.plain ("error creating NodePool: " ++ err.text))) := by
  unfold createLocked
  simp only [St.SetId, ← NodePoolInformation.fullyQualifiedName.eq_1, hsub]

theorem createLocked_of_wait_error (env : Env) (info : NodePoolInformation) (np : NodePool)
    (s : St) (trace : List Event) (operation : Option Operation) (waitErr : GoError)
    (hsub : createSubmit env info np env.timeoutCreate
      (s.trace ++ [Event.setId (info.fullyQualifiedName np.Name)]) = (trace, operation, none))
    (hwait : env.remote.operationWait trace operation = some waitErr) :
    createLocked env info np s
      = ({ d := { s.d with id := "" },
           trace := trace ++ [Event.operationWait operation "creating GKE NodePool",
             Event.setId ""] },
         some waitErr) := by
  unfold createLocked
  simp only [St.SetId, St.emit, ← NodePoolInformation.fullyQualifiedName.eq_1, hsub, hwait]
  simp

theorem createLocked_of_resting (env : Env) (info : NodePoolInformation) (np : NodePool)
    (s s' : St) (trace trace' : List Event) (operation : Option Operation) (state : String)
    (hsub : createSubmit env info np env.timeoutCreate
      (s.trace ++ [Event.setId (info.fullyQualifiedName np.Name)]) = (trace, operation, none))
    (hwait : env.remote.operationWait trace operation = none)
    (hread : resourceContainerNodePoolRead env
      { d := { s.d with id := info.fullyQualifiedName np.Name },
        trace := trace ++ [Event.operationWait operation "creating GKE NodePool"] } = (s', none))
    (hawait : containerNodePoolAwaitRestingState env s'.d.id env.timeoutCreate s'.trace
      = (trace', state, none)) :
    createLocked env info np s
      = ({ s' with trace := trace' },
         if containerNodePoolRestingStates state = ErrorState then
           some (.plain ("NodePool " ++ np.Name ++ " was created in the error state "
             ++ goQuote state))
         else none) := by
  unfold createLocked
  simp only [St.SetId, St.emit, ← NodePoolInformation.fullyQualifiedName.eq_1, hsub, hwait,
    hread, hawait]
  split <;> rfl

/-- C5 (as amended): when the submission loop of the create callback ends with
an error, in particular when the create call fails outright, the callback
returns `error creating NodePool: ...` and the identity is still the fully
qualified name assigned before the call; it is not cleared. -/
theorem resourceContainerNodePoolCreate_call_failure_keeps_id (env : Env) (s : St)
    (ua : String) (nodePoolInfo : NodePoolInformation) (nodePool : NodePool)
    (trace : List Event) (operation : Option Operation) (err : GoError)
    (hua : env.generateUserAgentString = .ok ua)
    (hinfo : extractNodePoolInformation s.d env.config = .ok nodePoolInfo)
    (hnp : expandNodePool env s.trace s.d = .ok nodePool)
    (hsub : createSubmit env nodePoolInfo nodePool env.timeoutCreate
      (s.trace ++ [Event.lock nodePoolInfo.lockKey,
        Event.setId (nodePoolInfo.fullyQualifiedName nodePool.Name)])
      = (trace, operation, some err)) :
    (resourceContainerNodePoolCreate env s).2
        = some (.plain ("error creating NodePool: " ++ err.text)) ∧
    (resourceContainerNodePoolCreate env s).1.d.id
        = nodePoolInfo.fullyQualifiedName nodePool.Name := by
  rw [resourceContainerNodePoolCreate_eq env s ua nodePoolInfo nodePool hua hinfo hnp,
    createLocked_of_submit_error env nodePoolInfo nodePool _ trace operation err
      (by simpa [St.emit] using hsub)]
  exact ⟨rfl, rfl⟩

/-- C5, instantiated on a service whose create call fails with a server
error. -/
theorem resourceContainerNodePoolCreate_call_failure_keeps_id_witness :
    (resourceContainerNodePoolCreate (scenarioEnv createFailsRemote) ⟨poolRecord, []⟩).2
        = some (.plain ("error creating NodePool: " ++ backendError.text)) ∧
    (resourceContainerNodePoolCreate (scenarioEnv createFailsRemote) ⟨poolRecord, []⟩).1.d.id
        = poolScope.fullyQualifiedName "p" :=
  resourceContainerNodePoolCreate_call_failure_keeps_id
    (scenarioEnv createFailsRemote) ⟨poolRecord, []⟩ "terraform" poolScope
    { Name := "p", InitialNodeCount := 1, Config := "", Locations := [], Version := "1.27",
      Autoscaling := none, MaxPodsConstraint := none, Management := none,
      UpgradeSettings := none, InstanceGroupUrls := [], Status := "", StatusMessage := "" }
    _ none backendError rfl rfl rfl rfl

/-- C5 (counterexample): the create call fails outright with a server error
that is neither retryable nor a timeout; the callback returns an error, yet
the identity afterwards is the fully qualified name of the pool, not the
empty string. -/
theorem resourceContainerNodePoolCreate_call_failure_id_not_cleared :
    createFailsRemote.create
        [Event.lock "google-container-cluster/P/L/C",
          Event.setId "projects/P/locations/L/clusters/C/nodePools/p"]
        "projects/P/locations/L/clusters/C"
        { Name := "p", InitialNodeCount := 1, Config := "", Locations := [],
          Version := "1.27", Autoscaling := none, MaxPodsConstraint := none,
          Management := none, UpgradeSettings := none, InstanceGroupUrls := [], Status := "",
          StatusMessage := "" }
      = .error backendError ∧
    isFailedPreconditionError backendError = false ∧
    mutatingCalls
        (resourceContainerNodePoolCreate (scenarioEnv createFailsRemote) ⟨poolRecord, []⟩).1.trace
      = [MutatingCall.create "projects/P/locations/L/clusters/C" "p"] ∧
    (resourceContainerNodePoolCreate (scenarioEnv createFailsRemote) ⟨poolRecord, []⟩).2
      = some (.plain "error creating NodePool: googleapi: Error 500: backend error") ∧
    (resourceContainerNodePoolCreate (scenarioEnv createFailsRemote) ⟨poolRecord, []⟩).1.d.id
      = "projects/P/locations/L/clusters/C/nodePools/p" ∧
    (resourceContainerNodePoolCreate (scenarioEnv createFailsRemote) ⟨poolRecord, []⟩).1.d.id
      ≠ "" := by
  refine ⟨rfl, rfl, by decide, by decide, by decide, by decide⟩

/-- C6: when the create call is accepted but the wait on the returned operation
fails, the create callback clears the identity and returns exactly the wait
error; after the wait it only clears the identity and releases the mutex, so
the pool is neither read nor awaited. -/
theorem resourceContainerNodePoolCreate_wait_failure_clears_id (env : Env) (s : St)
    (ua : String) (nodePoolInfo : NodePoolInformation) (nodePool : NodePool)
    (trace : List Event) (operation : Option Operation) (waitErr : GoError)
    (hua : env.generateUserAgentString = .ok ua)
    (hinfo : extractNodePoolInformation s.d env.config = .ok nodePoolInfo)
    (hnp : expandNodePool env s.trace s.d = .ok nodePool)
    (hsub : createSubmit env nodePoolInfo nodePool env.timeoutCreate
      (s.trace ++ [Event.lock nodePoolInfo.lockKey,
        Event.setId (nodePoolInfo.fullyQualifiedName nodePool.Name)])
      = (trace, operation, none))
    (hwait : env.remote.operationWait trace operation = some waitErr) :
    resourceContainerNodePoolCreate env s
      = ({ d := { s.d with id := "" }
           trace := trace ++ [Event.operationWait operation "creating GKE NodePool",
             Event.setId "", Event.unlock nodePoolInfo.lockKey] },
         some waitErr) := by
  rw [resourceContainerNodePoolCreate_eq env s ua nodePoolInfo nodePool hua hinfo hnp,
    createLocked_of_wait_error env nodePoolInfo nodePool _ trace operation waitErr
      (by simpa [St.emit] using hsub) hwait]
  simp [St.emit]

/-- C6, instantiated on a service that accepts the create call and whose
operation fails. -/
theorem resourceContainerNodePoolCreate_wait_failure_clears_id_witness :
    resourceContainerNodePoolCreate (scenarioEnv waitFailsRemote) ⟨poolRecord, []⟩
      = ({ d := { poolRecord with id := "" }
           trace := [Event.lock "google-container-cluster/P/L/C",
             Event.setId "projects/P/locations/L/clusters/C/nodePools/p",
             Event.createCall "projects/P/locations/L/clusters/C"
               { Name := "p", InitialNodeCount := 1, Config := "", Locations := [],
                 Version := "1.27", Autoscaling := none, MaxPodsConstraint := none,
                 Management := none, UpgradeSettings := none, InstanceGroupUrls := [],
                 Status := "", StatusMessage := "" },
             Event.operationWait (some { Name := "operation-create" }) "creating GKE NodePool",
             Event.setId "", Event.unlock "google-container-cluster/P/L/C"] },
         some (.plain "Error waiting for operation: failed")) :=
  resourceContainerNodePoolCreate_wait_failure_clears_id
    (scenarioEnv waitFailsRemote) ⟨poolRecord, []⟩ "terraform" poolScope
    { Name := "p", InitialNodeCount := 1, Config := "", Locations := [], Version := "1.27",
      Autoscaling := none, MaxPodsConstraint := none, Management := none,
      UpgradeSettings := none, InstanceGroupUrls := [], Status := "", StatusMessage := "" }
    _ (some { Name := "operation-create" }) _ rfl rfl rfl rfl rfl

/-- C7: when the create call, the operation wait and the read-back all succeed
and the waiter returns the resting status of the pool, the create callback
returns an error if that status is `ERROR` or `RUNNING_WITH_ERROR` (the
statuses classified as Error) and returns success if it is `RUNNING`. -/
theorem resourceContainerNodePoolCreate_resting_state (env : Env) (s s' : St)
    (ua : String) (nodePoolInfo : NodePoolInformation) (nodePool : NodePool)
    (trace trace' : List Event) (operation : Option Operation) (state : String)
    (hua : env.generateUserAgentString = .ok ua)
    (hinfo : extractNodePoolInformation s.d env.config = .ok nodePoolInfo)
    (hnp : expandNodePool env s.trace s.d = .ok nodePool)
    (hsub : createSubmit env nodePoolInfo nodePool env.timeoutCreate
      (s.trace ++ [Event.lock nodePoolInfo.lockKey,
        Event.setId (nodePoolInfo.fullyQualifiedName nodePool.Name)])
      = (trace, operation, none))
    (hwait : env.remote.operationWait trace operation = none)
    (hread : resourceContainerNodePoolRead env
      { d := { s.d with id := nodePoolInfo.fullyQualifiedName nodePool.Name },
        trace := trace ++ [Event.operationWait operation "creating GKE NodePool"] } = (s', none))
    (hawait : containerNodePoolAwaitRestingState env s'.d.id env.timeoutCreate s'.trace
      = (trace', state, none)) :
    (containerNodePoolRestingStates state = ErrorState ↔
      state = "ERROR" ∨ state = "RUNNING_WITH_ERROR") ∧
    (state = "ERROR" ∨ state = "RUNNING_WITH_ERROR" →
      (resourceContainerNodePoolCreate env s).2
        = some (.plain ("NodePool " ++ nodePool.Name ++ " was created in the error state "
            ++ goQuote state))) ∧
    (state = "RUNNING" → (resourceContainerNodePoolCreate env s).2 = none) := by
  have hcls : containerNodePoolRestingStates state = ErrorState ↔
      state = "ERROR" ∨ state = "RUNNING_WITH_ERROR" := by
    unfold containerNodePoolRestingStates
    by_cases h1 : state = "RUNNING"
    · subst h1; decide
    · by_cases h2 : state = "RUNNING_WITH_ERROR"
      · simp [h2]
      · by_cases h3 : state = "ERROR" <;> simp [h1, h2, h3]
  rw [resourceContainerNodePoolCreate_eq env s ua nodePoolInfo nodePool hua hinfo hnp,
    createLocked_of_resting env nodePoolInfo nodePool _ s' trace trace' operation state
      (by simpa [St.emit] using hsub) hwait (by simpa [St.emit] using hread) hawait]
  refine ⟨hcls, ?_, ?_⟩
  · intro h
    simp [hcls.mpr h]
  · intro h
    subst h
    simp [containerNodePoolRestingStates]

/-- C7, instantiated on a service whose pools rest in the error state, where
the create callback reports the error state of the pool it created, and on a
healthy service, where it succeeds. -/
theorem resourceContainerNodePoolCreate_resting_state_witness :
    (resourceContainerNodePoolCreate (scenarioEnv brokenPoolRemote) ⟨poolRecord, []⟩).2
      = some (.plain ("NodePool " ++ "p" ++ " was created in the error state "
          ++ goQuote "ERROR")) ∧
    (resourceContainerNodePoolCreate (scenarioEnv healthyRemote) ⟨poolRecord, []⟩).2 = none :=
  ⟨(resourceContainerNodePoolCreate_resting_state
      (scenarioEnv brokenPoolRemote) ⟨poolRecord, []⟩
      (resourceContainerNodePoolRead (scenarioEnv brokenPoolRemote)
        { d := { poolRecord with id := "projects/P/locations/L/clusters/C/nodePools/p" },
          trace := [Event.lock "google-container-cluster/P/L/C",
            Event.setId "projects/P/locations/L/clusters/C/nodePools/p",
            Event.createCall "projects/P/locations/L/clusters/C"
              { Name := "p", InitialNodeCount := 1, Config := "", Locations := [],
                Version := "1.27", Autoscaling := none, MaxPodsConstraint := none,
                Management := none, UpgradeSettings := none, InstanceGroupUrls := [],
                Status := "", StatusMessage := "" },
            Event.operationWait (some { Name := "operation-create" })
              "creating GKE NodePool"] }).1
      "terraform" poolScope
      { Name := "p", InitialNodeCount := 1, Config := "", Locations := [], Version := "1.27",
        Autoscaling := none, MaxPodsConstraint := none, Management := none,
        UpgradeSettings := none, InstanceGroupUrls := [], Status := "", StatusMessage := "" }
      _ _ (some { Name := "operation-create" }) "ERROR" rfl rfl rfl rfl rfl rfl rfl).2.1
      (Or.inl rfl),
   (resourceContainerNodePoolCreate_resting_state
      (scenarioEnv healthyRemote) ⟨poolRecord, []⟩
      (resourceContainerNodePoolRead (scenarioEnv healthyRemote)
        { d := { poolRecord with id := "projects/P/locations/L/clusters/C/nodePools/p" },
          trace := [Event.lock "google-container-cluster/P/L/C",
            Event.setId "projects/P/locations/L/clusters/C/nodePools/p",
            Event.createCall "projects/P/locations/L/clusters/C"
              { Name := "p", InitialNodeCount := 1, Config := "", Locations := [],
                Version := "1.27", Autoscaling := none, MaxPodsConstraint := none,
                Management := none, UpgradeSettings := none, InstanceGroupUrls := [],
                Status := "", StatusMessage := "" },
            Event.operationWait (some { Name := "operation-create" })
              "creating GKE NodePool"] }).1
      "terraform" poolScope
      { Name := "p", InitialNodeCount := 1, Config := "", Locations := [], Version := "1.27",
        Autoscaling := none, MaxPodsConstraint := none, Management := none,
        UpgradeSettings := none, InstanceGroupUrls := [], Status := "", StatusMessage := "" }
      _ _ (some { Name := "operation-create" }) "RUNNING" rfl rfl rfl rfl rfl rfl rfl).2.2
      rfl⟩

/-- C8: the delete callback is idempotent on absence. When the wait for the
resting state ends with an error, a not-found error (404) makes the callback
return success with only the fetches of the wait added to the trace, so no
remote delete call is issued and the record is untouched; any other error is
returned. -/
theorem resourceContainerNodePoolDelete_not_found (env : Env) (s : St) (ua : String)
    (nodePoolInfo : NodePoolInformation) (trace : List Event) (state : String) (err : GoError)
    (hua : env.generateUserAgentString = .ok ua)
    (hinfo : extractNodePoolInformation s.d env.config = .ok nodePoolInfo)
    (hawait : containerNodePoolAwaitRestingState env
      (nodePoolInfo.fullyQualifiedName (getNodePoolName s.d.id)) env.timeoutDelete s.trace
      = (trace, state, some err)) :
    (isGoogleApiErrorWithCode err 404 = true →
      resourceContainerNodePoolDelete env s = ({ s with trace := trace }, none) ∧
      Extends s.trace (resourceContainerNodePoolDelete env s).1.trace []) ∧
    (isGoogleApiErrorWithCode err 404 = false →
      (resourceContainerNodePoolDelete env s).2 = some err ∧
      Extends s.trace (resourceContainerNodePoolDelete env s).1.trace []) := by
  have hext := containerNodePoolAwaitRestingState_extends env
    (nodePoolInfo.fullyQualifiedName (getNodePoolName s.d.id)) env.timeoutDelete s.trace
  rw [hawait] at hext
  constructor
  · intro h
    have : resourceContainerNodePoolDelete env s = ({ s with trace := trace }, none) := by
      simp [resourceContainerNodePoolDelete, hua, hinfo, hawait, h]
    rw [this]
    exact ⟨rfl, hext⟩
  · intro h
    have : resourceContainerNodePoolDelete env s = ({ s with trace := trace }, some err) := by
      simp [resourceContainerNodePoolDelete, hua, hinfo, hawait, h]
    rw [this]
    exact ⟨rfl, hext⟩

/-- C8, instantiated on a service that has no such pool, where the delete
callback succeeds after one fetch without a delete call, and on a service
whose fetch fails with a server error, which the callback returns. -/
theorem resourceContainerNodePoolDelete_not_found_witness :
    resourceContainerNodePoolDelete (scenarioEnv goneRemote) ⟨poolRecord, []⟩
      = (⟨poolRecord, [Event.getCall "projects/P/locations/L/clusters/C/nodePools/p"]⟩, none) ∧
    (resourceContainerNodePoolDelete (scenarioEnv fetchFailsRemote) ⟨poolRecord, []⟩).2
      = some backendError :=
  ⟨((resourceContainerNodePoolDelete_not_found (scenarioEnv goneRemote) ⟨poolRecord, []⟩
      "terraform" poolScope [Event.getCall "projects/P/locations/L/clusters/C/nodePools/p"] ""
      notFoundError rfl rfl rfl).1 rfl).1,
   ((resourceContainerNodePoolDelete_not_found (scenarioEnv fetchFailsRemote) ⟨poolRecord, []⟩
      "terraform" poolScope [Event.getCall "projects/P/locations/L/clusters/C/nodePools/p"] ""
      backendError rfl rfl rfl).2 rfl).1⟩

/-! ## The delete callback -/

theorem resourceContainerNodePoolDelete_eq (env : Env) (s : St) (ua : String)
    (info : NodePoolInformation) (trace : List Event) (state : String)
    (hua : env.generateUserAgentString = .ok ua)
    (hinfo : extractNodePoolInformation s.d env.config = .ok info)
    (hawait : containerNodePoolAwaitRestingState env
      (info.fullyQualifiedName (getNodePoolName s.d.id)) env.timeoutDelete s.trace
      = (trace, state, none)) :
    resourceContainerNodePoolDelete env s
      = ((deleteLocked env info (getNodePoolName s.d.id)
            { d := s.d, trace := trace ++ [Event.lock info.lockKey] }).1.emit
            (.unlock info.lockKey),
         (deleteLocked env info (getNodePoolName s.d.id)
            { d := s.d, trace := trace ++ [Event.lock info.lockKey] }).2) := by
  simp [resourceContainerNodePoolDelete, hua, hinfo, hawait, St.emit]

theorem deleteLocked_of_submit_error (env : Env) (info : NodePoolInformation) (name : String)
    (s : St) (trace : List Event) (operation : Option Operation) (err : GoError)
    (hsub : deleteSubmit env info name env.timeoutDelete s.trace = (trace, operation, some err)) :
    deleteLocked env info name s
      = ({ s with trace := trace }, some (.plain ("Error deleting NodePool: " ++ err.text))) := by
  unfold deleteLocked
  simp only [hsub]

theorem deleteLocked_of_wait_error (env : Env) (info : NodePoolInformation) (name : String)
    (s : St) (trace : List Event) (operation : Option Operation) (waitErr : GoError)
    (hsub : deleteSubmit env info name env.timeoutDelete s.trace = (trace, operation, none))
    (hwait : env.remote.operationWait trace operation = some waitErr) :
    deleteLocked env info name s
      = ({ s with trace := trace ++ [Event.operationWait operation "deleting GKE NodePool"] },
         some waitErr) := by
  unfold deleteLocked
  simp only [hsub, St.emit, hwait]

theorem deleteLocked_of_wait_ok (env : Env) (info : NodePoolInformation) (name : String)
    (s : St) (trace : List Event) (operation : Option Operation)
    (hsub : deleteSubmit env info name env.timeoutDelete s.trace = (trace, operation, none))
    (hwait : env.remote.operationWait trace operation = none) :
    deleteLocked env info name s
      = ({ d := { s.d with id := "" },
           trace := trace ++ [Event.operationWait operation "deleting GKE NodePool",
             Event.setId ""] },
         none) := by
  unfold deleteLocked
  simp only [hsub, St.emit, St.SetId, hwait]
  simp

/-- C9: for an existing pool in a resting state (the wait for the resting state
succeeds), the delete callback returns success with the identity cleared to
the empty string when the delete call is accepted and its operation
completes; when the submission of the delete call fails it returns
`Error deleting NodePool: ...`, and when the operation wait fails it returns
the wait error, in both cases leaving the identity unchanged. -/
theorem resourceContainerNodePoolDelete_outcomes (env : Env) (s : St) (ua : String)
    (nodePoolInfo : NodePoolInformation) (trace : List Event) (state : String)
    (hua : env.generateUserAgentString = .ok ua)
    (hinfo : extractNodePoolInformation s.d env.config = .ok nodePoolInfo)
    (hawait : containerNodePoolAwaitRestingState env
      (nodePoolInfo.fullyQualifiedName (getNodePoolName s.d.id)) env.timeoutDelete s.trace
      = (trace, state, none)) :
    (∀ (trace' : List Event) (operation : Option Operation),
      deleteSubmit env nodePoolInfo (getNodePoolName s.d.id) env.timeoutDelete
          (trace ++ [Event.lock nodePoolInfo.lockKey]) = (trace', operation, none) →
      env.remote.operationWait trace' operation = none →
      (resourceContainerNodePoolDelete env s).2 = none ∧
      (resourceContainerNodePoolDelete env s).1.d.id = "") ∧
    (∀ (trace' : List Event) (operation : Option Operation) (err : GoError),
      deleteSubmit env nodePoolInfo (getNodePoolName s.d.id) env.timeoutDelete
          (trace ++ [Event.lock nodePoolInfo.lockKey]) = (trace', operation, some err) →
      (resourceContainerNodePoolDelete env s).2
          = some (.plain ("Error deleting NodePool: " ++ err.text)) ∧
      (resourceContainerNodePoolDelete env s).1.d.id = s.d.id) ∧
    (∀ (trace' : List Event) (operation : Option Operation) (waitErr : GoError),
      deleteSubmit env nodePoolInfo (getNodePoolName s.d.id) env.timeoutDelete
          (trace ++ [Event.lock nodePoolInfo.lockKey]) = (trace', operation, none) →
      env.remote.operationWait trace' operation = some waitErr →
      (resourceContainerNodePoolDelete env s).2 = some waitErr ∧
      (resourceContainerNodePoolDelete env s).1.d.id = s.d.id) := by
  rw [resourceContainerNodePoolDelete_eq env s ua nodePoolInfo trace state hua hinfo hawait]
  refine ⟨?_, ?_, ?_⟩
  · intro trace' operation hsub hwait
    rw [deleteLocked_of_wait_ok env nodePoolInfo _ _ trace' operation hsub hwait]
    exact ⟨rfl, rfl⟩
  · intro trace' operation err hsub
    rw [deleteLocked_of_submit_error env nodePoolInfo _ _ trace' operation err hsub]
    exact ⟨rfl, rfl⟩
  · intro trace' operation waitErr hsub hwait
    rw [deleteLocked_of_wait_error env nodePoolInfo _ _ trace' operation waitErr hsub hwait]
    exact ⟨rfl, rfl⟩

/-- C9, instantiated on three services: a healthy one (success, identity
cleared), one whose delete call fails and one whose delete operation fails
(error, identity kept). -/
theorem resourceContainerNodePoolDelete_outcomes_witness :
    ((resourceContainerNodePoolDelete (scenarioEnv healthyRemote) ⟨poolRecord, []⟩).2 = none ∧
      (resourceContainerNodePoolDelete (scenarioEnv healthyRemote) ⟨poolRecord, []⟩).1.d.id
        = "") ∧
    ((resourceContainerNodePoolDelete (scenarioEnv deleteFailsRemote) ⟨poolRecord, []⟩).2
        = some (.plain ("Error deleting NodePool: " ++ backendError.text)) ∧
      (resourceContainerNodePoolDelete (scenarioEnv deleteFailsRemote) ⟨poolRecord, []⟩).1.d.id
        = poolRecord.id) ∧
    ((resourceContainerNodePoolDelete (scenarioEnv waitFailsRemote) ⟨poolRecord, []⟩).2
        = some (.plain "Error waiting for operation: failed") ∧
      (resourceContainerNodePoolDelete (scenarioEnv waitFailsRemote) ⟨poolRecord, []⟩).1.d.id
        = poolRecord.id) :=
  ⟨(resourceContainerNodePoolDelete_outcomes (scenarioEnv healthyRemote) ⟨poolRecord, []⟩
      "terraform" poolScope [Event.getCall "projects/P/locations/L/clusters/C/nodePools/p"]
      "RUNNING" rfl rfl rfl).1 _ (some { Name := "operation-delete" }) rfl rfl,
   (resourceContainerNodePoolDelete_outcomes (scenarioEnv deleteFailsRemote) ⟨poolRecord, []⟩
      "terraform" poolScope [Event.getCall "projects/P/locations/L/clusters/C/nodePools/p"]
      "RUNNING" rfl rfl rfl).2.1 _ none backendError rfl,
   (resourceContainerNodePoolDelete_outcomes (scenarioEnv waitFailsRemote) ⟨poolRecord, []⟩
      "terraform" poolScope [Event.getCall "projects/P/locations/L/clusters/C/nodePools/p"]
      "RUNNING" rfl rfl rfl).2.2 _ (some { Name := "operation-delete" })
      (.plain "Error waiting for operation: failed") rfl rfl⟩

/-! ## The scope of a record -/

/-- The scope of a record depends on its project, location and cluster only. -/
theorem extractNodePoolInformation_congr (d d' : ResourceData) (config : Config)
    (hp : d'.project = d.project) (hl : d'.location = d.location) (hc : d'.cluster = d.cluster) :
    extractNodePoolInformation d' config = extractNodePoolInformation d config := by
  simp [extractNodePoolInformation, getProject, getProjectFromSchema, getLocation,
    ResourceData.GetOk, ResourceData.Get, SchemaValue.isZero, hp, hl, hc]

/-- A record that carries the project and location of its scope keeps the
scope. -/
theorem extractNodePoolInformation_stable (d d' : ResourceData) (config : Config)
    (info : NodePoolInformation) (h : extractNodePoolInformation d config = .ok info)
    (hp : d'.project = info.project) (hl : d'.location = info.location)
    (hc : d'.cluster = d.cluster) :
    extractNodePoolInformation d' config = .ok info := by
  obtain ⟨project, location, cluster⟩ := info
  simp only at hp hl
  by_cases hdp : d.project = "" <;> by_cases hcp : config.Project = "" <;>
    by_cases hdl : d.location = "" <;> cases hfl : config.fallbackLocation <;>
    simp [extractNodePoolInformation, getProject, getProjectFromSchema, getLocation,
      ResourceData.GetOk, ResourceData.Get, SchemaValue.isZero, hdp, hcp, hdl, hfl] at h <;>
    obtain ⟨h1, h2, h3⟩ := h <;> subst h1 h2 h3 <;>
    simp_all [extractNodePoolInformation, getProject, getProjectFromSchema, getLocation,
      ResourceData.GetOk, ResourceData.Get, SchemaValue.isZero]

/-! ## The healthy run of a callback -/

theorem expandNodePool_named (env : Env) (trace : List Event) (d : ResourceData)
    (hname : d.name ≠ "") (hunset : ResourceData.name_prefix d = "")
    (hcount : d.initial_node_count = 0) :
    ∃ np, expandNodePool env trace d = .ok np ∧ np.Name = d.name := by
  unfold expandNodePool
  by_cases hnc : d.node_count = 0 <;> simp [hname, hunset, hcount, hnc]

/-! ## The blue/green replacement -/

theorem fullyQualifiedName_eq_parent (info : NodePoolInformation) (name : String) :
    info.fullyQualifiedName name = info.parent ++ "/nodePools/" ++ name := by
  simp [NodePoolInformation.fullyQualifiedName, NodePoolInformation.parent, String.append_assoc]

theorem fixedRemote_allCallsSucceed (status : String) :
    (fixedRemote none none none none status).AllCallsSucceed :=
  ⟨fun _ _ _ => ⟨_, rfl⟩, fun _ _ => ⟨_, rfl⟩, fun _ _ => ⟨_, rfl⟩, fun _ _ _ _ => ⟨_, rfl⟩,
    fun _ _ => rfl⟩

/-- C1 (counterexample): every remote call succeeds, `name_prefix` is unset and
the pool is named `p`. When the service reports the temporary pool in the
`ERROR` state, the update stops with an error after the creation of the
temporary pool, which is its only mutating call; and so it does when the
service keeps reporting the pool as `PROVISIONING` and the wait for a resting
state gives up. -/
theorem nodePoolUpdate_call_sequence_counterexample :
    brokenPoolRemote.AllCallsSucceed ∧ stuckPoolRemote.AllCallsSucceed ∧
    ResourceData.name_prefix poolRecord = "" ∧
    getNodePoolName poolRecord.id = "p" ∧
    (nodePoolUpdate (scenarioEnv brokenPoolRemote) poolScope ⟨poolRecord, []⟩).2
      = some (.plain "NodePool temp-node-pool was created in the error state \"ERROR\"") ∧
    mutatingCalls (nodePoolUpdate (scenarioEnv brokenPoolRemote) poolScope ⟨poolRecord, []⟩).1.trace
      = [MutatingCall.create "projects/P/locations/L/clusters/C" "temp-node-pool"] ∧
    (nodePoolUpdate (scenarioEnv stuckPoolRemote) poolScope ⟨poolRecord, []⟩).2
      = some (.plain ("NodePool \"projects/P/locations/L/clusters/C/nodePools/temp-node-pool\""
          ++ " has state \"PROVISIONING\" with message \"\"")) ∧
    mutatingCalls (nodePoolUpdate (scenarioEnv stuckPoolRemote) poolScope ⟨poolRecord, []⟩).1.trace
      = [MutatingCall.create "projects/P/locations/L/clusters/C" "temp-node-pool"] :=
  ⟨fixedRemote_allCallsSucceed "ERROR", fixedRemote_allCallsSucceed "PROVISIONING",
    by decide, by decide, by decide, by decide, by decide, by decide⟩

/-- C2 (the code at the failing inputs): a failed delete does not abort the
sequence. When the delete call for the original pool fails, the update goes on
to issue the create call for that pool; when only the delete call for the
temporary pool fails, the update returns success. -/
theorem nodePoolUpdate_delete_failure_not_surfaced :
    (∀ h, originalDeleteFailsRemote.delete h "projects/P/locations/L/clusters/C/nodePools/p"
      = .error backendError) ∧
    mutatingCalls
        (nodePoolUpdate (scenarioEnv originalDeleteFailsRemote) poolScope ⟨poolRecord, []⟩).1.trace
      = [MutatingCall.create "projects/P/locations/L/clusters/C" "temp-node-pool",
          MutatingCall.delete "projects/P/locations/L/clusters/C/nodePools/p",
          MutatingCall.create "projects/P/locations/L/clusters/C" "p"] ∧
    (∀ h, tempDeleteFailsRemote.delete h
        "projects/P/locations/L/clusters/C/nodePools/temp-node-pool" = .error backendError) ∧
    mutatingCalls
        (nodePoolUpdate (scenarioEnv tempDeleteFailsRemote) poolScope ⟨poolRecord, []⟩).1.trace
      = [MutatingCall.create "projects/P/locations/L/clusters/C" "temp-node-pool",
          MutatingCall.delete "projects/P/locations/L/clusters/C/nodePools/p",
          MutatingCall.create "projects/P/locations/L/clusters/C" "p",
          MutatingCall.delete "projects/P/locations/L/clusters/C/nodePools/temp-node-pool"] ∧
    (nodePoolUpdate (scenarioEnv tempDeleteFailsRemote) poolScope ⟨poolRecord, []⟩).2 = none :=
  ⟨fun _ => rfl, by decide, fun _ => rfl, by decide, by decide⟩

/-- C3 (the code at the failing input): on a healthy service the update of the
pool identified by `projects/P/locations/L/clusters/C/nodePools/p` returns
success and leaves the identity `/p`, not the fully qualified name of the
pool. -/
theorem nodePoolUpdate_identity_after_success :
    poolRecord.id = "projects/P/locations/L/clusters/C/nodePools/p" ∧
    poolScope.fullyQualifiedName "p" = "projects/P/locations/L/clusters/C/nodePools/p" ∧
    (nodePoolUpdate (scenarioEnv healthyRemote) poolScope ⟨poolRecord, []⟩).2 = none ∧
    (nodePoolUpdate (scenarioEnv healthyRemote) poolScope ⟨poolRecord, []⟩).1.d.id = "/p" := by
  refine ⟨by decide, by decide, by decide, by decide⟩

/-! ## Resting states -/

/-- C10: the classification of a status by `containerNodePoolRestingStates` is
a total function: `RUNNING` is Ready, `ERROR` and `RUNNING_WITH_ERROR` are
Error, and every other string, such as `PROVISIONING` or the empty string, is
in the default undefined (transient) class, which is neither Ready nor
Error. -/
theorem containerNodePoolRestingStates_classification (state : String) :
    (containerNodePoolRestingStates state = ReadyState ↔ state = "RUNNING") ∧
    (containerNodePoolRestingStates state = ErrorState ↔
      state = "ERROR" ∨ state = "RUNNING_WITH_ERROR") ∧
    (containerNodePoolRestingStates state = Undefined ↔
      state ≠ "RUNNING" ∧ state ≠ "ERROR" ∧ state ≠ "RUNNING_WITH_ERROR") ∧
    containerNodePoolRestingStates "PROVISIONING" = Undefined ∧
    containerNodePoolRestingStates "" = Undefined ∧
    Undefined ≠ ReadyState ∧ Undefined ≠ ErrorState := by
  refine ⟨?_, ?_, ?_, by decide, by decide, by decide, by decide⟩
  · unfold containerNodePoolRestingStates
    by_cases h1 : state = "RUNNING"
    · simp [h1]
    · by_cases h2 : state = "RUNNING_WITH_ERROR"
      · simp [h2]
      · by_cases h3 : state = "ERROR" <;> simp [h1, h2, h3]
  · unfold containerNodePoolRestingStates
    by_cases h1 : state = "RUNNING"
    · subst h1; decide
    · by_cases h2 : state = "RUNNING_WITH_ERROR"
      · simp [h2]
      · by_cases h3 : state = "ERROR" <;> simp [h1, h2, h3]
  · unfold containerNodePoolRestingStates
    by_cases h1 : state = "RUNNING"
    · simp [h1]
    · by_cases h2 : state = "RUNNING_WITH_ERROR"
      · simp [h2]
      · by_cases h3 : state = "ERROR" <;> simp [h1, h2, h3]

/-! ## Names and keys -/

/-- C19: the fully qualified name is the parent path followed by
`/nodePools/` and the pool name, and the parent path is
`projects/P/locations/L/clusters/C`; both are functions of the project, the
location, the cluster and the name alone. -/
theorem fullyQualifiedName_is_parent_and_name (i : NodePoolInformation) (n : String) :
    i.fullyQualifiedName n = i.parent ++ "/nodePools/" ++ n ∧
    i.parent = "projects/" ++ i.project ++ "/locations/" ++ i.location ++ "/clusters/"
      ++ i.cluster ∧
    i.fullyQualifiedName n
      = (NodePoolInformation.mk i.project i.location i.cluster).fullyQualifiedName n ∧
    i.parent = (NodePoolInformation.mk i.project i.location i.cluster).parent :=
  ⟨fullyQualifiedName_eq_parent i n, rfl, rfl, rfl⟩

/-- Two texts that are cut at their first `/` agree piece by piece. -/
theorem append_slash_inj (a : List Char) :
    ∀ (a' b b' : List Char), '/' ∉ a → '/' ∉ a' → a ++ '/' :: b = a' ++ '/' :: b' →
      a = a' ∧ b = b' := by
  induction a with
  | nil =>
    intro a' b b' _ ha' h
    cases a' with
    | nil => simpa using h
    | cons y ys =>
      simp only [List.nil_append, List.cons_append, List.cons.injEq] at h
      exact absurd (List.mem_cons.mpr (Or.inl h.1)) ha'
  | cons x xs ih =>
    intro a' b b' ha ha' h
    cases a' with
    | nil =>
      simp only [List.nil_append, List.cons_append, List.cons.injEq] at h
      exact absurd (List.mem_cons.mpr (Or.inl h.1.symm)) ha
    | cons y ys =>
      simp only [List.cons_append, List.cons.injEq] at h
      obtain ⟨h1, h2⟩ := ih ys b b' (fun hm => ha (List.mem_cons_of_mem _ hm))
        (fun hm => ha' (List.mem_cons_of_mem _ hm)) h.2
      exact ⟨by rw [h.1, h1], h2⟩

/-- C18 (as amended): the lock key determines the triple when the projects
and the locations contain no `/`: two such triples with the same lock key are
equal. -/
theorem lockKey_injective_of_no_slash (t1 t2 : NodePoolInformation)
    (h1p : '/' ∉ t1.project.data) (h1l : '/' ∉ t1.location.data)
    (h2p : '/' ∉ t2.project.data) (h2l : '/' ∉ t2.location.data)
    (h : t1.lockKey = t2.lockKey) : t1 = t2 := by
  obtain ⟨p1, l1, c1⟩ := t1
  obtain ⟨p2, l2, c2⟩ := t2
  simp only at h1p h1l h2p h2l
  have hd := congrArg String.data h
  simp only [NodePoolInformation.lockKey, containerClusterMutexKey, String.data_append,
    List.append_assoc, List.append_cancel_left_eq] at hd
  have hd' : p1.data ++ '/' :: (l1.data ++ '/' :: c1.data)
      = p2.data ++ '/' :: (l2.data ++ '/' :: c2.data) := by simpa using hd
  obtain ⟨hp, hrest⟩ := append_slash_inj _ _ _ _ h1p h2p hd'
  obtain ⟨hl, hc⟩ := append_slash_inj _ _ _ _ h1l h2l hrest
  rw [String.ext hp, String.ext hl, String.ext hc]

/-- C18, instantiated on the scope of pool `p` and a copy of it. -/
theorem lockKey_injective_of_no_slash_witness :
    poolScope = { project := "P", location := "L", cluster := "C" } :=
  lockKey_injective_of_no_slash poolScope { project := "P", location := "L", cluster := "C" }
    (by decide) (by decide) (by decide) (by decide) (by decide)

/-- C18 (counterexample): two different triples of strings with the same lock
key; the `/` inside a component is taken for a separator. -/
theorem lockKey_not_injective :
    (NodePoolInformation.mk "a/b" "c" "d").lockKey = (NodePoolInformation.mk "a" "b/c" "d").lockKey ∧
    NodePoolInformation.mk "a/b" "c" "d" ≠ NodePoolInformation.mk "a" "b/c" "d" := by
  decide

/-! ## The existence check -/

/-- C16: the existence check returns (true, nil) when the fetch succeeds,
(false, nil) when the fetch fails and `handleNotFoundError` yields nil, which
it does exactly for a not-found error, and true together with the non-nil
error of `handleNotFoundError` for every other fetch error. -/
theorem resourceContainerNodePoolExists_outcomes (env : Env) (s : St) (ua : String)
    (nodePoolInfo : NodePoolInformation)
    (hinfo : extractNodePoolInformation s.d env.config = .ok nodePoolInfo)
    (hua : env.generateUserAgentString = .ok ua) :
    (∀ nodePool,
      env.remote.get s.trace (nodePoolInfo.fullyQualifiedName (getNodePoolName s.d.id))
        = .ok nodePool →
      (resourceContainerNodePoolExists env s).2 = (true, none)) ∧
    (∀ err,
      env.remote.get s.trace (nodePoolInfo.fullyQualifiedName (getNodePoolName s.d.id))
        = .error err →
      ((handleNotFoundError err
          (s.emit (.getCall (nodePoolInfo.fullyQualifiedName (getNodePoolName s.d.id))))
          ("Container NodePool " ++ getNodePoolName s.d.id)).2 = none ↔
        isGoogleApiErrorWithCode err 404 = true) ∧
      (isGoogleApiErrorWithCode err 404 = true →
        (resourceContainerNodePoolExists env s).2 = (false, none)) ∧
      (isGoogleApiErrorWithCode err 404 = false →
        ∃ err', (handleNotFoundError err
            (s.emit (.getCall (nodePoolInfo.fullyQualifiedName (getNodePoolName s.d.id))))
            ("Container NodePool " ++ getNodePoolName s.d.id)).2 = some err' ∧
          (resourceContainerNodePoolExists env s).2 = (true, some err'))) := by
  refine ⟨?_, ?_⟩
  · intro np hget
    simp [resourceContainerNodePoolExists, hinfo, hua, hget]
  · intro err hget
    by_cases h404 : isGoogleApiErrorWithCode err 404 = true
    · simp [resourceContainerNodePoolExists, hinfo, hua, hget, handleNotFoundError, h404]
    · simp [resourceContainerNodePoolExists, hinfo, hua, hget, handleNotFoundError, h404]

/-- C16, instantiated on a healthy service, on a service without the pool and
on a service whose fetch fails with a server error. -/
theorem resourceContainerNodePoolExists_outcomes_witness :
    (resourceContainerNodePoolExists (scenarioEnv healthyRemote) ⟨poolRecord, []⟩).2
      = (true, none) ∧
    (resourceContainerNodePoolExists (scenarioEnv goneRemote) ⟨poolRecord, []⟩).2
      = (false, none) ∧
    ∃ err, (resourceContainerNodePoolExists (scenarioEnv fetchFailsRemote) ⟨poolRecord, []⟩).2
      = (true, some err) :=
  ⟨(resourceContainerNodePoolExists_outcomes (scenarioEnv healthyRemote) ⟨poolRecord, []⟩
      "terraform" poolScope rfl rfl).1 _ rfl,
   ((resourceContainerNodePoolExists_outcomes (scenarioEnv goneRemote) ⟨poolRecord, []⟩
      "terraform" poolScope rfl rfl).2 notFoundError rfl).2.1 rfl,
   (((resourceContainerNodePoolExists_outcomes (scenarioEnv fetchFailsRemote) ⟨poolRecord, []⟩
      "terraform" poolScope rfl rfl).2 backendError rfl).2.2 rfl).imp fun _ h => h.2⟩

/-! ## Polling to the resting state -/

theorem FetchesYield_append (env : Env) (name : String) (a b : List String) :
    ∀ trace, FetchesYield env name trace (a ++ b) ↔
      FetchesYield env name trace a ∧
      FetchesYield env name (trace ++ List.replicate a.length (Event.getCall name)) b := by
  induction a with
  | nil => intro trace; simp [FetchesYield]
  | cons x xs ih =>
    intro trace
    show (_ ∧ FetchesYield env name (trace ++ [Event.getCall name]) (xs ++ b)) ↔ _
    rw [ih]
    simp [FetchesYield, List.replicate_succ, and_assoc]

/-- While the fetched statuses are unclassified the waiter keeps polling: the
loop with budget for more attempts than there are such statuses continues
after them with the last of them as its state. -/
theorem retryLoop_await_pending (env : Env) (name : String) (fuel : Nat) :
    ∀ (pending : List String) (trace : List Event) (r : Option GoError) (state : String),
      FetchesYield env name trace pending →
      (∀ st ∈ pending, containerNodePoolRestingStates st = Undefined) →
      ∃ r', retryLoop (awaitAttempt env name) (pending.length + fuel) r (trace, state)
        = retryLoop (awaitAttempt env name) fuel r'
            (trace ++ List.replicate pending.length (Event.getCall name),
              pending.getLast?.getD state) := by
  intro pending
  induction pending with
  | nil => intro trace r state _ _; exact ⟨r, by simp⟩
  | cons p ps ih =>
    intro trace r state hf hp
    obtain ⟨⟨np, hget, hst⟩, hrest⟩ := hf
    subst hst
    have hund : containerNodePoolRestingStates np.Status = Undefined :=
      hp _ (List.mem_cons_self _ _)
    obtain ⟨r', hr'⟩ := ih (trace ++ [Event.getCall name])
      (some (.plain ("NodePool " ++ goQuote name ++ " has state " ++ goQuote np.Status
        ++ " with message " ++ goQuote np.StatusMessage))) np.Status hrest
      (fun st hst' => hp st (List.mem_cons_of_mem _ hst'))
    refine ⟨r', ?_⟩
    have hlen : (np.Status :: ps).length + fuel = (ps.length + fuel) + 1 := by
      simp only [List.length_cons]; omega
    rw [hlen, retryLoop]
    simp only [awaitAttempt, hget, hund]
    rw [hr']
    simp [List.replicate_succ, List.getLast?_cons]

/-- C11: for every sequence of successfully fetched statuses that fits the
timeout and whose first Ready-or-Error status comes after `k` unclassified
ones, the waiter performs exactly `k + 1` fetches and returns that status with
a nil error; in particular an Error-class status is returned as a value, and
every earlier unclassified status causes another poll. -/
theorem containerNodePoolAwaitRestingState_first_resting (env : Env) (name : String)
    (timeout : Nat) (trace : List Event) (pending : List String) (state : String)
    (hfetch : FetchesYield env name trace (pending ++ [state]))
    (hpending : ∀ st ∈ pending, containerNodePoolRestingStates st = Undefined)
    (hstate : containerNodePoolRestingStates state ≠ Undefined)
    (htime : pending.length < timeout) :
    containerNodePoolAwaitRestingState env name timeout trace
      = (trace ++ List.replicate (pending.length + 1) (Event.getCall name), state, none) := by
  obtain ⟨m, rfl⟩ : ∃ m, timeout = pending.length + (m + 1) :=
    ⟨timeout - pending.length - 1, by omega⟩
  obtain ⟨hpre, ⟨np, hget, hst⟩, _⟩ := (FetchesYield_append env name pending [state] trace).mp hfetch
  obtain ⟨r', hr'⟩ := retryLoop_await_pending env name (m + 1) pending trace none "" hpre hpending
  unfold containerNodePoolAwaitRestingState Retry
  rw [hr', retryLoop]
  subst hst
  cases hc : containerNodePoolRestingStates np.Status with
  | Undefined => exact absurd hc hstate
  | ReadyState => simp [awaitAttempt, hget, hc, List.replicate_succ']
  | ErrorState => simp [awaitAttempt, hget, hc, List.replicate_succ']

/-- C11, instantiated on a pool that is seen provisioning, then reconciling,
then in the error state: three fetches, and `ERROR` returned as a value. -/
theorem containerNodePoolAwaitRestingState_first_resting_witness :
    containerNodePoolAwaitRestingState
        (scenarioEnv (pollingRemote ["PROVISIONING", "RECONCILING", "ERROR"])) "pool" 5 []
      = ([Event.getCall "pool", Event.getCall "pool", Event.getCall "pool"], "ERROR", none) :=
  containerNodePoolAwaitRestingState_first_resting
    (scenarioEnv (pollingRemote ["PROVISIONING", "RECONCILING", "ERROR"])) "pool" 5 []
    ["PROVISIONING", "RECONCILING"] "ERROR"
    ⟨⟨_, rfl, rfl⟩, ⟨_, rfl, rfl⟩, ⟨_, rfl, rfl⟩, trivial⟩
    (by decide) (by decide) (by decide)

/-- C12: when a fetch fails, with not-found or any other error, after `k`
fetches of unclassified statuses, the waiter stops at once and returns that
error together with the last status observed before it, the empty string if
there was none; a not-found fetch is never turned into success. -/
theorem containerNodePoolAwaitRestingState_fetch_error (env : Env) (name : String)
    (timeout : Nat) (trace : List Event) (pending : List String) (err : GoError)
    (hfetch : FetchesYield env name trace pending)
    (hpending : ∀ st ∈ pending, containerNodePoolRestingStates st = Undefined)
    (herr : env.remote.get (trace ++ List.replicate pending.length (Event.getCall name)) name
      = .error err)
    (htime : pending.length < timeout) :
    containerNodePoolAwaitRestingState env name timeout trace
      = (trace ++ List.replicate (pending.length + 1) (Event.getCall name),
          pending.getLast?.getD "", some err) := by
  obtain ⟨m, rfl⟩ : ∃ m, timeout = pending.length + (m + 1) :=
    ⟨timeout - pending.length - 1, by omega⟩
  obtain ⟨r', hr'⟩ := retryLoop_await_pending env name (m + 1) pending trace none "" hfetch
    hpending
  unfold containerNodePoolAwaitRestingState Retry
  rw [hr', retryLoop]
  simp [awaitAttempt, herr, List.replicate_succ']

/-- C12, instantiated on a pool that disappears before the first fetch, and on
one that is seen provisioning once and then disappears. -/
theorem containerNodePoolAwaitRestingState_fetch_error_witness :
    containerNodePoolAwaitRestingState (scenarioEnv goneRemote) "pool" 5 []
      = ([Event.getCall "pool"], "", some notFoundError) ∧
    containerNodePoolAwaitRestingState (scenarioEnv (pollingRemote ["PROVISIONING"])) "pool" 5 []
      = ([Event.getCall "pool", Event.getCall "pool"], "PROVISIONING", some notFoundError) :=
  ⟨containerNodePoolAwaitRestingState_fetch_error (scenarioEnv goneRemote) "pool" 5 [] []
      notFoundError trivial (by decide) rfl (by decide),
   containerNodePoolAwaitRestingState_fetch_error
      (scenarioEnv (pollingRemote ["PROVISIONING"])) "pool" 5 [] ["PROVISIONING"]
      notFoundError ⟨⟨_, rfl, rfl⟩, trivial⟩ (by decide) rfl (by decide)⟩

/-! ## Retrying a busy cluster -/

/-- A submission loop whose call is rejected as busy `n` times continues after
the `n` attempts with whatever budget is left. -/
theorem retryLoop_busy (f : List Event × Option Operation →
      (List Event × Option Operation) × Option RetryError)
    (call : List Event → Except GoError Operation) (event : Event)
    (hbusy : ∀ t o err, call t = .error err → isFailedPreconditionError err = true →
      f (t, o) = ((t ++ [event], none), some (.RetryableError err)))
    (fuel : Nat) :
    ∀ (n : Nat) (trace : List Event) (r : Option GoError) (o : Option Operation),
      BusyFor call event trace n →
      ∃ r' o', retryLoop f (n + fuel) r (trace, o)
        = retryLoop f fuel r' (trace ++ List.replicate n event, o') := by
  intro n
  induction n with
  | zero => intro trace r o _; exact ⟨r, o, by simp⟩
  | succ n ih =>
    intro trace r o hb
    obtain ⟨⟨err, hcall, hfp⟩, hrest⟩ := hb
    obtain ⟨r', o', hr'⟩ := ih (trace ++ [event]) (some err) none hrest
    refine ⟨r', o', ?_⟩
    have hlen : n + 1 + fuel = (n + fuel) + 1 := by omega
    rw [hlen, retryLoop, hbusy trace o err hcall hfp]
    simp only
    rw [hr']
    simp [List.replicate_succ]

theorem createSubmit_busy_then_ok (env : Env) (info : NodePoolInformation) (np : NodePool)
    (timeout n : Nat) (trace : List Event) (op : Operation)
    (hbusy : BusyFor (fun h => env.remote.create h info.parent np)
      (Event.createCall info.parent np) trace n)
    (ht : n < timeout)
    (hok : env.remote.create (trace ++ List.replicate n (Event.createCall info.parent np))
      info.parent np = .ok op) :
    createSubmit env info np timeout trace
      = (trace ++ List.replicate (n + 1) (Event.createCall info.parent np), some op, none) := by
  obtain ⟨m, rfl⟩ : ∃ m, timeout = n + (m + 1) := ⟨timeout - n - 1, by omega⟩
  obtain ⟨r', o', hr'⟩ := retryLoop_busy (createAttempt env info np)
    (fun h => env.remote.create h info.parent np) (Event.createCall info.parent np)
    (fun t o err hc hfp => by simp only at hc; simp [createAttempt, hc, hfp])
    (m + 1) n trace none none hbusy
  unfold createSubmit Retry
  rw [hr', retryLoop]
  simp [createAttempt, hok, List.replicate_succ']

theorem createSubmit_busy_then_error (env : Env) (info : NodePoolInformation) (np : NodePool)
    (timeout n : Nat) (trace : List Event) (err : GoError)
    (hbusy : BusyFor (fun h => env.remote.create h info.parent np)
      (Event.createCall info.parent np) trace n)
    (ht : n < timeout)
    (herr : env.remote.create (trace ++ List.replicate n (Event.createCall info.parent np))
      info.parent np = .error err)
    (hfp : isFailedPreconditionError err = false) :
    createSubmit env info np timeout trace
      = (trace ++ List.replicate (n + 1) (Event.createCall info.parent np), none, some err) := by
  obtain ⟨m, rfl⟩ : ∃ m, timeout = n + (m + 1) := ⟨timeout - n - 1, by omega⟩
  obtain ⟨r', o', hr'⟩ := retryLoop_busy (createAttempt env info np)
    (fun h => env.remote.create h info.parent np) (Event.createCall info.parent np)
    (fun t o err hc hfp => by simp only at hc; simp [createAttempt, hc, hfp])
    (m + 1) n trace none none hbusy
  unfold createSubmit Retry
  rw [hr', retryLoop]
  simp [createAttempt, herr, hfp, List.replicate_succ']

theorem deleteSubmit_busy_then_ok (env : Env) (info : NodePoolInformation) (name : String)
    (timeout n : Nat) (trace : List Event) (op : Operation)
    (hbusy : BusyFor (fun h => env.remote.delete h (info.fullyQualifiedName name))
      (Event.deleteCall (info.fullyQualifiedName name)) trace n)
    (ht : n < timeout)
    (hok : env.remote.delete
      (trace ++ List.replicate n (Event.deleteCall (info.fullyQualifiedName name)))
      (info.fullyQualifiedName name) = .ok op) :
    deleteSubmit env info name timeout trace
      = (trace ++ List.replicate (n + 1) (Event.deleteCall (info.fullyQualifiedName name)),
          some op, none) := by
  obtain ⟨m, rfl⟩ : ∃ m, timeout = n + (m + 1) := ⟨timeout - n - 1, by omega⟩
  obtain ⟨r', o', hr'⟩ := retryLoop_busy (deleteAttempt env info name)
    (fun h => env.remote.delete h (info.fullyQualifiedName name))
    (Event.deleteCall (info.fullyQualifiedName name))
    (fun t o err hc hfp => by simp only at hc; simp [deleteAttempt, hc, hfp])
    (m + 1) n trace none none hbusy
  unfold deleteSubmit Retry
  rw [hr', retryLoop]
  simp [deleteAttempt, hok, List.replicate_succ']

theorem deleteSubmit_busy_then_error (env : Env) (info : NodePoolInformation) (name : String)
    (timeout n : Nat) (trace : List Event) (err : GoError)
    (hbusy : BusyFor (fun h => env.remote.delete h (info.fullyQualifiedName name))
      (Event.deleteCall (info.fullyQualifiedName name)) trace n)
    (ht : n < timeout)
    (herr : env.remote.delete
      (trace ++ List.replicate n (Event.deleteCall (info.fullyQualifiedName name)))
      (info.fullyQualifiedName name) = .error err)
    (hfp : isFailedPreconditionError err = false) :
    deleteSubmit env info name timeout trace
      = (trace ++ List.replicate (n + 1) (Event.deleteCall (info.fullyQualifiedName name)),
          none, some err) := by
  obtain ⟨m, rfl⟩ : ∃ m, timeout = n + (m + 1) := ⟨timeout - n - 1, by omega⟩
  obtain ⟨r', o', hr'⟩ := retryLoop_busy (deleteAttempt env info name)
    (fun h => env.remote.delete h (info.fullyQualifiedName name))
    (Event.deleteCall (info.fullyQualifiedName name))
    (fun t o err hc hfp => by simp only at hc; simp [deleteAttempt, hc, hfp])
    (m + 1) n trace none none hbusy
  unfold deleteSubmit Retry
  rw [hr', retryLoop]
  simp [deleteAttempt, herr, hfp, List.replicate_succ']

/-- After an accepted create call the callback waits on the operation the call
returned, whatever the wait yields. -/
theorem createLocked_wait_isPrefix (env : Env) (info : NodePoolInformation) (np : NodePool)
    (s : St) (trace : List Event) (operation : Option Operation)
    (hsub : createSubmit env info np env.timeoutCreate
      (s.trace ++ [Event.setId (info.fullyQualifiedName np.Name)]) = (trace, operation, none)) :
    trace ++ [Event.operationWait operation "creating GKE NodePool"]
      <+: (createLocked env info np s).1.trace := by
  cases hw : env.remote.operationWait trace operation with
  | some we =>
    rw [createLocked_of_wait_error env info np s trace operation we hsub hw]
    exact ⟨[Event.setId ""], by simp⟩
  | none =>
    have hr := (resourceContainerNodePoolRead_extends env
      { d := { s.d with id := info.fullyQualifiedName np.Name },
        trace := trace ++ [Event.operationWait operation "creating GKE NodePool"] }).isPrefix
    rcases hread : resourceContainerNodePoolRead env
      { d := { s.d with id := info.fullyQualifiedName np.Name },
        trace := trace ++ [Event.operationWait operation "creating GKE NodePool"] }
      with ⟨s', _ | e⟩
    · rw [hread] at hr
      have ha := (containerNodePoolAwaitRestingState_extends env s'.d.id env.timeoutCreate
        s'.trace).isPrefix
      rcases haw : containerNodePoolAwaitRestingState env s'.d.id env.timeoutCreate s'.trace
        with ⟨t', st, _ | e⟩
      · rw [haw] at ha
        rw [createLocked_of_resting env info np s s' trace t' operation st hsub hw hread haw]
        exact hr.trans ha
      · rw [haw] at ha
        unfold createLocked
        simp only [St.SetId, St.emit, ← NodePoolInformation.fullyQualifiedName.eq_1, hsub, hw,
          hread, haw]
        exact hr.trans ha
    · rw [hread] at hr
      unfold createLocked
      simp only [St.SetId, St.emit, ← NodePoolInformation.fullyQualifiedName.eq_1, hsub, hw,
        hread]
      exact hr

theorem deleteLocked_wait_isPrefix (env : Env) (info : NodePoolInformation) (name : String)
    (s : St) (trace : List Event) (operation : Option Operation)
    (hsub : deleteSubmit env info name env.timeoutDelete s.trace = (trace, operation, none)) :
    trace ++ [Event.operationWait operation "deleting GKE NodePool"]
      <+: (deleteLocked env info name s).1.trace := by
  cases hw : env.remote.operationWait trace operation with
  | some we =>
    rw [deleteLocked_of_wait_error env info name s trace operation we hsub hw]
  | none =>
    rw [deleteLocked_of_wait_ok env info name s trace operation hsub hw]
    exact ⟨[Event.setId ""], by simp⟩

/-- C13: in the submission loops of the create and of the delete callback a
failed-precondition error of the remote call is retried and not surfaced while
the timeout has not elapsed. When the call fails that way `n` times and then
succeeds, the callback goes on to wait on the operation returned by the
`n + 1`-th call; when it then fails with any other error, that error is
surfaced after this one attempt, with no further call, as
`error creating NodePool: ...` (create) or `Error deleting NodePool: ...`
(delete). -/
theorem submission_retries_failed_precondition (env : Env) (s : St) (ua : String)
    (nodePoolInfo : NodePoolInformation)
    (hua : env.generateUserAgentString = .ok ua)
    (hinfo : extractNodePoolInformation s.d env.config = .ok nodePoolInfo) :
    (∀ (nodePool : NodePool) (n : Nat),
      expandNodePool env s.trace s.d = .ok nodePool →
      n < env.timeoutCreate →
      BusyFor (fun h => env.remote.create h nodePoolInfo.parent nodePool)
        (Event.createCall nodePoolInfo.parent nodePool)
        (s.trace ++ [Event.lock nodePoolInfo.lockKey,
          Event.setId (nodePoolInfo.fullyQualifiedName nodePool.Name)]) n →
      (∀ operation,
        env.remote.create
          (s.trace ++ [Event.lock nodePoolInfo.lockKey,
              Event.setId (nodePoolInfo.fullyQualifiedName nodePool.Name)]
            ++ List.replicate n (Event.createCall nodePoolInfo.parent nodePool))
          nodePoolInfo.parent nodePool = .ok operation →
        s.trace ++ [Event.lock nodePoolInfo.lockKey,
              Event.setId (nodePoolInfo.fullyQualifiedName nodePool.Name)]
            ++ List.replicate (n + 1) (Event.createCall nodePoolInfo.parent nodePool)
            ++ [Event.operationWait (some operation) "creating GKE NodePool"]
          <+: (resourceContainerNodePoolCreate env s).1.trace) ∧
      (∀ err,
        env.remote.create
          (s.trace ++ [Event.lock nodePoolInfo.lockKey,
              Event.setId (nodePoolInfo.fullyQualifiedName nodePool.Name)]
            ++ List.replicate n (Event.createCall nodePoolInfo.parent nodePool))
          nodePoolInfo.parent nodePool = .error err →
        isFailedPreconditionError err = false →
        resourceContainerNodePoolCreate env s
          = ({ d := { s.d with id := nodePoolInfo.fullyQualifiedName nodePool.Name }
               trace := s.trace ++ [Event.lock nodePoolInfo.lockKey,
                   Event.setId (nodePoolInfo.fullyQualifiedName nodePool.Name)]
                 ++ List.replicate (n + 1) (Event.createCall nodePoolInfo.parent nodePool)
                 ++ [Event.unlock nodePoolInfo.lockKey] },
             some (.plain ("error creating NodePool: " ++ err.text))))) ∧
    (∀ (trace : List Event) (state : String) (n : Nat),
      containerNodePoolAwaitRestingState env
        (nodePoolInfo.fullyQualifiedName (getNodePoolName s.d.id)) env.timeoutDelete s.trace
        = (trace, state, none) →
      n < env.timeoutDelete →
      BusyFor
        (fun h => env.remote.delete h (nodePoolInfo.fullyQualifiedName (getNodePoolName s.d.id)))
        (Event.deleteCall (nodePoolInfo.fullyQualifiedName (getNodePoolName s.d.id)))
        (trace ++ [Event.lock nodePoolInfo.lockKey]) n →
      (∀ operation,
        env.remote.delete
          (trace ++ [Event.lock nodePoolInfo.lockKey]
            ++ List.replicate n
              (Event.deleteCall (nodePoolInfo.fullyQualifiedName (getNodePoolName s.d.id))))
          (nodePoolInfo.fullyQualifiedName (getNodePoolName s.d.id)) = .ok operation →
        trace ++ [Event.lock nodePoolInfo.lockKey]
            ++ List.replicate (n + 1)
              (Event.deleteCall (nodePoolInfo.fullyQualifiedName (getNodePoolName s.d.id)))
            ++ [Event.operationWait (some operation) "deleting GKE NodePool"]
          <+: (resourceContainerNodePoolDelete env s).1.trace) ∧
      (∀ err,
        env.remote.delete
          (trace ++ [Event.lock nodePoolInfo.lockKey]
            ++ List.replicate n
              (Event.deleteCall (nodePoolInfo.fullyQualifiedName (getNodePoolName s.d.id))))
          (nodePoolInfo.fullyQualifiedName (getNodePoolName s.d.id)) = .error err →
        isFailedPreconditionError err = false →
        resourceContainerNodePoolDelete env s
          = ({ d := s.d
               trace := trace ++ [Event.lock nodePoolInfo.lockKey]
                 ++ List.replicate (n + 1)
                   (Event.deleteCall (nodePoolInfo.fullyQualifiedName (getNodePoolName s.d.id)))
                 ++ [Event.unlock nodePoolInfo.lockKey] },
             some (.plain ("Error deleting NodePool: " ++ err.text))))) := by
  constructor
  · intro np n hnp hn hbusy
    have hbusy' : BusyFor (fun h => env.remote.create h nodePoolInfo.parent np)
        (Event.createCall nodePoolInfo.parent np)
        ((s.emit (.lock nodePoolInfo.lockKey)).trace
          ++ [Event.setId (nodePoolInfo.fullyQualifiedName np.Name)]) n := by
      simpa [St.emit] using hbusy
    rw [resourceContainerNodePoolCreate_eq env s ua nodePoolInfo np hua hinfo hnp]
    constructor
    · intro op hok
      have hsub := createSubmit_busy_then_ok env nodePoolInfo np env.timeoutCreate n _ op
        hbusy' hn (by simpa [St.emit] using hok)
      have hpre := createLocked_wait_isPrefix env nodePoolInfo np _ _ _ hsub
      have h2 := hpre.trans (List.prefix_append _ [Event.unlock nodePoolInfo.lockKey])
      simpa [St.emit] using h2
    · intro err herr hfp
      have hsub := createSubmit_busy_then_error env nodePoolInfo np env.timeoutCreate n _ err
        hbusy' hn (by simpa [St.emit] using herr) hfp
      rw [createLocked_of_submit_error env nodePoolInfo np _ _ _ err hsub]
      simp [St.emit]
  · intro trace state n hawait hn hbusy
    rw [resourceContainerNodePoolDelete_eq env s ua nodePoolInfo trace state hua hinfo hawait]
    constructor
    · intro op hok
      have hsub := deleteSubmit_busy_then_ok env nodePoolInfo (getNodePoolName s.d.id)
        env.timeoutDelete n (trace ++ [Event.lock nodePoolInfo.lockKey]) op hbusy hn hok
      have hpre := deleteLocked_wait_isPrefix env nodePoolInfo (getNodePoolName s.d.id)
        { d := s.d, trace := trace ++ [Event.lock nodePoolInfo.lockKey] } _ _ hsub
      have h2 := hpre.trans (List.prefix_append _ [Event.unlock nodePoolInfo.lockKey])
      simpa [St.emit] using h2
    · intro err herr hfp
      have hsub := deleteSubmit_busy_then_error env nodePoolInfo (getNodePoolName s.d.id)
        env.timeoutDelete n (trace ++ [Event.lock nodePoolInfo.lockKey]) err hbusy hn herr hfp
      rw [deleteLocked_of_submit_error env nodePoolInfo (getNodePoolName s.d.id)
        { d := s.d, trace := trace ++ [Event.lock nodePoolInfo.lockKey] } _ _ err hsub]
      simp [St.emit]

/-- C13, instantiated on a cluster that is busy for the first two create calls
and the first two delete calls: the third call is accepted and the callback
waits on its operation; and on services whose call fails with a server error,
which is surfaced after the single attempt. -/
theorem submission_retries_failed_precondition_witness :
    ([Event.lock "google-container-cluster/P/L/C",
        Event.setId "projects/P/locations/L/clusters/C/nodePools/p"]
        ++ List.replicate 3 (Event.createCall "projects/P/locations/L/clusters/C"
          { Name := "p", InitialNodeCount := 1, Config := "", Locations := [],
            Version := "1.27", Autoscaling := none, MaxPodsConstraint := none,
            Management := none, UpgradeSettings := none, InstanceGroupUrls := [],
            Status := "", StatusMessage := "" })
        ++ [Event.operationWait (some { Name := "operation-create" }) "creating GKE NodePool"]
      <+: (resourceContainerNodePoolCreate (scenarioEnv (busyRemote 2)) ⟨poolRecord, []⟩).1.trace) ∧
    ([Event.getCall "projects/P/locations/L/clusters/C/nodePools/p",
        Event.lock "google-container-cluster/P/L/C"]
        ++ List.replicate 3 (Event.deleteCall "projects/P/locations/L/clusters/C/nodePools/p")
        ++ [Event.operationWait (some { Name := "operation-delete" }) "deleting GKE NodePool"]
      <+: (resourceContainerNodePoolDelete (scenarioEnv (busyRemote 2)) ⟨poolRecord, []⟩).1.trace) ∧
    (resourceContainerNodePoolCreate (scenarioEnv createFailsRemote) ⟨poolRecord, []⟩).2
      = some (.plain ("error creating NodePool: " ++ backendError.text)) ∧
    (resourceContainerNodePoolDelete (scenarioEnv deleteFailsRemote) ⟨poolRecord, []⟩).2
      = some (.plain ("Error deleting NodePool: " ++ backendError.text)) :=
  ⟨((submission_retries_failed_precondition (scenarioEnv (busyRemote 2)) ⟨poolRecord, []⟩
      "terraform" poolScope rfl rfl).1
      { Name := "p", InitialNodeCount := 1, Config := "", Locations := [], Version := "1.27",
        Autoscaling := none, MaxPodsConstraint := none, Management := none,
        UpgradeSettings := none, InstanceGroupUrls := [], Status := "", StatusMessage := "" }
      2 rfl (by decide) ⟨⟨_, rfl, rfl⟩, ⟨_, rfl, rfl⟩, trivial⟩).1 _ rfl,
   ((submission_retries_failed_precondition (scenarioEnv (busyRemote 2)) ⟨poolRecord, []⟩
      "terraform" poolScope rfl rfl).2
      [Event.getCall "projects/P/locations/L/clusters/C/nodePools/p"] "RUNNING"
      2 rfl (by decide) ⟨⟨_, rfl, rfl⟩, ⟨_, rfl, rfl⟩, trivial⟩).1 _ rfl,
   congrArg Prod.snd
    (((submission_retries_failed_precondition (scenarioEnv createFailsRemote) ⟨poolRecord, []⟩
      "terraform" poolScope rfl rfl).1
      { Name := "p", InitialNodeCount := 1, Config := "", Locations := [], Version := "1.27",
        Autoscaling := none, MaxPodsConstraint := none, Management := none,
        UpgradeSettings := none, InstanceGroupUrls := [], Status := "", StatusMessage := "" }
      0 rfl (by decide) trivial).2 backendError rfl rfl),
   congrArg Prod.snd
    (((submission_retries_failed_precondition (scenarioEnv deleteFailsRemote) ⟨poolRecord, []⟩
      "terraform" poolScope rfl rfl).2
      [Event.getCall "projects/P/locations/L/clusters/C/nodePools/p"] "RUNNING"
      0 rfl (by decide) trivial).2 backendError rfl rfl)⟩

/-! ## The node count of a pool -/

/-- The sum that the loop over the instance groups keeps, in Go `int`
arithmetic. -/
theorem flattenInstanceGroups_yield (env : Env) :
    ∀ (lookups : List (String × Option Int)) (trace : List Event) (size : Int)
      (igmUrls : List String),
      LookupsYield env trace lookups →
      (flattenInstanceGroups env (lookups.map Prod.fst) trace size igmUrls).2
        = .ok ((existingSizes lookups).foldl (fun acc k => wrapInt (acc + k)) size,
            igmUrls ++ existingUrls lookups) := by
  intro lookups
  induction lookups with
  | nil => intro trace size igmUrls _; simp [flattenInstanceGroups, existingSizes, existingUrls]
  | cons l rest ih =>
    intro trace size igmUrls hl
    obtain ⟨url, outcome⟩ := l
    obtain ⟨project, zone, name, hm, hout, hrest⟩ := hl
    cases outcome with
    | none =>
      obtain ⟨err, herr, h404⟩ := hout
      simp only [List.map_cons, flattenInstanceGroups, hm, herr, h404, if_true]
      rw [ih _ _ _ hrest]
      simp [existingSizes, existingUrls]
    | some k =>
      simp only at hout
      simp only [List.map_cons, flattenInstanceGroups, hm, hout]
      rw [ih _ _ _ hrest]
      simp [existingSizes, existingUrls]

theorem wrapInt_of_range (x : Int) (h0 : 0 ≤ x) (h1 : x < 2 ^ 63) : wrapInt x = x := by
  unfold wrapInt
  norm_num at h1 ⊢
  omega

theorem foldl_wrapInt_eq_sum :
    ∀ (sizes : List Int) (size : Int), 0 ≤ size → (∀ k ∈ sizes, 0 ≤ k) →
      size + sizes.sum < 2 ^ 63 →
      sizes.foldl (fun acc k => wrapInt (acc + k)) size = size + sizes.sum := by
  intro sizes
  induction sizes with
  | nil => intro size _ _ _; simp
  | cons k ks ih =>
    intro size h0 hk hsum
    have hk0 : 0 ≤ k := hk k (List.mem_cons_self _ _)
    have hks : ∀ j ∈ ks, 0 ≤ j := fun j hj => hk j (List.mem_cons_of_mem _ hj)
    have hks0 : 0 ≤ ks.sum := List.sum_nonneg hks
    simp only [List.sum_cons] at hsum
    have hw : wrapInt (size + k) = size + k :=
      wrapInt_of_range _ (by omega) (by omega)
    simp only [List.foldl_cons, hw, List.sum_cons]
    rw [ih (size + k) (by omega) hks (by omega)]
    omega

theorem existingUrls_length (lookups : List (String × Option Int)) :
    (existingUrls lookups).length = (existingSizes lookups).length := by
  induction lookups with
  | nil => rfl
  | cons l rest ih =>
    obtain ⟨url, outcome⟩ := l
    cases outcome <;> simp_all [existingUrls, existingSizes]

/-- C15 (as amended): the node count that `flattenNodePool` reports is the
arithmetic mean of the target sizes of the backing instance group managers
that still exist, rounded down to an integer (0 when none exists), provided
the sizes are not negative and their sum is below `2 ^ 63`; managers whose
lookup reports not-found are left out of the mean and of the URLs and cause
no error. -/
theorem flattenNodePool_node_count (env : Env) (d : ResourceData) (np : NodePool)
    (trace : List Event) (ua : String) (management : NodeManagement)
    (lookups : List (String × Option Int))
    (hua : env.generateUserAgentString = .ok ua)
    (hmgmt : np.Management = some management)
    (hurls : np.InstanceGroupUrls = lookups.map Prod.fst)
    (hlook : LookupsYield env trace lookups)
    (hnonneg : ∀ k ∈ existingSizes lookups, 0 ≤ k)
    (hsum : (existingSizes lookups).sum < 2 ^ 63) :
    ∃ m, (flattenNodePool env d np trace).2 = .ok m ∧
      m.instance_group_urls = existingUrls lookups ∧
      m.node_count
        = (if existingSizes lookups = [] then 0
           else ⌊((existingSizes lookups).sum : ℚ) / ((existingSizes lookups).length : ℚ)⌋) := by
  have hloop := flattenInstanceGroups_yield env lookups trace 0 [] hlook
  rw [foldl_wrapInt_eq_sum _ 0 (le_refl 0) hnonneg (by simpa using hsum)] at hloop
  simp only [zero_add, List.nil_append] at hloop
  unfold flattenNodePool
  rcases hf : flattenInstanceGroups env np.InstanceGroupUrls trace 0 [] with ⟨t, r⟩
  rw [hurls] at hf
  rw [hf] at hloop
  simp only at hloop
  subst hloop
  simp only [hua, hurls, hf, hmgmt]
  refine ⟨_, rfl, rfl, ?_⟩
  simp only [existingUrls_length]
  by_cases hnil : existingSizes lookups = []
  · simp [hnil]
  · have hpos : 0 < (existingSizes lookups).length := List.length_pos.mpr hnil
    simp only [hnil, if_false, gt_iff_lt, hpos, if_true]
    rw [Rat.floor_intCast_div_natCast]
    exact Int.tdiv_eq_ediv (List.sum_nonneg hnonneg) (Int.natCast_nonneg _)

/-- C15, instantiated on the examples of the claim: sizes 3 and 5 give 4, and
with the first manager not found the size 5 alone gives 5. -/
theorem flattenNodePool_node_count_witness :
    (∃ m, (flattenNodePool (igmEnv [("a", some 3), ("b", some 5)]) poolRecord
        (groupedPool ["a", "b"]) []).2 = .ok m ∧
      m.instance_group_urls = ["a", "b"] ∧ m.node_count = 4) ∧
    (∃ m, (flattenNodePool (igmEnv [("a", none), ("b", some 5)]) poolRecord
        (groupedPool ["a", "b"]) []).2 = .ok m ∧
      m.instance_group_urls = ["b"] ∧ m.node_count = 5) := by
  constructor
  · obtain ⟨m, h1, h2, h3⟩ := flattenNodePool_node_count
      (igmEnv [("a", some 3), ("b", some 5)]) poolRecord (groupedPool ["a", "b"]) []
      "terraform" { AutoRepair := false, AutoUpgrade := false }
      [("a", some 3), ("b", some 5)] rfl rfl rfl
      ⟨_, _, _, rfl, rfl, _, _, _, rfl, rfl, trivial⟩ (by decide) (by decide)
    have hsz : existingSizes [("a", some 3), ("b", some 5)] = [3, 5] := rfl
    rw [hsz] at h3
    norm_num at h3
    exact ⟨m, h1, h2, h3⟩
  · obtain ⟨m, h1, h2, h3⟩ := flattenNodePool_node_count
      (igmEnv [("a", none), ("b", some 5)]) poolRecord (groupedPool ["a", "b"]) []
      "terraform" { AutoRepair := false, AutoUpgrade := false }
      [("a", none), ("b", some 5)] rfl rfl rfl
      ⟨_, _, _, rfl, ⟨_, rfl, rfl⟩, _, _, _, rfl, rfl, trivial⟩ (by decide) (by decide)
    have hsz : existingSizes [("a", none), ("b", some 5)] = [5] := rfl
    rw [hsz] at h3
    norm_num at h3
    exact ⟨m, h1, h2, h3⟩

/-- C15 (counterexample): with target sizes 3 and 4, both present, the node
count reported is 3, which is not the arithmetic mean 7/2 of the sizes. -/
theorem flattenNodePool_node_count_not_mean :
    ∃ m, (flattenNodePool (igmEnv [("a", some 3), ("b", some 4)]) poolRecord
        (groupedPool ["a", "b"]) []).2 = .ok m ∧
      m.node_count = 3 ∧ (m.node_count : ℚ) ≠ ((3 : ℚ) + 4) / 2 := by
  refine ⟨_, rfl, by decide, ?_⟩
  have h : (wrapInt (wrapInt 3 + 4)).tdiv 2 = 3 := by decide
  show ¬ (((wrapInt (wrapInt 3 + 4)).tdiv 2 : Int) : ℚ) = (3 + 4) / 2
  rw [h]
  norm_num

/-! ## The update callback -/

/-- C17 (counterexample): the record of pool `p` carries the very node
configuration that the service reports for the pool, so `node_config` is
unchanged; the update still creates and deletes node pools. -/
theorem resourceContainerNodePoolUpdate_replaces_unchanged_config :
    poolRecord.node_config
      = (scenarioEnv healthyRemote).flattenNodeConfig (reportedPool "p" "RUNNING").Config ∧
    (resourceContainerNodePoolUpdate (scenarioEnv healthyRemote) ⟨poolRecord, []⟩).2 = none ∧
    mutatingCalls
        (resourceContainerNodePoolUpdate (scenarioEnv healthyRemote) ⟨poolRecord, []⟩).1.trace
      = [MutatingCall.create "projects/P/locations/L/clusters/C" "temp-node-pool",
          MutatingCall.delete "projects/P/locations/L/clusters/C/nodePools/p",
          MutatingCall.create "projects/P/locations/L/clusters/C" "p",
          MutatingCall.delete "projects/P/locations/L/clusters/C/nodePools/temp-node-pool"] := by
  refine ⟨by decide, by decide, by decide⟩

/-! ## The window of the cluster mutex -/

theorem NoMutex.id (t : List Event) : NoMutex t t :=
  ⟨[], by simp, by simp⟩

theorem NoMutex.comp {t t' t'' : List Event} (h : NoMutex t t') (h' : NoMutex t' t'') :
    NoMutex t t'' := by
  obtain ⟨n, hn, hc⟩ := h
  obtain ⟨n', hn', hc'⟩ := h'
  refine ⟨n ++ n', by rw [hn', hn, List.append_assoc], ?_⟩
  intro e he
  rcases List.mem_append.mp he with h1 | h1
  · exact hc e h1
  · exact hc' e h1

theorem NoMutex.step (t : List Event) (e : Event) (he : e.isMutex = false) :
    NoMutex t (t ++ [e]) :=
  ⟨[e], rfl, by simpa using he⟩

theorem containerNodePoolAwaitRestingState_noMutex (env : Env) (name : String) (timeout : Nat)
    (trace : List Event) :
    NoMutex trace (containerNodePoolAwaitRestingState env name timeout trace).1 := by
  unfold containerNodePoolAwaitRestingState Retry
  apply retryLoop_invariant (awaitAttempt env name) (fun p => NoMutex trace p.1)
  · intro p hp
    show NoMutex trace (awaitAttempt env name p).1.1
    rw [awaitAttempt_trace]
    exact hp.comp (NoMutex.step p.1 _ rfl)
  · exact NoMutex.id _

theorem createSubmit_noMutex (env : Env) (info : NodePoolInformation) (np : NodePool)
    (timeout : Nat) (trace : List Event) :
    NoMutex trace (createSubmit env info np timeout trace).1 := by
  unfold createSubmit Retry
  apply retryLoop_invariant (createAttempt env info np) (fun p => NoMutex trace p.1)
  · intro p hp
    show NoMutex trace (createAttempt env info np p).1.1
    rw [createAttempt_trace]
    exact hp.comp (NoMutex.step p.1 _ rfl)
  · exact NoMutex.id _

theorem deleteSubmit_noMutex (env : Env) (info : NodePoolInformation) (name : String)
    (timeout : Nat) (trace : List Event) :
    NoMutex trace (deleteSubmit env info name timeout trace).1 := by
  unfold deleteSubmit Retry
  apply retryLoop_invariant (deleteAttempt env info name) (fun p => NoMutex trace p.1)
  · intro p hp
    show NoMutex trace (deleteAttempt env info name p).1.1
    rw [deleteAttempt_trace]
    exact hp.comp (NoMutex.step p.1 _ rfl)
  · exact NoMutex.id _

theorem flattenInstanceGroups_noMutex (env : Env) (urls : List String) :
    ∀ (trace : List Event) (size : Int) (igmUrls : List String),
      NoMutex trace (flattenInstanceGroups env urls trace size igmUrls).1 := by
  induction urls with
  | nil => intro trace size igmUrls; exact NoMutex.id _
  | cons url rest ih =>
    intro trace size igmUrls
    unfold flattenInstanceGroups
    cases hm : env.igmMatch url with
    | none => exact NoMutex.id _
    | some m =>
      obtain ⟨project, zone, name⟩ := m
      have hstep : NoMutex trace (trace ++ [Event.igmGetCall project zone name]) :=
        NoMutex.step _ _ rfl
      cases hg : env.remote.igmGet trace project zone name with
      | error err =>
        by_cases h404 : isGoogleApiErrorWithCode err 404 = true
        · simpa [hg, h404] using hstep.comp (ih _ size igmUrls)
        · simpa [hg, h404] using hstep
      | ok targetSize =>
        simpa [hg] using hstep.comp (ih _ (wrapInt (size + targetSize)) (igmUrls ++ [url]))

theorem flattenNodePool_noMutex (env : Env) (d : ResourceData) (np : NodePool)
    (trace : List Event) : NoMutex trace (flattenNodePool env d np trace).1 := by
  unfold flattenNodePool
  cases env.generateUserAgentString with
  | error err => exact NoMutex.id _
  | ok ua =>
    have h := flattenInstanceGroups_noMutex env np.InstanceGroupUrls trace 0 []
    rcases hf : flattenInstanceGroups env np.InstanceGroupUrls trace 0 [] with ⟨t, _ | ⟨size, urls⟩⟩
    · rw [hf] at h; simpa using h
    · rw [hf] at h
      cases np.Management <;> simpa using h

theorem resourceContainerNodePoolRead_noMutex (env : Env) (s : St) :
    NoMutex s.trace (resourceContainerNodePoolRead env s).1.trace := by
  unfold resourceContainerNodePoolRead
  cases env.generateUserAgentString with
  | error err => exact NoMutex.id _
  | ok ua =>
    cases extractNodePoolInformation s.d env.config with
    | error err => exact NoMutex.id _
    | ok info =>
      have hstep : NoMutex s.trace
          (s.emit (.getCall (info.fullyQualifiedName (getNodePoolName s.d.id)))).trace :=
        NoMutex.step _ _ rfl
      simp only
      cases env.remote.get s.trace (info.fullyQualifiedName (getNodePoolName s.d.id)) with
      | error err =>
        simp only [handleNotFoundError]
        split
        · exact hstep.comp (NoMutex.step _ _ rfl)
        · exact hstep
      | ok np =>
        have h := flattenNodePool_noMutex env
          (s.emit (.getCall (info.fullyQualifiedName (getNodePoolName s.d.id)))).d np
          (s.emit (.getCall (info.fullyQualifiedName (getNodePoolName s.d.id)))).trace
        simp only
        rcases hf : flattenNodePool env
          (s.emit (.getCall (info.fullyQualifiedName (getNodePoolName s.d.id)))).d np
          (s.emit (.getCall (info.fullyQualifiedName (getNodePoolName s.d.id)))).trace
          with ⟨t, _ | m⟩
        · rw [hf] at h; simpa using hstep.comp h
        · rw [hf] at h; simpa using hstep.comp h

/-- Between taking the mutex and returning, the create callback does not touch
the mutex. -/
theorem createLocked_noMutex (env : Env) (info : NodePoolInformation) (np : NodePool)
    (s : St) : NoMutex s.trace (createLocked env info np s).1.trace := by
  have h0 : NoMutex s.trace (s.trace ++ [Event.setId (info.fullyQualifiedName np.Name)]) :=
    NoMutex.step _ _ rfl
  have hsub := h0.comp (createSubmit_noMutex env info np env.timeoutCreate
    (s.trace ++ [Event.setId (info.fullyQualifiedName np.Name)]))
  rcases hcs : createSubmit env info np env.timeoutCreate
    (s.trace ++ [Event.setId (info.fullyQualifiedName np.Name)]) with ⟨t, op, _ | e⟩
  · rw [hcs] at hsub
    have hw0 : NoMutex s.trace (t ++ [Event.operationWait op "creating GKE NodePool"]) :=
      hsub.comp (NoMutex.step _ _ rfl)
    cases hw : env.remote.operationWait t op with
    | some we =>
      rw [createLocked_of_wait_error env info np s t op we hcs hw]
      have := hw0.comp (NoMutex.step _ (Event.setId "") rfl)
      simpa using this
    | none =>
      have hr := hw0.comp (resourceContainerNodePoolRead_noMutex env
        { d := { s.d with id := info.fullyQualifiedName np.Name },
          trace := t ++ [Event.operationWait op "creating GKE NodePool"] })
      rcases hread : resourceContainerNodePoolRead env
        { d := { s.d with id := info.fullyQualifiedName np.Name },
          trace := t ++ [Event.operationWait op "creating GKE NodePool"] } with ⟨s', _ | e⟩
      · rw [hread] at hr
        have ha := hr.comp (containerNodePoolAwaitRestingState_noMutex env s'.d.id
          env.timeoutCreate s'.trace)
        rcases haw : containerNodePoolAwaitRestingState env s'.d.id env.timeoutCreate s'.trace
          with ⟨t', st, _ | e⟩
        · rw [haw] at ha
          rw [createLocked_of_resting env info np s s' t t' op st hcs hw hread haw]
          exact ha
        · rw [haw] at ha
          unfold createLocked
          simp only [St.SetId, St.emit, ← NodePoolInformation.fullyQualifiedName.eq_1, hcs, hw,
            hread, haw]
          exact ha
      · rw [hread] at hr
        unfold createLocked
        simp only [St.SetId, St.emit, ← NodePoolInformation.fullyQualifiedName.eq_1, hcs, hw,
          hread]
        exact hr
  · rw [hcs] at hsub
    rw [createLocked_of_submit_error env info np s t op e hcs]
    exact hsub

/-- Between taking the mutex and returning, the delete callback does not touch
the mutex. -/
theorem deleteLocked_noMutex (env : Env) (info : NodePoolInformation) (name : String)
    (s : St) : NoMutex s.trace (deleteLocked env info name s).1.trace := by
  have hsub := deleteSubmit_noMutex env info name env.timeoutDelete s.trace
  rcases hds : deleteSubmit env info name env.timeoutDelete s.trace with ⟨t, op, _ | e⟩
  · rw [hds] at hsub
    have hw0 : NoMutex s.trace (t ++ [Event.operationWait op "deleting GKE NodePool"]) :=
      hsub.comp (NoMutex.step _ _ rfl)
    cases hw : env.remote.operationWait t op with
    | some we =>
      rw [deleteLocked_of_wait_error env info name s t op we hds hw]
      exact hw0
    | none =>
      rw [deleteLocked_of_wait_ok env info name s t op hds hw]
      have := hw0.comp (NoMutex.step _ (Event.setId "") rfl)
      simpa using this
  · rw [hds] at hsub
    rw [deleteLocked_of_submit_error env info name s t op e hds]
    exact hsub

theorem deleteSubmit_isPrefix (env : Env) (info : NodePoolInformation) (name : String)
    (timeout : Nat) (trace : List Event) :
    trace <+: (deleteSubmit env info name timeout trace).1 := by
  obtain ⟨new, hnew, _⟩ := deleteSubmit_noMutex env info name timeout trace
  exact ⟨new, hnew.symm⟩

/-- With a positive budget the submission loop makes the delete call first. -/
theorem deleteSubmit_first_call (env : Env) (info : NodePoolInformation) (name : String)
    (timeout : Nat) (trace : List Event) (ht : 0 < timeout) :
    trace ++ [Event.deleteCall (info.fullyQualifiedName name)]
      <+: (deleteSubmit env info name timeout trace).1 := by
  obtain ⟨n, rfl⟩ := Nat.exists_eq_succ_of_ne_zero (Nat.pos_iff_ne_zero.mp ht)
  have hinv := retryLoop_invariant (deleteAttempt env info name)
    (fun p => trace ++ [Event.deleteCall (info.fullyQualifiedName name)] <+: p.1)
    (fun p hp => by
      show _ <+: (deleteAttempt env info name p).1.1
      rw [deleteAttempt_trace]; exact hp.trans (List.prefix_append _ _))
  have h1 := deleteAttempt_trace env info name (trace, none)
  unfold deleteSubmit Retry retryLoop
  rcases hfs : deleteAttempt env info name (trace, none) with ⟨s', _ | ⟨e⟩ | ⟨e⟩⟩
  · rw [hfs] at h1; simp only at h1 ⊢; rw [h1]
  · rw [hfs] at h1; simp only at h1 ⊢
    exact hinv n (some e) s' (by show _ <+: s'.1; rw [h1])
  · rw [hfs] at h1; simp only at h1 ⊢; rw [h1]

/-- A create callback that succeeds had its create call accepted within a
positive budget. -/
theorem createLocked_success (env : Env) (info : NodePoolInformation) (np : NodePool) (s : St)
    (h : (createLocked env info np s).2 = none) :
    0 < env.timeoutCreate ∧
    ∃ t op, createSubmit env info np env.timeoutCreate
      (s.trace ++ [Event.setId (info.fullyQualifiedName np.Name)]) = (t, op, none) := by
  rcases hcs : createSubmit env info np env.timeoutCreate
    (s.trace ++ [Event.setId (info.fullyQualifiedName np.Name)]) with ⟨t, op, _ | e⟩
  · refine ⟨?_, t, op, rfl⟩
    by_contra hz
    have h0 : env.timeoutCreate = 0 := by omega
    rw [h0] at hcs
    simp [createSubmit, Retry, retryLoop] at hcs
  · rw [createLocked_of_submit_error env info np s t op e hcs] at h
    simp at h

/-- A delete callback that succeeds under the mutex had its delete call
accepted within a positive budget. -/
theorem deleteLocked_success (env : Env) (info : NodePoolInformation) (name : String) (s : St)
    (h : (deleteLocked env info name s).2 = none) :
    0 < env.timeoutDelete ∧
    ∃ t op, deleteSubmit env info name env.timeoutDelete s.trace = (t, op, none) := by
  rcases hds : deleteSubmit env info name env.timeoutDelete s.trace with ⟨t, op, _ | e⟩
  · refine ⟨?_, t, op, rfl⟩
    by_contra hz
    have h0 : env.timeoutDelete = 0 := by omega
    rw [h0] at hds
    simp [deleteSubmit, Retry, retryLoop] at hds
  · rw [deleteLocked_of_submit_error env info name s t op e hds] at h
    simp at h

theorem mem_of_prefix_append {a x mid : List Event} {e : Event}
    (h : a ++ x ++ [e] <+: a ++ mid) : e ∈ mid := by
  rw [List.append_assoc] at h
  have h' : x ++ [e] <+: mid := (List.prefix_append_right_inj a).mp h
  exact h'.subset (by simp)

/-- C14 (as amended): in the create and in the delete callback the cluster
mutex is held from the lock until the callback returns. The events after the
lock are followed by the unlock as the last event and contain no operation of
the mutex; in a successful run they contain the accepted create (delete) call
and the wait on the returned operation, so the unlock comes after that wait,
not before it. -/
theorem mutex_held_until_return (env : Env) (s : St) (ua : String)
    (nodePoolInfo : NodePoolInformation)
    (hua : env.generateUserAgentString = .ok ua)
    (hinfo : extractNodePoolInformation s.d env.config = .ok nodePoolInfo) :
    (∀ nodePool, expandNodePool env s.trace s.d = .ok nodePool →
      ∃ mid, (resourceContainerNodePoolCreate env s).1.trace
          = s.trace ++ [Event.lock nodePoolInfo.lockKey] ++ mid
            ++ [Event.unlock nodePoolInfo.lockKey] ∧
        (∀ e ∈ mid, e.isMutex = false) ∧
        ((resourceContainerNodePoolCreate env s).2 = none →
          Event.createCall nodePoolInfo.parent nodePool ∈ mid ∧
          ∃ operation, Event.operationWait operation "creating GKE NodePool" ∈ mid)) ∧
    (∀ trace state,
      containerNodePoolAwaitRestingState env
        (nodePoolInfo.fullyQualifiedName (getNodePoolName s.d.id)) env.timeoutDelete s.trace
        = (trace, state, none) →
      ∃ mid, (resourceContainerNodePoolDelete env s).1.trace
          = trace ++ [Event.lock nodePoolInfo.lockKey] ++ mid
            ++ [Event.unlock nodePoolInfo.lockKey] ∧
        (∀ e ∈ mid, e.isMutex = false) ∧
        ((resourceContainerNodePoolDelete env s).2 = none →
          Event.deleteCall (nodePoolInfo.fullyQualifiedName (getNodePoolName s.d.id)) ∈ mid ∧
          ∃ operation, Event.operationWait operation "deleting GKE NodePool" ∈ mid)) := by
  constructor
  · intro np hnp
    rw [resourceContainerNodePoolCreate_eq env s ua nodePoolInfo np hua hinfo hnp]
    obtain ⟨mid, hmid, hquiet⟩ := createLocked_noMutex env nodePoolInfo np
      (s.emit (.lock nodePoolInfo.lockKey))
    refine ⟨mid, ?_, hquiet, ?_⟩
    · show (createLocked env nodePoolInfo np (s.emit (.lock nodePoolInfo.lockKey))).1.trace
          ++ [Event.unlock nodePoolInfo.lockKey] = _
      rw [hmid]
      simp [St.emit]
    intro hok
    obtain ⟨ht, t, op, hsub⟩ := createLocked_success env nodePoolInfo np _ hok
    have hpre := createLocked_submit_isPrefix env nodePoolInfo np
      (s.emit (.lock nodePoolInfo.lockKey))
    have hfirst := createSubmit_first_call env nodePoolInfo np env.timeoutCreate
      ((s.emit (.lock nodePoolInfo.lockKey)).trace
        ++ [Event.setId (nodePoolInfo.fullyQualifiedName np.Name)]) ht
    have hwait := createLocked_wait_isPrefix env nodePoolInfo np _ t op hsub
    obtain ⟨x, hx⟩ := createSubmit_isPrefix env nodePoolInfo np env.timeoutCreate
      ((s.emit (.lock nodePoolInfo.lockKey)).trace
        ++ [Event.setId (nodePoolInfo.fullyQualifiedName np.Name)])
    rw [hsub] at hx
    simp only at hx
    constructor
    · have h1 := hfirst.trans hpre
      rw [hmid] at h1
      exact mem_of_prefix_append h1
    · refine ⟨op, ?_⟩
      rw [hmid, ← hx] at hwait
      have h2 : (s.emit (.lock nodePoolInfo.lockKey)).trace
          ++ ([Event.setId (nodePoolInfo.fullyQualifiedName np.Name)] ++ x)
          ++ [Event.operationWait op "creating GKE NodePool"]
          <+: (s.emit (.lock nodePoolInfo.lockKey)).trace ++ mid := by
        simpa [List.append_assoc] using hwait
      exact mem_of_prefix_append h2
  · intro trace state hawait
    rw [resourceContainerNodePoolDelete_eq env s ua nodePoolInfo trace state hua hinfo hawait]
    obtain ⟨mid, hmid, hquiet⟩ := deleteLocked_noMutex env nodePoolInfo
      (getNodePoolName s.d.id) { d := s.d, trace := trace ++ [Event.lock nodePoolInfo.lockKey] }
    refine ⟨mid, ?_, hquiet, ?_⟩
    · show (deleteLocked env nodePoolInfo (getNodePoolName s.d.id)
          { d := s.d, trace := trace ++ [Event.lock nodePoolInfo.lockKey] }).1.trace
          ++ [Event.unlock nodePoolInfo.lockKey] = _
      rw [hmid]
    intro hok
    obtain ⟨ht, t, op, hsub⟩ := deleteLocked_success env nodePoolInfo _ _ hok
    have hfirst := deleteSubmit_first_call env nodePoolInfo (getNodePoolName s.d.id)
      env.timeoutDelete (trace ++ [Event.lock nodePoolInfo.lockKey]) ht
    have hwait := deleteLocked_wait_isPrefix env nodePoolInfo (getNodePoolName s.d.id)
      { d := s.d, trace := trace ++ [Event.lock nodePoolInfo.lockKey] } t op hsub
    obtain ⟨x, hx⟩ := deleteSubmit_isPrefix env nodePoolInfo (getNodePoolName s.d.id)
      env.timeoutDelete (trace ++ [Event.lock nodePoolInfo.lockKey])
    simp only at hsub
    rw [hsub] at hx hfirst
    simp only at hx hfirst
    constructor
    · have h1 := hfirst.trans ((List.prefix_append t _).trans hwait)
      rw [hmid] at h1
      have h2 : trace ++ [Event.lock nodePoolInfo.lockKey] ++ []
          ++ [Event.deleteCall (nodePoolInfo.fullyQualifiedName (getNodePoolName s.d.id))]
          <+: trace ++ [Event.lock nodePoolInfo.lockKey] ++ mid := by
        simpa using h1
      exact mem_of_prefix_append h2
    · refine ⟨op, ?_⟩
      rw [hmid, ← hx] at hwait
      exact mem_of_prefix_append hwait

/-- C14, instantiated on healthy runs of the create and of the delete callback
for pool `p`: the operation wait lies between the lock and the unlock. -/
theorem mutex_held_until_return_witness :
    (∃ mid, (resourceContainerNodePoolCreate (scenarioEnv healthyRemote) ⟨poolRecord, []⟩).1.trace
        = [] ++ [Event.lock "google-container-cluster/P/L/C"] ++ mid
          ++ [Event.unlock "google-container-cluster/P/L/C"] ∧
      ∃ operation, Event.operationWait operation "creating GKE NodePool" ∈ mid) ∧
    (∃ mid, (resourceContainerNodePoolDelete (scenarioEnv healthyRemote) ⟨poolRecord, []⟩).1.trace
        = [Event.getCall "projects/P/locations/L/clusters/C/nodePools/p"]
          ++ [Event.lock "google-container-cluster/P/L/C"] ++ mid
          ++ [Event.unlock "google-container-cluster/P/L/C"] ∧
      ∃ operation, Event.operationWait operation "deleting GKE NodePool" ∈ mid) := by
  have h := mutex_held_until_return (scenarioEnv healthyRemote) ⟨poolRecord, []⟩ "terraform"
    poolScope rfl rfl
  obtain ⟨mid, h1, _, h3⟩ := h.1
    { Name := "p", InitialNodeCount := 1, Config := "", Locations := [], Version := "1.27",
      Autoscaling := none, MaxPodsConstraint := none, Management := none,
      UpgradeSettings := none, InstanceGroupUrls := [], Status := "", StatusMessage := "" } rfl
  obtain ⟨mid', h1', _, h3'⟩ := h.2
    [Event.getCall "projects/P/locations/L/clusters/C/nodePools/p"] "RUNNING" rfl
  exact ⟨⟨mid, h1, (h3 (by decide)).2⟩, ⟨mid', h1', (h3' (by decide)).2⟩⟩

/-- C14 (counterexample): the event trace of a successful create and of a
successful delete of pool `p`. In both the unlock of the cluster key is the
last event, after the wait on the operation, the read-back and the wait for
the resting state. -/
theorem mutex_released_after_operation_wait :
    (resourceContainerNodePoolCreate (scenarioEnv healthyRemote) ⟨poolRecord, []⟩).2 = none ∧
    (resourceContainerNodePoolCreate (scenarioEnv healthyRemote) ⟨poolRecord, []⟩).1.trace
      = [Event.lock "google-container-cluster/P/L/C",
          Event.setId "projects/P/locations/L/clusters/C/nodePools/p",
          Event.createCall "projects/P/locations/L/clusters/C"
            { Name := "p", InitialNodeCount := 1, Config := "", Locations := [],
              Version := "1.27", Autoscaling := none, MaxPodsConstraint := none,
              Management := none, UpgradeSettings := none, InstanceGroupUrls := [],
              Status := "", StatusMessage := "" },
          Event.operationWait (some { Name := "operation-create" }) "creating GKE NodePool",
          Event.getCall "projects/P/locations/L/clusters/C/nodePools/p",
          Event.getCall "projects/P/locations/L/clusters/C/nodePools/p",
          Event.unlock "google-container-cluster/P/L/C"] ∧
    (resourceContainerNodePoolDelete (scenarioEnv healthyRemote) ⟨poolRecord, []⟩).2 = none ∧
    (resourceContainerNodePoolDelete (scenarioEnv healthyRemote) ⟨poolRecord, []⟩).1.trace
      = [Event.getCall "projects/P/locations/L/clusters/C/nodePools/p",
          Event.lock "google-container-cluster/P/L/C",
          Event.deleteCall "projects/P/locations/L/clusters/C/nodePools/p",
          Event.operationWait (some { Name := "operation-delete" }) "deleting GKE NodePool",
          Event.setId "",
          Event.unlock "google-container-cluster/P/L/C"] := by
  refine ⟨by decide, by decide, by decide, by decide⟩

/-! ## Expanding a record -/

/-- C24 (as amended): project resolution in `getProjectFromSchema`. When the
schema field is named and the resource has a non-empty string value for it,
that value is returned; when the field is not named or the resource has no
non-empty value for it, the provider-level project is returned when it is not
empty, and else the error `<field>: required field is not set`. So a blank
project of the resource falls back to the project of the provider, and a
project that is set is returned. When the named field holds a non-empty value
that is not a string, the function panics on the type assertion. -/
theorem getProjectFromSchema_precedence (projectSchemaField : String) (d : ResourceData)
    (config : Config) :
    (∀ v, projectSchemaField ≠ "" → d.GetOk projectSchemaField = (.string v, true) →
      getProjectFromSchema projectSchemaField d config = .ok v) ∧
    (projectSchemaField = "" ∨ (d.GetOk projectSchemaField).2 = false →
      config.Project ≠ "" →
      getProjectFromSchema projectSchemaField d config = .ok config.Project) ∧
    (projectSchemaField = "" ∨ (d.GetOk projectSchemaField).2 = false →
      config.Project = "" →
      getProjectFromSchema projectSchemaField d config
        = .error (.plain (projectSchemaField ++ ": required field is not set"))) ∧
    (d.project ≠ "" → getProjectFromSchema "project" d config = .ok d.project) ∧
    (d.project = "" → config.Project ≠ "" →
      getProjectFromSchema "project" d config = .ok config.Project) ∧
    (projectSchemaField ≠ "" → (d.GetOk projectSchemaField).2 = true →
      (∀ v, (d.GetOk projectSchemaField).1 ≠ .string v) →
      getProjectFromSchema projectSchemaField d config
        = .error (.panic ("interface conversion: interface {} is "
            ++ (d.GetOk projectSchemaField).1.goType ++ ", not string"))) := by
  refine ⟨?_, ?_, ?_, ?_, ?_, ?_⟩
  · intro v h1 h2
    simp [getProjectFromSchema, h1, h2]
  · intro h1 h2
    rcases h1 with h1 | h1
    · simp [getProjectFromSchema, h1, h2]
    · simp only [ResourceData.GetOk] at h1
      simp [getProjectFromSchema, ResourceData.GetOk, h1, h2]
  · intro h1 h2
    rcases h1 with h1 | h1
    · simp [getProjectFromSchema, h1, h2]
    · simp only [ResourceData.GetOk] at h1
      simp [getProjectFromSchema, ResourceData.GetOk, h1, h2]
  · intro h1
    simp [getProjectFromSchema, ResourceData.GetOk, ResourceData.Get, SchemaValue.isZero, h1]
  · intro h1 h2
    simp [getProjectFromSchema, ResourceData.GetOk, ResourceData.Get, SchemaValue.isZero, h1, h2]
  · intro h1 h2 h3
    simp only [ResourceData.GetOk] at h2 h3
    cases hv : d.Get projectSchemaField with
    | string v => exact absurd hv (h3 v)
    | null => rw [hv] at h2; simp [getProjectFromSchema, ResourceData.GetOk, hv, h1, h2]
    | int n => rw [hv] at h2; simp [getProjectFromSchema, ResourceData.GetOk, hv, h1, h2]
    | list n => rw [hv] at h2; simp [getProjectFromSchema, ResourceData.GetOk, hv, h1, h2]
    | set l => rw [hv] at h2; simp [getProjectFromSchema, ResourceData.GetOk, hv, h1, h2]

/-- C24, instantiated on the record of pool `p`, whose project is `P`, on the
same record with a blank project under a provider with project `Q`, and on
the field `node_count`, which holds the int 1. -/
theorem getProjectFromSchema_precedence_witness :
    getProjectFromSchema "project" poolRecord { Project := "Q", fallbackLocation := .ok "L" }
      = .ok "P" ∧
    getProjectFromSchema "project" { poolRecord with project := "" }
        { Project := "Q", fallbackLocation := .ok "L" }
      = .ok "Q" ∧
    getProjectFromSchema "node_count" poolRecord { Project := "Q", fallbackLocation := .ok "L" }
      = .error (.panic "interface conversion: interface {} is int, not string") :=
  ⟨(getProjectFromSchema_precedence "project" poolRecord
      { Project := "Q", fallbackLocation := .ok "L" }).1 "P" (by decide) rfl,
   (getProjectFromSchema_precedence "project" { poolRecord with project := "" }
      { Project := "Q", fallbackLocation := .ok "L" }).2.2.2.2.1 rfl (by decide),
   (getProjectFromSchema_precedence "node_count" poolRecord
      { Project := "Q", fallbackLocation := .ok "L" }).2.2.2.2.2 (by decide) rfl
      (fun _ h => SchemaValue.noConfusion h)⟩

/-- C24 (counterexample): the field `node_count` of the record of pool `p` is
named and holds the non-empty value 1, and the provider has the project `Q`;
the function returns neither the value nor the provider project, it panics on
the type assertion. -/
theorem getProjectFromSchema_panics_on_int_field :
    poolRecord.GetOk "node_count" = (.int 1, true) ∧
    getProjectFromSchema "node_count" poolRecord { Project := "Q", fallbackLocation := .ok "L" }
      = .error (.panic "interface conversion: interface {} is int, not string") ∧
    getProjectFromSchema "node_count" poolRecord { Project := "Q", fallbackLocation := .ok "L" }
      ≠ .ok "Q" := by
  refine ⟨rfl, rfl, ?_⟩
  intro h
  exact Except.noConfusion h

/-- C21: `name` conflicts with `name_prefix` in `expandNodePool`. When both are
set it returns an error and no node pool; when only `name` is set the name of
the expanded pool is `name`; when only `name_prefix` is set the name of the
expanded pool begins with `name_prefix`. In the last two cases a pool is
produced unless both node counts are set. -/
theorem expandNodePool_name (env : Env) (trace : List Event) (d : ResourceData) :
    (d.name ≠ "" → ResourceData.name_prefix d ≠ "" →
      expandNodePool env trace d
        = .error (.plain "Cannot specify both name and name_prefix for a node_pool")) ∧
    (d.name ≠ "" → ResourceData.name_prefix d = "" →
      (∀ np, expandNodePool env trace d = .ok np → np.Name = d.name) ∧
      (¬ (d.initial_node_count ≠ 0 ∧ d.node_count ≠ 0) →
        ∃ np, expandNodePool env trace d = .ok np)) ∧
    (d.name = "" → ResourceData.name_prefix d ≠ "" →
      (∀ np, expandNodePool env trace d = .ok np →
        ∃ suffix, np.Name = ResourceData.name_prefix d ++ suffix) ∧
      (¬ (d.initial_node_count ≠ 0 ∧ d.node_count ≠ 0) →
        ∃ np, expandNodePool env trace d = .ok np)) := by
  refine ⟨?_, ?_, ?_⟩
  · intro h1 h2
    simp [expandNodePool, h1, h2]
  · intro h1 h2
    by_cases hi : d.initial_node_count = 0 <;> by_cases hn : d.node_count = 0 <;>
      simp [expandNodePool, h1, h2, hi, hn]
  · intro h1 h2
    by_cases hi : d.initial_node_count = 0 <;> by_cases hn : d.node_count = 0 <;>
      simp [expandNodePool, h1, h2, hi, hn, PrefixedUniqueId]

/-- C21, instantiated on a record that sets both, on the record of pool `p`,
which sets the name only, and on a record that sets the name beginning
only. -/
theorem expandNodePool_name_witness :
    expandNodePool (scenarioEnv healthyRemote) [] conflictingRecord
      = .error (.plain "Cannot specify both name and name_prefix for a node_pool") ∧
    (∃ np, expandNodePool (scenarioEnv healthyRemote) [] poolRecord = .ok np) ∧
    (∀ np, expandNodePool (scenarioEnv healthyRemote) []
        { poolRecord with name := "", name_prefix := "blue-" } = .ok np →
      ∃ suffix, np.Name = "blue-" ++ suffix) :=
  ⟨(expandNodePool_name (scenarioEnv healthyRemote) [] conflictingRecord).1
      (by decide) (by decide),
   ((expandNodePool_name (scenarioEnv healthyRemote) [] poolRecord).2.1
      (by decide) rfl).2 (by decide),
   ((expandNodePool_name (scenarioEnv healthyRemote) []
      { poolRecord with name := "", name_prefix := "blue-" }).2.2 rfl (by decide)).1⟩

/-- C22 (as amended): when `name` and `name_prefix` are not both set,
`expandNodePool` returns the error `Cannot set both initial_node_count and
node_count on node pool ...` exactly when both counts are non-zero; otherwise
it produces a pool whose `InitialNodeCount` is `node_count` if that is
non-zero, else `initial_node_count` (0 when neither is set). -/
theorem expandNodePool_node_count (env : Env) (trace : List Event) (d : ResourceData)
    (hname : ¬ (d.name ≠ "" ∧ ResourceData.name_prefix d ≠ "")) :
    (d.initial_node_count ≠ 0 ∧ d.node_count ≠ 0 →
      ∃ name, expandNodePool env trace d
        = .error (.plain ("Cannot set both initial_node_count and node_count on node pool "
            ++ name))) ∧
    (¬ (d.initial_node_count ≠ 0 ∧ d.node_count ≠ 0) →
      ∃ np, expandNodePool env trace d = .ok np ∧
        np.InitialNodeCount
          = if d.node_count ≠ 0 then d.node_count else d.initial_node_count) := by
  by_cases h1 : d.name = "" <;> by_cases h2 : ResourceData.name_prefix d = "" <;>
    by_cases hi : d.initial_node_count = 0 <;> by_cases hn : d.node_count = 0 <;>
    simp_all [expandNodePool]

/-- C22, instantiated on the record of pool `p`, which sets `node_count` only,
and on the same record with both counts set. -/
theorem expandNodePool_node_count_witness :
    (∃ np, expandNodePool (scenarioEnv healthyRemote) [] poolRecord = .ok np ∧
      np.InitialNodeCount = 1) ∧
    (∃ name, expandNodePool (scenarioEnv healthyRemote) []
        { poolRecord with initial_node_count := 3 }
      = .error (.plain ("Cannot set both initial_node_count and node_count on node pool "
          ++ name))) :=
  ⟨(expandNodePool_node_count (scenarioEnv healthyRemote) [] poolRecord (by decide)).2
      (by decide),
   (expandNodePool_node_count (scenarioEnv healthyRemote) []
      { poolRecord with initial_node_count := 3 } (by decide)).1 (by decide)⟩

/-- C22 (counterexample): both counts are non-zero, but the record also sets
`name` and `name_prefix`; the error returned is the one about the names, not
the one about the counts. -/
theorem expandNodePool_node_count_error_shadowed :
    conflictingRecord.initial_node_count ≠ 0 ∧ conflictingRecord.node_count ≠ 0 ∧
    expandNodePool (scenarioEnv healthyRemote) [] conflictingRecord
      = .error (.plain "Cannot specify both name and name_prefix for a node_pool") ∧
    ∀ name, expandNodePool (scenarioEnv healthyRemote) [] conflictingRecord
      ≠ .error (.plain ("Cannot set both initial_node_count and node_count on node pool "
          ++ name)) := by
  refine ⟨by decide, by decide, rfl, ?_⟩
  intro name h
  have h' : expandNodePool (scenarioEnv healthyRemote) [] conflictingRecord
      = .error (.plain "Cannot specify both name and name_prefix for a node_pool") := rfl
  rw [h'] at h
  simp only [Except.error.injEq, GoError.plain.injEq] at h
  have hd := congrArg (fun t => t.data.get? 8) h
  simp [String.data_append] at hd

/-- C29: for a record in which the name, the version, autoscaling,
management, upgrade settings and a non-zero `max_pods_per_node` are set,
`flattenNodePool` applied to the pool that `expandNodePool` produces, which has
no instance groups, yields the same name, version, autoscaling bounds,
management flags, upgrade settings and `max_pods_per_node`. -/
theorem flattenNodePool_expandNodePool (env : Env) (trace trace' : List Event)
    (d d' : ResourceData) (np : NodePool) (ua : String)
    (autoscaling : Int × Int) (management : Bool × Bool) (upgradeSettings : Int × Int)
    (hua : env.generateUserAgentString = .ok ua)
    (hname : d.name ≠ "")
    (hauto : d.autoscaling = some autoscaling)
    (hmgmt : d.management = some management)
    (hupgrade : d.upgrade_settings = some upgradeSettings)
    (hpods : d.max_pods_per_node ≠ 0)
    (hexpand : expandNodePool env trace d = .ok np) :
    ∃ m, flattenNodePool env d' np trace' = (trace', .ok m) ∧
      m.name = d.name ∧ m.version = d.version ∧
      m.autoscaling = some (some autoscaling) ∧
      m.management = management ∧
      m.upgrade_settings = some upgradeSettings ∧
      m.max_pods_per_node = some d.max_pods_per_node ∧
      m.instance_group_urls = [] ∧ m.node_count = 0 := by
  have hnp : np.Name = d.name ∧ np.Version = d.version ∧
      np.Autoscaling = some (NodePoolAutoscaling.mk true autoscaling.1 autoscaling.2) ∧
      np.MaxPodsConstraint = some (MaxPodsConstraint.mk d.max_pods_per_node) ∧
      np.Management = some (NodeManagement.mk management.1 management.2) ∧
      np.UpgradeSettings = some (UpgradeSettings.mk upgradeSettings.1 upgradeSettings.2) ∧
      np.InstanceGroupUrls = [] := by
    unfold expandNodePool at hexpand
    by_cases h2 : ResourceData.name_prefix d = "" <;>
      by_cases hi : d.initial_node_count = 0 <;> by_cases hn : d.node_count = 0 <;>
      simp [hname, h2, hi, hn, hauto, hmgmt, hupgrade, hpods] at hexpand <;>
      subst hexpand <;> simp
  obtain ⟨h1, h2, h3, h4, h5, h6, h7⟩ := hnp
  simp [flattenNodePool, hua, h1, h2, h3, h4, h5, h6, h7, flattenInstanceGroups]

/-- C29, instantiated on a record that sets every optional block. -/
theorem flattenNodePool_expandNodePool_witness :
    ∃ m, flattenNodePool (scenarioEnv healthyRemote) fullRecord
        { Name := "p", InitialNodeCount := 1, Config := "", Locations := [],
          Version := "1.27",
          Autoscaling := some { Enabled := true, MinNodeCount := 1, MaxNodeCount := 5 },
          MaxPodsConstraint := some { MaxPodsPerNode := 110 },
          Management := some { AutoRepair := true, AutoUpgrade := false },
          UpgradeSettings := some { MaxSurge := 2, MaxUnavailable := 1 },
          InstanceGroupUrls := [], Status := "", StatusMessage := "" } []
        = ([], .ok m) ∧
      m.name = "p" ∧ m.version = "1.27" ∧ m.autoscaling = some (some (1, 5)) ∧
      m.management = (true, false) ∧ m.upgrade_settings = some (2, 1) ∧
      m.max_pods_per_node = some 110 ∧ m.instance_group_urls = [] ∧ m.node_count = 0 :=
  flattenNodePool_expandNodePool (scenarioEnv healthyRemote) [] [] fullRecord fullRecord _
    "terraform" (1, 5) (true, false) (2, 1) rfl (by decide) rfl rfl rfl (by decide) rfl

/-! ## Head and tail of an id -/

theorem joinSlash_cons_of_ne_nil (x : List Char) (xs : List (List Char)) (h : xs ≠ []) :
    joinSlash (x :: xs) = x ++ '/' :: joinSlash xs := by
  cases xs with
  | nil => exact absurd rfl h
  | cons y ys => rfl

theorem joinSlash_splitSlash (l : List Char) : joinSlash (splitSlash l) = l := by
  induction l with
  | nil => rfl
  | cons c cs ih =>
    by_cases hc : c = '/'
    · simp only [splitSlash, hc, if_true]
      rw [joinSlash_cons_of_ne_nil _ _ (splitSlash_ne_nil cs), ih]
      rfl
    · cases hs : splitSlash cs with
      | nil => exact absurd hs (splitSlash_ne_nil cs)
      | cons seg rest =>
        rw [hs] at ih
        simp only [splitSlash, hc, if_false, hs]
        cases rest with
        | nil =>
          simp only [joinSlash] at ih ⊢
          rw [ih]
        | cons y ys =>
          simp only [joinSlash] at ih ⊢
          rw [← ih]
          rfl

theorem joinSlash_append_singleton (xs : List (List Char)) (y : List Char) (h : xs ≠ []) :
    joinSlash (xs ++ [y]) = joinSlash xs ++ '/' :: y := by
  induction xs with
  | nil => exact absurd rfl h
  | cons x rest ih =>
    cases rest with
    | nil => rfl
    | cons z zs =>
      have hne : z :: zs ≠ [] := by simp
      rw [List.cons_append, joinSlash_cons_of_ne_nil _ _ (by simp), ih hne,
        joinSlash_cons_of_ne_nil _ _ hne]
      simp

/-- A text with a `/` is cut at its last `/`. -/
theorem exists_last_slash (l : List Char) (h : '/' ∈ l) :
    ∃ a n, l = a ++ '/' :: n ∧ '/' ∉ n := by
  induction l with
  | nil => simp at h
  | cons c cs ih =>
    by_cases hcs : '/' ∈ cs
    · obtain ⟨a, n, hl, hn⟩ := ih hcs
      exact ⟨c :: a, n, by rw [hl]; rfl, hn⟩
    · rcases List.mem_cons.mp h with hc | hc
      · exact ⟨[], cs, by rw [← hc]; rfl, hcs⟩
      · exact absurd hc hcs

theorem getNodePoolIdHead_data (id : String) :
    (getNodePoolIdHead id).data = joinSlash (splitSlash id.data).dropLast := by
  simp only [getNodePoolIdHead, stringsJoin, stringsSplit]
  congr 1
  rw [← List.map_dropLast, List.map_map]
  have : (String.data ∘ String.mk) = fun (l : List Char) => l := rfl
  rw [this]
  simp

/-- The head of `a ++ "/" ++ n` is `a` when `n` has no `/`. -/
theorem getNodePoolIdHead_append_slash (a n : String) (hn : '/' ∉ n.data) :
    getNodePoolIdHead (a ++ "/" ++ n) = a := by
  apply String.ext
  rw [getNodePoolIdHead_data]
  have hd : (a ++ "/" ++ n).data = a.data ++ '/' :: n.data := by simp [String.data_append]
  rw [hd, splitSlash_append_slash, splitSlash_of_no_slash _ hn, List.dropLast_concat,
    joinSlash_splitSlash]

/-- C25 (as amended): for every id that contains a `/`, the head and the name
recompose the id: `getNodePoolIdHead(id) ++ "/" ++ getNodePoolName(id) = id`.
For an id without `/` the head is empty and the name is the whole id. In
every case the name is the last path component, without `/`, and both
functions are defined on every string. -/
theorem getNodePoolIdHead_getNodePoolName (id : String) :
    ('/' ∈ id.data → getNodePoolIdHead id ++ "/" ++ getNodePoolName id = id) ∧
    ('/' ∉ id.data → getNodePoolIdHead id = "" ∧ getNodePoolName id = id) ∧
    '/' ∉ (getNodePoolName id).data := by
  refine ⟨?_, ?_, getNodePoolName_no_slash id⟩
  · intro h
    obtain ⟨a, n, hl, hn⟩ := exists_last_slash id.data h
    have hid : id = String.mk a ++ "/" ++ String.mk n := by
      apply String.ext
      simp [String.data_append, hl]
    have hname : getNodePoolName id = String.mk n := by
      rw [hid, getNodePoolName_append_slash]
      exact getNodePoolName_of_no_slash _ hn
    have hhead : getNodePoolIdHead id = String.mk a := by
      rw [hid]
      exact getNodePoolIdHead_append_slash _ _ hn
    rw [hname, hhead, ← hid]
  · intro h
    refine ⟨?_, getNodePoolName_of_no_slash id h⟩
    apply String.ext
    rw [getNodePoolIdHead_data, splitSlash_of_no_slash _ h]
    rfl

/-- C25, instantiated on the id of pool `p`, on an id without `/` and on the
empty string. -/
theorem getNodePoolIdHead_getNodePoolName_witness :
    getNodePoolIdHead poolRecord.id ++ "/" ++ getNodePoolName poolRecord.id = poolRecord.id ∧
    (getNodePoolIdHead "abc" = "" ∧ getNodePoolName "abc" = "abc") ∧
    (getNodePoolIdHead "" = "" ∧ getNodePoolName "" = "") :=
  ⟨(getNodePoolIdHead_getNodePoolName poolRecord.id).1 (by decide),
   (getNodePoolIdHead_getNodePoolName "abc").2.1 (by decide),
   (getNodePoolIdHead_getNodePoolName "").2.1 (by decide)⟩

/-- C25 (counterexample): an id without `/`, and the empty id, are not
recomposed from their head and name; a `/` is put in front. -/
theorem getNodePoolIdHead_getNodePoolName_no_slash :
    getNodePoolIdHead "abc" ++ "/" ++ getNodePoolName "abc" = "/abc" ∧
    getNodePoolIdHead "abc" ++ "/" ++ getNodePoolName "abc" ≠ "abc" ∧
    getNodePoolIdHead "" ++ "/" ++ getNodePoolName "" ≠ "" := by
  decide

/-- C28: the identity round trip. For every scope `i` and every name `n`
without `/`, the name of `i.fullyQualifiedName(n)` is `n` and its head is
`i.parent() ++ "/nodePools"`; hence the head followed by `/` and any `m` is
`i.fullyQualifiedName(m)`. -/
theorem fullyQualifiedName_round_trip (i : NodePoolInformation) (n : String)
    (hn : '/' ∉ n.data) :
    getNodePoolName (i.fullyQualifiedName n) = n ∧
    getNodePoolIdHead (i.fullyQualifiedName n) = i.parent ++ "/nodePools" ∧
    ∀ m, getNodePoolIdHead (i.fullyQualifiedName n) ++ "/" ++ m = i.fullyQualifiedName m := by
  have hfq : ∀ m, i.fullyQualifiedName m = (i.parent ++ "/nodePools") ++ "/" ++ m := by
    intro m
    rw [fullyQualifiedName_eq_parent]
    apply String.ext
    simp [String.data_append]
  have hhead : getNodePoolIdHead (i.fullyQualifiedName n) = i.parent ++ "/nodePools" := by
    rw [hfq n]
    exact getNodePoolIdHead_append_slash _ _ hn
  refine ⟨?_, hhead, ?_⟩
  · rw [hfq n, getNodePoolName_append_slash]
    exact getNodePoolName_of_no_slash _ hn
  · intro m
    rw [hhead, hfq m]

/-- C28, instantiated on the scope of pool `p`. -/
theorem fullyQualifiedName_round_trip_witness :
    getNodePoolName (poolScope.fullyQualifiedName "p") = "p" ∧
    getNodePoolIdHead (poolScope.fullyQualifiedName "p")
      = poolScope.parent ++ "/nodePools" ∧
    ∀ m, getNodePoolIdHead (poolScope.fullyQualifiedName "p") ++ "/" ++ m
      = poolScope.fullyQualifiedName m :=
  fullyQualifiedName_round_trip poolScope "p" (by decide)

/-! ## The guarded division of the node count -/

/-- The node count as the code computes it, for sizes that do not overflow:
the truncated quotient of the sum by the number of existing managers, and 0
when there is none. -/
theorem flattenNodePool_node_count_tdiv (env : Env) (d : ResourceData) (np : NodePool)
    (trace : List Event) (ua : String) (management : NodeManagement)
    (lookups : List (String × Option Int))
    (hua : env.generateUserAgentString = .ok ua)
    (hmgmt : np.Management = some management)
    (hurls : np.InstanceGroupUrls = lookups.map Prod.fst)
    (hlook : LookupsYield env trace lookups)
    (hnonneg : ∀ k ∈ existingSizes lookups, 0 ≤ k)
    (hsum : (existingSizes lookups).sum < 2 ^ 63) :
    ∃ m, (flattenNodePool env d np trace).2 = .ok m ∧
      m.node_count
        = (if (existingSizes lookups).length > 0 then
            Int.tdiv (existingSizes lookups).sum (existingSizes lookups).length
           else 0) := by
  have hloop := flattenInstanceGroups_yield env lookups trace 0 [] hlook
  rw [foldl_wrapInt_eq_sum _ 0 (le_refl 0) hnonneg (by simpa using hsum)] at hloop
  simp only [zero_add, List.nil_append] at hloop
  unfold flattenNodePool
  rcases hf : flattenInstanceGroups env np.InstanceGroupUrls trace 0 [] with ⟨t, r⟩
  rw [hurls] at hf
  rw [hf] at hloop
  simp only at hloop
  subst hloop
  simp only [hua, hurls, hf, hmgmt]
  refine ⟨_, rfl, ?_⟩
  simp only [existingUrls_length]

theorem sum_of_all_eq (s : Int) :
    ∀ (l : List Int), (∀ k ∈ l, k = s) → l.sum = (l.length : Int) * s := by
  intro l
  induction l with
  | nil => intro _; simp
  | cons x xs ih =>
    intro h
    have hx : x = s := h x (List.mem_cons_self _ _)
    have hxs := ih (fun k hk => h k (List.mem_cons_of_mem _ hk))
    simp only [List.sum_cons, List.length_cons, hx, hxs]
    push_cast
    ring

/-- C27 (as amended): the average in `flattenNodePool` is a guarded integer
division. When no backing instance group manager exists (no URL, or all
lookups not-found) the node count is 0 and nothing is divided by zero;
otherwise, for target sizes that are not negative and whose sum is below
`2 ^ 63`, the node count is the floor of the sum of the target sizes divided
by the number of existing managers, which is `s` whenever every existing
manager has the target size `s`. -/
theorem flattenNodePool_guarded_division (env : Env) (d : ResourceData) (np : NodePool)
    (trace : List Event) (ua : String) (management : NodeManagement)
    (lookups : List (String × Option Int))
    (hua : env.generateUserAgentString = .ok ua)
    (hmgmt : np.Management = some management)
    (hurls : np.InstanceGroupUrls = lookups.map Prod.fst)
    (hlook : LookupsYield env trace lookups)
    (hnonneg : ∀ k ∈ existingSizes lookups, 0 ≤ k)
    (hsum : (existingSizes lookups).sum < 2 ^ 63) :
    ∃ m, (flattenNodePool env d np trace).2 = .ok m ∧
      (existingSizes lookups = [] → m.node_count = 0) ∧
      (existingSizes lookups ≠ [] →
        m.node_count
          = ⌊((existingSizes lookups).sum : ℚ) / ((existingSizes lookups).length : ℚ)⌋) ∧
      (∀ s, existingSizes lookups ≠ [] → (∀ k ∈ existingSizes lookups, k = s) →
        m.node_count = s) := by
  obtain ⟨m, hm, hcount⟩ := flattenNodePool_node_count_tdiv env d np trace ua management
    lookups hua hmgmt hurls hlook hnonneg hsum
  refine ⟨m, hm, ?_, ?_, ?_⟩
  · intro hnil
    rw [hcount, hnil]
    simp
  · intro hne
    have hpos : 0 < (existingSizes lookups).length := List.length_pos.mpr hne
    rw [hcount, if_pos hpos, Rat.floor_intCast_div_natCast]
    exact Int.tdiv_eq_ediv (List.sum_nonneg hnonneg) (Int.natCast_nonneg _)
  · intro s hne hall
    have hpos : 0 < (existingSizes lookups).length := List.length_pos.mpr hne
    have hlen : ((existingSizes lookups).length : Int) ≠ 0 := by omega
    rw [hcount, if_pos hpos, Int.tdiv_eq_ediv (List.sum_nonneg hnonneg) (Int.natCast_nonneg _),
      sum_of_all_eq s _ hall]
    exact Int.mul_ediv_cancel_left s hlen

/-- C27, instantiated on a pool whose only manager is not found, on one with
managers of sizes 3 and 4 and on one with two managers of size 3. -/
theorem flattenNodePool_guarded_division_witness :
    (∃ m, (flattenNodePool (igmEnv [("a", none)]) poolRecord (groupedPool ["a"]) []).2 = .ok m ∧
      m.node_count = 0) ∧
    (∃ m, (flattenNodePool (igmEnv [("a", some 3), ("b", some 4)]) poolRecord
        (groupedPool ["a", "b"]) []).2 = .ok m ∧
      m.node_count = ⌊(((3 : Int) + 4 : Int) : ℚ) / ((2 : Nat) : ℚ)⌋) ∧
    (∃ m, (flattenNodePool (igmEnv [("a", some 3), ("b", some 3)]) poolRecord
        (groupedPool ["a", "b"]) []).2 = .ok m ∧
      m.node_count = 3) := by
  refine ⟨?_, ?_, ?_⟩
  · obtain ⟨m, h1, h2, _, _⟩ := flattenNodePool_guarded_division
      (igmEnv [("a", none)]) poolRecord (groupedPool ["a"]) []
      "terraform" { AutoRepair := false, AutoUpgrade := false } [("a", none)] rfl rfl rfl
      ⟨_, _, _, rfl, ⟨_, rfl, rfl⟩, trivial⟩ (by decide) (by decide)
    exact ⟨m, h1, h2 rfl⟩
  · obtain ⟨m, h1, _, h3, _⟩ := flattenNodePool_guarded_division
      (igmEnv [("a", some 3), ("b", some 4)]) poolRecord (groupedPool ["a", "b"]) []
      "terraform" { AutoRepair := false, AutoUpgrade := false }
      [("a", some 3), ("b", some 4)] rfl rfl rfl
      ⟨_, _, _, rfl, rfl, _, _, _, rfl, rfl, trivial⟩ (by decide) (by decide)
    exact ⟨m, h1, h3 (by decide)⟩
  · obtain ⟨m, h1, _, _, h4⟩ := flattenNodePool_guarded_division
      (igmEnv [("a", some 3), ("b", some 3)]) poolRecord (groupedPool ["a", "b"]) []
      "terraform" { AutoRepair := false, AutoUpgrade := false }
      [("a", some 3), ("b", some 3)] rfl rfl rfl
      ⟨_, _, _, rfl, rfl, _, _, _, rfl, rfl, trivial⟩ (by decide) (by decide)
    exact ⟨m, h1, h4 3 (by decide) (by decide)⟩

/-- C27 (counterexample): with target sizes -1 and 0 the node count is 0,
not the floor -1 of their mean; with two target sizes of `2 ^ 62` the sum
overflows and the node count is `-(2 ^ 62)`, not `2 ^ 62`. -/
theorem flattenNodePool_division_not_floor :
    (∃ m, (flattenNodePool (igmEnv [("a", some (-1)), ("b", some 0)]) poolRecord
        (groupedPool ["a", "b"]) []).2 = .ok m ∧
      m.node_count = 0 ∧
      m.node_count ≠ ⌊(((-1 : Int) + 0 : Int) : ℚ) / ((2 : Nat) : ℚ)⌋) ∧
    (∃ m, (flattenNodePool
        (igmEnv [("a", some 4611686018427387904), ("b", some 4611686018427387904)])
        poolRecord (groupedPool ["a", "b"]) []).2 = .ok m ∧
      m.node_count = -4611686018427387904 ∧ m.node_count ≠ 4611686018427387904) := by
  constructor
  · refine ⟨_, rfl, by decide, ?_⟩
    rw [Rat.floor_intCast_div_natCast]
    decide
  · exact ⟨_, rfl, by decide, by decide⟩

/-! ## The guest accelerator diff -/

/-- The loop compares the blocks of non-zero count, in order, with the old
list from `index` on: it runs to its end exactly when they are a beginning of
that part of the old list, and no index is out of range. -/
theorem acceleratorLoop_eq (oList : List GuestAccelerator) :
    ∀ (nList : List GuestAccelerator) (index : Nat) (has : Bool),
      acceleratorLoop oList nList index has
        = if positiveCount nList <+: oList.drop index then
            .finished (index + (positiveCount nList).length)
              (has || nList.any fun item => item.count == 0)
          else .returned := by
  intro nList
  induction nList with
  | nil => intro index has; simp [acceleratorLoop, positiveCount]
  | cons item rest ih =>
    intro index has
    by_cases hz : item.count = 0
    · have hpc : positiveCount (item :: rest) = positiveCount rest := by
        simp [positiveCount, hz]
      simp only [acceleratorLoop, hz, if_true, ih, hpc, List.any_cons]
      simp
    · have hpc : positiveCount (item :: rest) = item :: positiveCount rest := by
        simp [positiveCount, hz]
      by_cases hidx : index ≥ oList.length
      · have hdrop : oList.drop index = [] := List.drop_eq_nil_of_le hidx
        simp [acceleratorLoop, hz, hidx, hpc, hdrop]
      · have hlt : index < oList.length := by omega
        have hget : oList[index]? = some oList[index] := List.getElem?_eq_getElem hlt
        have hdrop : oList.drop index = oList[index] :: oList.drop (index + 1) :=
          List.drop_eq_getElem_cons hlt
        by_cases heq : item = oList[index]
        · have hany : (item :: rest).any (fun item => item.count == 0)
              = rest.any (fun item => item.count == 0) := by
            simp [List.any_cons, hz]
          have hstep : acceleratorLoop oList (item :: rest) index has
              = acceleratorLoop oList rest (index + 1) has := by
            rw [acceleratorLoop, if_neg hz, if_neg hidx, hget]
            simp [heq]
          have hpre : (item :: positiveCount rest <+: oList[index] :: oList.drop (index + 1))
              ↔ positiveCount rest <+: oList.drop (index + 1) := by
            rw [List.cons_prefix_cons]
            simp [heq]
          rw [hstep, ih, hpc, hdrop, hany]
          by_cases hp : positiveCount rest <+: oList.drop (index + 1)
          · rw [if_pos hp, if_pos (hpre.mpr hp), List.length_cons]
            congr 1
            omega
          · rw [if_neg hp, if_neg (fun h => hp (hpre.mp h))]
        · have hstep : acceleratorLoop oList (item :: rest) index has = .returned := by
            rw [acceleratorLoop, if_neg hz, if_neg hidx, hget]
            simp [heq]
          have hpre : ¬ (item :: positiveCount rest <+: oList[index] :: oList.drop (index + 1)) := by
            rw [List.cons_prefix_cons]
            exact fun h => heq h.1
          rw [hstep, hpc, hdrop, if_neg hpre]

/-- C23: `resourceNodeConfigEmptyGuestAccelerator` compares the old and the
new list of guest accelerators by the blocks of non-zero count only. It clears
the diff if and only if the new list is not empty, its length differs from
that of the old list, it has at least one block of count 0, and the new list
without its blocks of count 0 equals the old list; in every other case the
diff is left untouched, and no list index is ever out of range. -/
theorem resourceNodeConfigEmptyGuestAccelerator_clears_iff (clear : Option GoError)
    (oList nList : List GuestAccelerator) :
    (resourceNodeConfigEmptyGuestAccelerator clear oList nList = .cleared clear ↔
      nList ≠ [] ∧ nList.length ≠ oList.length ∧ (∃ item ∈ nList, item.count = 0) ∧
        positiveCount nList = oList) ∧
    (¬ (nList ≠ [] ∧ nList.length ≠ oList.length ∧ (∃ item ∈ nList, item.count = 0) ∧
        positiveCount nList = oList) →
      resourceNodeConfigEmptyGuestAccelerator clear oList nList = .untouched) ∧
    resourceNodeConfigEmptyGuestAccelerator clear oList nList ≠ .indexOutOfRange := by
  have hany : (nList.any fun item => item.count == 0) = true ↔
      ∃ item ∈ nList, item.count = 0 := by
    simp [List.any_eq_true]
  have key : resourceNodeConfigEmptyGuestAccelerator clear oList nList
      = if nList ≠ [] ∧ nList.length ≠ oList.length ∧ (∃ item ∈ nList, item.count = 0) ∧
          positiveCount nList = oList then .cleared clear else .untouched := by
    unfold resourceNodeConfigEmptyGuestAccelerator
    by_cases hearly : nList.length = oList.length ∨ nList.length = 0
    · rw [if_pos hearly, if_neg]
      rintro ⟨hne, hlen, _, _⟩
      rcases hearly with h | h
      · exact hlen h
      · exact hne (List.length_eq_zero.mp h)
    · rw [if_neg hearly, acceleratorLoop_eq]
      simp only [List.drop_zero, zero_add, Bool.false_or]
      have hne : nList ≠ [] := fun h => hearly (Or.inr (by rw [h]; rfl))
      have hlen : nList.length ≠ oList.length := fun h => hearly (Or.inl h)
      by_cases hp : positiveCount nList <+: oList
      · rw [if_pos hp]
        simp only
        by_cases hz : (nList.any fun item => item.count == 0) = true
        · by_cases hl : (positiveCount nList).length = oList.length
          · have heq : positiveCount nList = oList := hp.eq_of_length hl
            rw [if_pos (by simp [hz, hl]), if_pos ⟨hne, hlen, hany.mp hz, heq⟩]
          · rw [if_neg (by simp [hz, hl]), if_neg]
            rintro ⟨_, _, _, heq⟩
            exact hl (by rw [heq])
        · rw [if_neg (by simp [hz]), if_neg]
          rintro ⟨_, _, hex, _⟩
          exact hz (hany.mpr hex)
      · rw [if_neg hp]
        simp only
        rw [if_neg]
        rintro ⟨_, _, _, heq⟩
        exact hp (by rw [heq])
  rw [key]
  refine ⟨?_, ?_, ?_⟩
  · constructor
    · intro h
      by_contra hc
      rw [if_neg hc] at h
      exact AcceleratorDiff.noConfusion h
    · intro h
      rw [if_pos h]
  · intro h
    rw [if_neg h]
  · split <;> exact fun h => AcceleratorDiff.noConfusion h

/-- C23, instantiated on a new list that adds a block of count 0 to the old
list, where the diff is cleared, and on one that changes the count of a block,
where it is left untouched. -/
theorem resourceNodeConfigEmptyGuestAccelerator_clears_iff_witness :
    resourceNodeConfigEmptyGuestAccelerator none
        [{ count := 1, type := "nvidia-tesla-t4" }]
        [{ count := 0, type := "nvidia-tesla-a100" }, { count := 1, type := "nvidia-tesla-t4" }]
      = .cleared none ∧
    resourceNodeConfigEmptyGuestAccelerator none
        [{ count := 1, type := "nvidia-tesla-t4" }]
        [{ count := 0, type := "nvidia-tesla-a100" }, { count := 2, type := "nvidia-tesla-t4" }]
      = .untouched :=
  ⟨(resourceNodeConfigEmptyGuestAccelerator_clears_iff none
      [{ count := 1, type := "nvidia-tesla-t4" }]
      [{ count := 0, type := "nvidia-tesla-a100" },
        { count := 1, type := "nvidia-tesla-t4" }]).1.mpr
      ⟨by decide, by decide, ⟨_, List.mem_cons_self _ _, rfl⟩, by decide⟩,
   (resourceNodeConfigEmptyGuestAccelerator_clears_iff none
      [{ count := 1, type := "nvidia-tesla-t4" }]
      [{ count := 0, type := "nvidia-tesla-a100" },
        { count := 2, type := "nvidia-tesla-t4" }]).2.1
      (fun h => absurd h.2.2.2 (by decide))⟩

/-! ## The version of a base path -/

theorem afterScheme_append (t : List Char) : afterScheme (schemeChars ++ t) = some t := by
  have h1 : (schemeChars ++ t).take 8 = schemeChars := by
    rw [List.take_append_of_le_length (by decide)]
    rfl
  have h2 : (schemeChars ++ t).drop 8 = t := by
    have : schemeChars.length = 8 := by decide
    rw [← this, List.drop_left]
  simp [afterScheme, h1, h2]

theorem afterScheme_some (l t : List Char) (h : afterScheme l = some t) :
    l = schemeChars ++ t := by
  unfold afterScheme at h
  split at h
  · rename_i htake
    simp only [Option.some.injEq] at h
    rw [← htake, ← h, List.take_append_drop]
  · simp at h

/-- The base of a text that ends in `/`, a version and `/`. -/
theorem versionBase_append (r v : List Char) (hr : '\n' ∉ r) (hv : v ≠ [])
    (hslash : '/' ∉ v) : versionBase (r ++ '/' :: (v ++ ['/'])) = some r := by
  have hsplit : splitSlash (r ++ '/' :: (v ++ ['/'])) = splitSlash r ++ [v, []] := by
    have hv' : v ++ ['/'] = v ++ '/' :: [] := rfl
    rw [splitSlash_append_slash, hv', splitSlash_append_slash, splitSlash_of_no_slash _ hslash]
    rfl
  unfold versionBase
  rw [hsplit]
  cases hrev : (splitSlash r).reverse with
  | nil => exact absurd (List.reverse_eq_nil_iff.mp hrev) (splitSlash_ne_nil r)
  | cons b more =>
    have hback : (b :: more).reverse = splitSlash r := by
      rw [← hrev, List.reverse_reverse]
    have hrev' : (splitSlash r ++ [v, []]).reverse = [] :: v :: b :: more := by
      simp [List.reverse_append, hrev]
    rw [hrev']
    simp only [hback, joinSlash_splitSlash]
    simp [hv, hr]

/-- A text with a base ends in `/`, a non-empty version without `/`, and
`/`. -/
theorem versionBase_some (t r : List Char) (h : versionBase t = some r) :
    ∃ v, t = r ++ '/' :: (v ++ ['/']) ∧ v ≠ [] ∧ '/' ∉ v := by
  unfold versionBase at h
  split at h
  · rename_i last version b more hrev
    split at h
    · rename_i hcond
      obtain ⟨hlast, hversion, _⟩ := hcond
      simp only [Option.some.injEq] at h
      have hsplit : splitSlash t = (b :: more).reverse ++ [version, []] := by
        have := congrArg List.reverse hrev
        rw [List.reverse_reverse] at this
        rw [this, hlast]
        simp
      have hne : (b :: more).reverse ≠ [] := by simp
      have hne' : (b :: more).reverse ++ [version] ≠ [] := by simp
      have hjoin : joinSlash (splitSlash t)
          = joinSlash (b :: more).reverse ++ '/' :: (version ++ ['/']) := by
        have h2 : (b :: more).reverse ++ [version, []]
            = ((b :: more).reverse ++ [version]) ++ [[]] := by simp
        rw [hsplit, h2, joinSlash_append_singleton _ _ hne',
          joinSlash_append_singleton _ _ hne]
        simp
      refine ⟨version, ?_, hversion, ?_⟩
      · rw [← h, ← hjoin, joinSlash_splitSlash]
      · apply splitSlash_no_slash t
        rw [hsplit]
        simp
    · simp at h
  · simp at h

/-- A text that does not end in `/`, a non-empty part without `/`, and `/`
is left as it is. -/
theorem replaceVersion_unchanged :
    ∀ (l : List Char),
      (∀ pre v, l = pre ++ '/' :: (v ++ ['/']) → v = [] ∨ '/' ∈ v) →
      replaceVersion l = l := by
  intro l
  induction l with
  | nil => intro _; rfl
  | cons c cs ih =>
    intro h
    have hrest : replaceVersion cs = cs := by
      apply ih
      intro pre v hcs
      exact h (c :: pre) v (by rw [hcs]; rfl)
    cases hm : (afterScheme (c :: cs)).bind versionBase with
    | none => simp only [replaceVersion, hm, hrest]
    | some r =>
      obtain ⟨t, ht, hb⟩ := Option.bind_eq_some.mp hm
      obtain ⟨v, hv, hne, hslash⟩ := versionBase_some t r hb
      have hl := afterScheme_some _ _ ht
      rw [hv] at hl
      rcases h (schemeChars ++ r) v (by rw [hl, List.append_assoc]) with h1 | h1
      · exact absurd h1 hne
      · exact absurd h1 hslash

/-- A text that starts with `https://` and ends in a version is cut at the
version. -/
theorem replaceVersion_scheme (r v : List Char) (hr : '\n' ∉ r) (hv : v ≠ [])
    (hslash : '/' ∉ v) :
    replaceVersion (schemeChars ++ (r ++ '/' :: (v ++ ['/']))) = schemeChars ++ r ++ ['/'] := by
  have hm : (afterScheme (schemeChars ++ (r ++ '/' :: (v ++ ['/'])))).bind versionBase
      = some r := by
    rw [afterScheme_append]
    exact versionBase_append r v hr hv hslash
  have hcons : schemeChars ++ (r ++ '/' :: (v ++ ['/']))
      = 'h' :: ("ttps://".data ++ (r ++ '/' :: (v ++ ['/']))) := rfl
  rw [hcons] at hm ⊢
  simp only [replaceVersion, hm]

/-- On `https` base paths `removeBasePathVersion` does what its comment says:
for every url `"https://" ++ rest ++ "/" ++ v ++ "/"` with `rest` free of line
breaks and `v` non-empty and free of `/`, the result is
`"https://" ++ rest ++ "/"`; a string that does not end in
`"/" ++ v ++ "/"` for such a `v` is returned unchanged; and the default beta
base path `https://container.googleapis.com/v1beta1/` becomes
`https://container.googleapis.com/`. -/
theorem removeBasePathVersion_https :
    (∀ rest v : String, '\n' ∉ rest.data → v ≠ "" → '/' ∉ v.data →
      removeBasePathVersion ("https://" ++ rest ++ "/" ++ v ++ "/")
        = "https://" ++ rest ++ "/") ∧
    (∀ url : String,
      (∀ pre v : String, url = pre ++ "/" ++ v ++ "/" → v = "" ∨ '/' ∈ v.data) →
      removeBasePathVersion url = url) ∧
    removeBasePathVersion ContainerBetaDefaultBasePath
      = "https://container.googleapis.com/" := by
  refine ⟨?_, ?_, by decide⟩
  · intro rest v hrest hv hslash
    have hv' : v.data ≠ [] := fun h => hv (String.ext h)
    apply String.ext
    have hdata : ("https://" ++ rest ++ "/" ++ v ++ "/").data
        = schemeChars ++ (rest.data ++ '/' :: (v.data ++ ['/'])) := by
      simp [String.data_append, schemeChars]
    show replaceVersion ("https://" ++ rest ++ "/" ++ v ++ "/").data = _
    rw [hdata, replaceVersion_scheme _ _ hrest hv' hslash]
    simp [String.data_append, schemeChars]
  · intro url h
    apply String.ext
    show replaceVersion url.data = url.data
    apply replaceVersion_unchanged
    intro pre v hurl
    have hstr : url = String.mk pre ++ "/" ++ String.mk v ++ "/" := by
      apply String.ext
      simp [String.data_append, hurl]
    rcases h (String.mk pre) (String.mk v) hstr with h1 | h1
    · left
      exact congrArg String.data h1
    · right
      exact h1

/-- C26 (the code at the failing input): on the base path `http://host/v1/`,
which has the scheme `http`, the rest `host` and the version `v1`,
`removeBasePathVersion` leaves the version in place: the result is the input,
not `http://host/`. The same base path with the scheme `https` loses its
version. -/
theorem removeBasePathVersion_http_version_kept :
    "http" ++ "://" ++ "host" ++ "/" ++ "v1" ++ "/" = "http://host/v1/" ∧
    removeBasePathVersion "http://host/v1/" = "http://host/v1/" ∧
    removeBasePathVersion "http://host/v1/" ≠ "http" ++ "://" ++ "host" ++ "/" ∧
    removeBasePathVersion "https://host/v1/" = "https://host/" := by
  decide

/-! ## Healthy runs -/

theorem runOk_at (env : Env) (e : Event) (rest : List Event) :
    ∀ (a t : List Event), env.runOk t (a ++ e :: rest) = true →
      env.answerOk (t ++ a) e = true ∧
      (env.inTransition (t ++ a) e = true →
        ∃ e' rest', rest = e' :: rest' ∧ e'.isFetch = true) := by
  intro a
  induction a with
  | nil =>
    intro t h
    simp only [List.nil_append, Env.runOk, Bool.and_eq_true, Bool.or_eq_true,
      Bool.not_eq_true'] at h
    obtain ⟨⟨h1, h2⟩, _⟩ := h
    refine ⟨by simpa using h1, ?_⟩
    intro htr
    rw [List.append_nil] at htr
    rcases h2 with h2 | h2
    · rw [htr] at h2; exact absurd h2 (by decide)
    · cases rest with
      | nil => simp at h2
      | cons e' rest' => exact ⟨e', rest', rfl, by simpa using h2⟩
  | cons x a ih =>
    intro t h
    simp only [List.cons_append, Env.runOk, Bool.and_eq_true] at h
    have := ih (t ++ [x]) h.2
    simpa [List.append_assoc] using this

/-- A run that passes the check event by event is healthy. -/
theorem runOk_healthy (env : Env) (t new : List Event) (h : env.runOk t new = true) :
    env.Healthy t (t ++ new) := by
  intro h' e rest hpre hfin
  obtain ⟨a, rfl⟩ := hpre
  rw [List.append_assoc] at hfin
  have hnew : new = a ++ e :: rest := List.append_cancel_left hfin
  subst hnew
  exact runOk_at env e rest a t h

/-- In a healthy run every call is answered with success. -/
theorem Env.Healthy.answer {env : Env} {t final : List Event} (H : env.Healthy t final)
    {h : List Event} {e : Event} (hpre : t <+: h) (hfin : h ++ [e] <+: final) :
    env.answerOk h e = true := by
  obtain ⟨rest, hrest⟩ := hfin
  exact (H h e rest hpre (by rw [← hrest]; simp)).1

theorem retryLoop_succ_retryable {σ : Type} (f : σ → σ × Option RetryError) (n : Nat)
    (r : Option GoError) (s s' : σ) (e : GoError)
    (h : f s = (s', some (.RetryableError e))) :
    retryLoop f (n + 1) r s = retryLoop f n (some e) s' := by
  simp [retryLoop, h]

/-- In a healthy run a fetch of the waiter either ends the wait on the ready
state or finds the pool in transition. -/
theorem awaitAttempt_healthy (env : Env) (name : String) (t final : List Event)
    (H : env.Healthy t final) (h rest : List Event) (st : String) (hpre : t <+: h)
    (hfin : final = h ++ Event.getCall name :: rest) :
    (∃ state, awaitAttempt env name (h, st) = ((h ++ [Event.getCall name], state), none) ∧
      containerNodePoolRestingStates state = ReadyState) ∨
    (∃ state err, awaitAttempt env name (h, st)
        = ((h ++ [Event.getCall name], state), some (.RetryableError err)) ∧
      ∃ e' rest', rest = e' :: rest' ∧ e'.isFetch = true) := by
  have hH := H h (Event.getCall name) rest hpre hfin
  cases hg : env.remote.get h name with
  | error gErr => simp [Env.answerOk, hg] at hH
  | ok np =>
    cases hc : containerNodePoolRestingStates np.Status with
    | ReadyState =>
      left
      exact ⟨np.Status, by simp [awaitAttempt, hg, hc], hc⟩
    | ErrorState => simp [Env.answerOk, hg, hc] at hH
    | Undefined =>
      right
      refine ⟨np.Status, .plain ("NodePool " ++ goQuote name ++ " has state "
        ++ goQuote np.Status ++ " with message " ++ goQuote np.StatusMessage), ?_,
        hH.2 (by simp [Env.inTransition, hg, hc])⟩
      simp [awaitAttempt, hg, hc]

/-- In a healthy run a wait for a resting state whose last fetch is not
followed by a further fetch ends, without error, on the ready state. -/
theorem retryLoop_await_healthy (env : Env) (name : String) (t final tail : List Event)
    (H : env.Healthy t final)
    (htail : ∀ e' rest', tail = e' :: rest' → e'.isFetch = false) :
    ∀ (n : Nat) (resultErr : Option GoError) (h : List Event) (st : String),
      t <+: h →
      final = (retryLoop (awaitAttempt env name) (n + 1) resultErr (h, st)).1.1 ++ tail →
      ∃ trace state,
        retryLoop (awaitAttempt env name) (n + 1) resultErr (h, st) = ((trace, state), none) ∧
        containerNodePoolRestingStates state = ReadyState := by
  intro n
  induction n with
  | zero =>
    intro resultErr h st hpre hfin
    have hshape : ∃ rest, final = h ++ Event.getCall name :: rest ∧
        (∀ state err, awaitAttempt env name (h, st)
          = ((h ++ [Event.getCall name], state), some (.RetryableError err)) → rest = tail) := by
      rcases hatt : awaitAttempt env name (h, st) with ⟨⟨tr, state⟩, _ | ⟨e⟩ | ⟨e⟩⟩
      · have htr := awaitAttempt_trace env name (h, st)
        rw [hatt] at htr
        simp only at htr
        subst htr
        rw [retryLoop_succ_none _ _ _ _ _ hatt] at hfin
        exact ⟨tail, by simpa using hfin, fun _ _ h' => by simp at h'⟩
      · have htr := awaitAttempt_trace env name (h, st)
        rw [hatt] at htr
        simp only at htr
        subst htr
        rw [retryLoop_succ_retryable _ _ _ _ _ _ hatt] at hfin
        exact ⟨tail, by simpa [retryLoop] using hfin, fun _ _ _ => rfl⟩
      · have htr := awaitAttempt_trace env name (h, st)
        rw [hatt] at htr
        simp only at htr
        subst htr
        rw [retryLoop_succ_nonRetryable _ _ _ _ _ _ hatt] at hfin
        exact ⟨tail, by simpa using hfin, fun _ _ h' => by simp at h'⟩
    obtain ⟨rest, hrest, hsame⟩ := hshape
    rcases awaitAttempt_healthy env name t final H h rest st hpre hrest with
      ⟨state, hatt, hstate⟩ | ⟨state, err, hatt, e', rest', hr, hf⟩
    · exact ⟨_, state, retryLoop_succ_none _ _ _ _ _ hatt, hstate⟩
    · have := hsame state err hatt
      subst this
      rw [htail e' rest' hr] at hf
      exact absurd hf (by decide)
  | succ n ih =>
    intro resultErr h st hpre hfin
    have hshape : ∃ rest, final = h ++ Event.getCall name :: rest := by
      have hinv := retryLoop_invariant (awaitAttempt env name)
        (fun p => h ++ [Event.getCall name] <+: p.1)
        (fun p hp => by
          show _ <+: (awaitAttempt env name p).1.1
          rw [awaitAttempt_trace]; exact hp.trans (List.prefix_append _ _))
      have hfirst : h ++ [Event.getCall name]
          <+: (retryLoop (awaitAttempt env name) (n + 1 + 1) resultErr (h, st)).1.1 := by
        have htr := awaitAttempt_trace env name (h, st)
        rcases hatt : awaitAttempt env name (h, st) with ⟨⟨tr, state⟩, _ | ⟨e⟩ | ⟨e⟩⟩
        · rw [hatt] at htr
          simp only at htr
          rw [retryLoop_succ_none _ _ _ _ _ hatt, htr]
        · rw [hatt] at htr
          simp only at htr
          rw [retryLoop_succ_retryable _ _ _ _ _ _ hatt]
          exact hinv (n + 1) (some e) (tr, state) (by show _ <+: tr; rw [htr])
        · rw [hatt] at htr
          simp only at htr
          rw [retryLoop_succ_nonRetryable _ _ _ _ _ _ hatt, htr]
      obtain ⟨mid, hmid⟩ := hfirst
      exact ⟨mid ++ tail, by rw [hfin, ← hmid]; simp⟩
    obtain ⟨rest, hrest⟩ := hshape
    rcases awaitAttempt_healthy env name t final H h rest st hpre hrest with
      ⟨state, hatt, hstate⟩ | ⟨state, err, hatt, _⟩
    · exact ⟨_, state, retryLoop_succ_none _ _ _ _ _ hatt, hstate⟩
    · rw [retryLoop_succ_retryable _ _ _ _ _ _ hatt] at hfin ⊢
      exact ih (some err) _ state (hpre.trans (List.prefix_append _ _)) hfin

/-- The wait for a resting state in a healthy run. -/
theorem containerNodePoolAwaitRestingState_healthy (env : Env) (name : String)
    (timeout : Nat) (t final tail trace : List Event)
    (H : env.Healthy t final) (ht : 0 < timeout) (hpre : t <+: trace)
    (hfin : final = (containerNodePoolAwaitRestingState env name timeout trace).1 ++ tail)
    (htail : ∀ e' rest', tail = e' :: rest' → e'.isFetch = false) :
    ∃ trace' state,
      containerNodePoolAwaitRestingState env name timeout trace = (trace', state, none) ∧
      containerNodePoolRestingStates state = ReadyState := by
  obtain ⟨n, rfl⟩ := Nat.exists_eq_succ_of_ne_zero (Nat.pos_iff_ne_zero.mp ht)
  unfold containerNodePoolAwaitRestingState Retry at hfin ⊢
  obtain ⟨trace', state, hloop, hstate⟩ :=
    retryLoop_await_healthy env name t final tail H htail n none trace "" hpre hfin
  exact ⟨trace', state, by rw [hloop], hstate⟩

/-- In a healthy run the loop over the instance groups of a well-formed pool
ends without error. -/
theorem flattenInstanceGroups_healthy (env : Env) (t final : List Event)
    (H : env.Healthy t final)
    (urls : List String) (hurls : ∀ url ∈ urls, env.igmMatch url ≠ none) :
    ∀ (trace : List Event) (size : Int) (igmUrls : List String),
      t <+: trace → (flattenInstanceGroups env urls trace size igmUrls).1 <+: final →
      ∃ r, (flattenInstanceGroups env urls trace size igmUrls).2 = .ok r := by
  induction urls with
  | nil => intro trace size igmUrls _ _; exact ⟨_, rfl⟩
  | cons url rest ih =>
    intro trace size igmUrls hpre hfin
    have hrest : ∀ u ∈ rest, env.igmMatch u ≠ none :=
      fun u hu => hurls u (List.mem_cons_of_mem _ hu)
    unfold flattenInstanceGroups at hfin ⊢
    cases hm : env.igmMatch url with
    | none => exact absurd hm (hurls url (List.mem_cons_self _ _))
    | some m =>
      obtain ⟨project, zone, name⟩ := m
      simp only [hm] at hfin ⊢
      cases hg : env.remote.igmGet trace project zone name with
      | error err =>
        simp only [hg] at hfin ⊢
        by_cases h404 : isGoogleApiErrorWithCode err 404 = true
        · simp only [h404, if_true] at hfin ⊢
          exact ih hrest _ _ _ (hpre.trans (List.prefix_append _ _)) hfin
        · simp only [h404] at hfin
          have := H.answer hpre hfin
          simp [Env.answerOk, hg] at this
      | ok targetSize =>
        simp only [hg] at hfin ⊢
        exact ih hrest _ _ _ (hpre.trans (List.prefix_append _ _)) hfin

/-- In a healthy run a well-formed pool is flattened without error. -/
theorem flattenNodePool_healthy (env : Env) (t final : List Event) (H : env.Healthy t final)
    (d : ResourceData) (np : NodePool) (trace : List Event)
    (ua : String) (hua : env.generateUserAgentString = .ok ua)
    (hmgmt : np.Management ≠ none)
    (hurls : ∀ url ∈ np.InstanceGroupUrls, env.igmMatch url ≠ none)
    (hpre : t <+: trace) (hfin : (flattenNodePool env d np trace).1 <+: final) :
    ∃ m, (flattenNodePool env d np trace).2 = .ok m ∧
      FlatNodePool.name_prefix m = ResourceData.name_prefix d := by
  have hsame : (flattenNodePool env d np trace).1
      = (flattenInstanceGroups env np.InstanceGroupUrls trace 0 []).1 := by
    unfold flattenNodePool
    simp only [hua]
    rcases flattenInstanceGroups env np.InstanceGroupUrls trace 0 [] with ⟨t', _ | ⟨size, urls⟩⟩
    · rfl
    · cases np.Management <;> rfl
  rw [hsame] at hfin
  obtain ⟨r, hr⟩ := flattenInstanceGroups_healthy env t final H np.InstanceGroupUrls hurls
    trace 0 [] hpre hfin
  unfold flattenNodePool
  rcases hf : flattenInstanceGroups env np.InstanceGroupUrls trace 0 [] with ⟨t', _ | ⟨size, urls⟩⟩
  · rw [hf] at hr; simp at hr
  · cases hm : np.Management with
    | none => exact absurd hm hmgmt
    | some mg => simp [hua]

/-- With the provider set up the read callback fetches the pool first. -/
theorem resourceContainerNodePoolRead_first_call (env : Env) (s : St) (ua : String)
    (info : NodePoolInformation)
    (hua : env.generateUserAgentString = .ok ua)
    (hinfo : extractNodePoolInformation s.d env.config = .ok info) :
    s.trace ++ [Event.getCall (info.fullyQualifiedName (getNodePoolName s.d.id))]
      <+: (resourceContainerNodePoolRead env s).1.trace := by
  unfold resourceContainerNodePoolRead
  simp only [hua, hinfo]
  cases env.remote.get s.trace (info.fullyQualifiedName (getNodePoolName s.d.id)) with
  | error err =>
    exact (handleNotFoundError_extends err
      (s.emit (.getCall (info.fullyQualifiedName (getNodePoolName s.d.id)))) _).isPrefix
  | ok np =>
    have h := (flattenNodePool_extends env
      (s.emit (.getCall (info.fullyQualifiedName (getNodePoolName s.d.id)))).d np
      (s.emit (.getCall (info.fullyQualifiedName (getNodePoolName s.d.id)))).trace).isPrefix
    simp only
    rcases hf : flattenNodePool env
      (s.emit (.getCall (info.fullyQualifiedName (getNodePoolName s.d.id)))).d np
      (s.emit (.getCall (info.fullyQualifiedName (getNodePoolName s.d.id)))).trace
      with ⟨t, _ | m⟩
    · rw [hf] at h; exact h
    · rw [hf] at h; exact h

/-- In a healthy run the read callback succeeds, issues no mutating call and
leaves the identity, the scope and the name beginning of the record as they
are. -/
theorem resourceContainerNodePoolRead_healthy (env : Env) (t final : List Event)
    (H : env.Healthy t final) (s : St) (ua : String)
    (info : NodePoolInformation)
    (hua : env.generateUserAgentString = .ok ua)
    (hinfo : extractNodePoolInformation s.d env.config = .ok info)
    (hpre : t <+: s.trace) (hfin : (resourceContainerNodePoolRead env s).1.trace <+: final) :
    ∃ s', resourceContainerNodePoolRead env s = (s', none) ∧
      Extends s.trace s'.trace [] ∧ s'.d.id = s.d.id ∧
      ResourceData.name_prefix s'.d = ResourceData.name_prefix s.d ∧
      extractNodePoolInformation s'.d env.config = .ok info := by
  have hext := resourceContainerNodePoolRead_extends env s
  have hans := H.answer hpre
    ((resourceContainerNodePoolRead_first_call env s ua info hua hinfo).trans hfin)
  cases hnp : env.remote.get s.trace (info.fullyQualifiedName (getNodePoolName s.d.id)) with
  | error err => simp [Env.answerOk, hnp] at hans
  | ok np =>
    simp only [Env.answerOk, hnp, Bool.and_eq_true, decide_eq_true_eq, List.all_eq_true] at hans
    obtain ⟨⟨_, hmgmt⟩, hurls⟩ := hans
    have hmgmt' : np.Management ≠ none := by
      intro h; rw [h] at hmgmt; simp at hmgmt
    have hurls' : ∀ url ∈ np.InstanceGroupUrls, env.igmMatch url ≠ none := by
      intro url hu h
      have := hurls url hu
      rw [h] at this
      simp at this
    have hflat : (flattenNodePool env
        (s.emit (.getCall (info.fullyQualifiedName (getNodePoolName s.d.id)))).d np
        (s.emit (.getCall (info.fullyQualifiedName (getNodePoolName s.d.id)))).trace).1
        = (resourceContainerNodePoolRead env s).1.trace := by
      unfold resourceContainerNodePoolRead
      simp only [hua, hinfo, hnp]
      rcases flattenNodePool env
        (s.emit (.getCall (info.fullyQualifiedName (getNodePoolName s.d.id)))).d np
        (s.emit (.getCall (info.fullyQualifiedName (getNodePoolName s.d.id)))).trace
        with ⟨t', _ | m⟩ <;> rfl
    obtain ⟨m, hm, hmp⟩ := flattenNodePool_healthy env t final H
      (s.emit (.getCall (info.fullyQualifiedName (getNodePoolName s.d.id)))).d np
      (s.emit (.getCall (info.fullyQualifiedName (getNodePoolName s.d.id)))).trace
      ua hua hmgmt' hurls' (hpre.trans (List.prefix_append _ _)) (by rw [hflat]; exact hfin)
    unfold resourceContainerNodePoolRead at hext ⊢
    simp only [hua, hinfo, hnp] at hext ⊢
    rcases hf : flattenNodePool env
      (s.emit (.getCall (info.fullyQualifiedName (getNodePoolName s.d.id)))).d np
      (s.emit (.getCall (info.fullyQualifiedName (getNodePoolName s.d.id)))).trace with ⟨t', _ | m'⟩
    · rw [hf] at hm; simp at hm
    · rw [hf] at hm hext
      simp only [Except.ok.injEq] at hm
      subst hm
      refine ⟨_, rfl, by simpa using hext, rfl, ?_, ?_⟩
      · simpa [ResourceData.setAll, St.emit] using hmp
      · exact extractNodePoolInformation_stable s.d _ env.config info hinfo rfl rfl rfl

/-- Once the operation has been waited for, the trace of the read-back is a
beginning of the trace of the create callback. -/
theorem createLocked_read_isPrefix (env : Env) (info : NodePoolInformation) (np : NodePool)
    (s : St) (trace : List Event) (operation : Option Operation)
    (hsub : createSubmit env info np env.timeoutCreate
      (s.trace ++ [Event.setId (info.fullyQualifiedName np.Name)]) = (trace, operation, none))
    (hwait : env.remote.operationWait trace operation = none) :
    (resourceContainerNodePoolRead env
      { d := { s.d with id := info.fullyQualifiedName np.Name },
        trace := trace ++ [Event.operationWait operation "creating GKE NodePool"] }).1.trace
      <+: (createLocked env info np s).1.trace := by
  rcases hread : resourceContainerNodePoolRead env
    { d := { s.d with id := info.fullyQualifiedName np.Name },
      trace := trace ++ [Event.operationWait operation "creating GKE NodePool"] }
    with ⟨s', _ | e⟩
  · have ha := (containerNodePoolAwaitRestingState_extends env s'.d.id env.timeoutCreate
      s'.trace).isPrefix
    rcases haw : containerNodePoolAwaitRestingState env s'.d.id env.timeoutCreate s'.trace
      with ⟨t', st, _ | e⟩
    · rw [haw] at ha
      rw [createLocked_of_resting env info np s s' trace t' operation st hsub hwait hread haw]
      exact ha
    · rw [haw] at ha
      unfold createLocked
      simp only [St.SetId, St.emit, ← NodePoolInformation.fullyQualifiedName.eq_1, hsub, hwait,
        hread, haw]
      exact ha
  · unfold createLocked
    simp only [St.SetId, St.emit, ← NodePoolInformation.fullyQualifiedName.eq_1, hsub, hwait,
      hread]
    exact List.prefix_refl _

/-- Once the pool has been read back, the trace of the create callback is the
trace of its wait for a resting state. -/
theorem createLocked_await_trace (env : Env) (info : NodePoolInformation) (np : NodePool)
    (s s' : St) (trace : List Event) (operation : Option Operation)
    (hsub : createSubmit env info np env.timeoutCreate
      (s.trace ++ [Event.setId (info.fullyQualifiedName np.Name)]) = (trace, operation, none))
    (hwait : env.remote.operationWait trace operation = none)
    (hread : resourceContainerNodePoolRead env
      { d := { s.d with id := info.fullyQualifiedName np.Name },
        trace := trace ++ [Event.operationWait operation "creating GKE NodePool"] } = (s', none)) :
    (createLocked env info np s).1.trace
      = (containerNodePoolAwaitRestingState env s'.d.id env.timeoutCreate s'.trace).1 := by
  rcases haw : containerNodePoolAwaitRestingState env s'.d.id env.timeoutCreate s'.trace
    with ⟨t', st, _ | e⟩
  · rw [createLocked_of_resting env info np s s' trace t' operation st hsub hwait hread haw]
  · unfold createLocked
    simp only [St.SetId, St.emit, ← NodePoolInformation.fullyQualifiedName.eq_1, hsub, hwait,
      hread, haw]

/-- In a healthy run the create callback of a named pool succeeds with exactly
one mutating call, the creation of that pool under the parent of the scope,
and leaves the record identified by the fully qualified name. -/
theorem resourceContainerNodePoolCreate_healthy (env : Env) (t final : List Event)
    (H : env.Healthy t final) (s : St) (ua : String)
    (info : NodePoolInformation)
    (hua : env.generateUserAgentString = .ok ua)
    (hinfo : extractNodePoolInformation s.d env.config = .ok info)
    (hname : s.d.name ≠ "") (hunset : ResourceData.name_prefix s.d = "")
    (hcount : s.d.initial_node_count = 0)
    (ht : 0 < env.timeoutCreate)
    (hpre : t <+: s.trace)
    (hfin : (resourceContainerNodePoolCreate env s).1.trace <+: final) :
    ∃ s', resourceContainerNodePoolCreate env s = (s', none) ∧
      Extends s.trace s'.trace [MutatingCall.create info.parent s.d.name] ∧
      s'.d.id = info.fullyQualifiedName s.d.name ∧
      ResourceData.name_prefix s'.d = "" ∧
      extractNodePoolInformation s'.d env.config = .ok info := by
  obtain ⟨np, hnp, hnpName⟩ := expandNodePool_named env s.trace s.d hname hunset hcount
  rw [resourceContainerNodePoolCreate_eq env s ua info np hua hinfo hnp] at hfin ⊢
  obtain ⟨tail, htail⟩ := hfin
  have hlocked : (createLocked env info np (s.emit (.lock info.lockKey))).1.trace <+: final :=
    ⟨Event.unlock info.lockKey :: tail, by rw [← htail]; simp [St.emit]⟩
  have hbase : t <+: (s.emit (.lock info.lockKey)).trace
      ++ [Event.setId (info.fullyQualifiedName np.Name)] :=
    (hpre.trans (List.prefix_append _ _)).trans (List.prefix_append _ _)
  -- the create call is accepted
  have hcall := H.answer hbase
    (((createSubmit_first_call env info np env.timeoutCreate _ ht).trans
      (createLocked_submit_isPrefix env info np (s.emit (.lock info.lockKey)))).trans hlocked)
  cases hop : env.remote.create
      ((s.emit (.lock info.lockKey)).trace ++ [Event.setId (info.fullyQualifiedName np.Name)])
      info.parent np with
  | error err => simp [Env.answerOk, hop] at hcall
  | ok op =>
    have hsub := createSubmit_ok env info np env.timeoutCreate _ op ht hop
    -- the operation ends well
    have hw := H.answer (hbase.trans (List.prefix_append _ _))
      ((createLocked_wait_isPrefix env info np (s.emit (.lock info.lockKey)) _ _ hsub).trans
        hlocked)
    have hwait : env.remote.operationWait
        ((s.emit (.lock info.lockKey)).trace ++ [Event.setId (info.fullyQualifiedName np.Name)]
          ++ [Event.createCall info.parent np]) (some op) = none := by
      simpa [Env.answerOk] using hw
    -- the pool is read back
    obtain ⟨s', hread, hrext, hrid, hrpre, hrinfo⟩ := resourceContainerNodePoolRead_healthy env
      t final H
      { d := { (s.emit (.lock info.lockKey)).d with id := info.fullyQualifiedName np.Name },
        trace := (s.emit (.lock info.lockKey)).trace
          ++ [Event.setId (info.fullyQualifiedName np.Name)]
          ++ [Event.createCall info.parent np]
          ++ [Event.operationWait (some op) "creating GKE NodePool"] }
      ua info hua
      (by rw [← hinfo]; exact extractNodePoolInformation_congr _ _ _ rfl rfl rfl)
      ((hbase.trans (List.prefix_append _ _)).trans (List.prefix_append _ _))
      ((createLocked_read_isPrefix env info np (s.emit (.lock info.lockKey)) _ _ hsub
        hwait).trans hlocked)
    -- the pool comes to rest
    have htrace := createLocked_await_trace env info np (s.emit (.lock info.lockKey)) s' _ _
      hsub hwait hread
    obtain ⟨trace', state, hawait, hstate⟩ := containerNodePoolAwaitRestingState_healthy env
      s'.d.id env.timeoutCreate t final (Event.unlock info.lockKey :: tail) s'.trace H ht
      (((hbase.trans (List.prefix_append _ _)).trans (List.prefix_append _ _)).trans
        hrext.isPrefix)
      (by rw [← htrace, ← htail]; simp [St.emit])
      (by intro e' rest' h; simp only [List.cons.injEq] at h; rw [← h.1]; rfl)
    rw [createLocked_of_resting env info np _ s' _ _ (some op) state hsub hwait hread hawait]
    have hne : ¬ containerNodePoolRestingStates state = ErrorState := by
      rw [hstate]; decide
    rw [if_neg hne]
    have haext := containerNodePoolAwaitRestingState_extends env s'.d.id env.timeoutCreate
      s'.trace
    rw [hawait] at haext
    refine ⟨_, rfl, ?_, ?_, ?_, ?_⟩
    · have e1 : Extends s.trace
          ((s.emit (.lock info.lockKey)).trace
            ++ [Event.setId (info.fullyQualifiedName np.Name)]
            ++ [Event.createCall info.parent np]
            ++ [Event.operationWait (some op) "creating GKE NodePool"])
          [MutatingCall.create info.parent s.d.name] :=
        ⟨[Event.lock info.lockKey, Event.setId (info.fullyQualifiedName np.Name),
            Event.createCall info.parent np,
            Event.operationWait (some op) "creating GKE NodePool"],
          by simp [St.emit], by simp [mutatingCalls, Event.mutating, hnpName]⟩
      have e3 : Extends trace' (trace' ++ [Event.unlock info.lockKey]) [] :=
        Extends.emit _ _
      simpa [St.emit] using ((e1.trans hrext).trans haext).trans e3
    · simpa [St.emit, hnpName] using hrid
    · simpa [St.emit] using hrpre.trans hunset
    · simpa [St.emit] using hrinfo

theorem deleteLocked_submit_isPrefix (env : Env) (info : NodePoolInformation) (name : String)
    (s : St) :
    (deleteSubmit env info name env.timeoutDelete s.trace).1
      <+: (deleteLocked env info name s).1.trace := by
  rcases hds : deleteSubmit env info name env.timeoutDelete s.trace with ⟨tr, op, _ | e⟩
  · cases hw : env.remote.operationWait tr op with
    | some we =>
      rw [deleteLocked_of_wait_error env info name s tr op we hds hw]
      exact List.prefix_append _ _
    | none =>
      rw [deleteLocked_of_wait_ok env info name s tr op hds hw]
      exact List.prefix_append _ _
  · rw [deleteLocked_of_submit_error env info name s tr op e hds]

/-- In a healthy run the delete callback, when what follows it is no fetch,
succeeds with exactly one mutating call, the deletion of the pool the identity
names, and clears the identity. -/
theorem resourceContainerNodePoolDelete_healthy (env : Env) (t final tail : List Event)
    (H : env.Healthy t final) (s : St) (ua : String)
    (info : NodePoolInformation)
    (hua : env.generateUserAgentString = .ok ua)
    (hinfo : extractNodePoolInformation s.d env.config = .ok info)
    (ht : 0 < env.timeoutDelete)
    (hpre : t <+: s.trace)
    (hfin : final = (resourceContainerNodePoolDelete env s).1.trace ++ tail)
    (htail : ∀ e' rest', tail = e' :: rest' → e'.isFetch = false) :
    ∃ s', resourceContainerNodePoolDelete env s = (s', none) ∧
      Extends s.trace s'.trace
        [MutatingCall.delete (info.fullyQualifiedName (getNodePoolName s.d.id))] ∧
      s'.d = { s.d with id := "" } := by
  -- the pool is at rest
  have hshape : ∃ tail', final = (containerNodePoolAwaitRestingState env
      (info.fullyQualifiedName (getNodePoolName s.d.id)) env.timeoutDelete s.trace).1 ++ tail' ∧
      ∀ e' rest', tail' = e' :: rest' → e'.isFetch = false := by
    rcases haw : containerNodePoolAwaitRestingState env
      (info.fullyQualifiedName (getNodePoolName s.d.id)) env.timeoutDelete s.trace
      with ⟨tr, st, _ | e⟩
    · rw [resourceContainerNodePoolDelete_eq env s ua info tr st hua hinfo haw] at hfin
      obtain ⟨new, hnew, _⟩ := deleteLocked_noMutex env info (getNodePoolName s.d.id)
        { d := s.d, trace := tr ++ [Event.lock info.lockKey] }
      refine ⟨Event.lock info.lockKey :: (new ++ Event.unlock info.lockKey :: tail), ?_, ?_⟩
      · rw [hfin]
        simp only [St.emit, hnew]
        simp
      · intro e' rest' h
        simp only [List.cons.injEq] at h
        rw [← h.1]
        rfl
    · refine ⟨tail, ?_, htail⟩
      rw [hfin]
      unfold resourceContainerNodePoolDelete
      simp only [hua, hinfo, haw]
      split <;> rfl
  obtain ⟨tail', hfin', htail'⟩ := hshape
  obtain ⟨trace, state, hawait, _⟩ := containerNodePoolAwaitRestingState_healthy env
    (info.fullyQualifiedName (getNodePoolName s.d.id)) env.timeoutDelete t final tail' s.trace
    H ht hpre hfin' htail'
  have haext := containerNodePoolAwaitRestingState_extends env
    (info.fullyQualifiedName (getNodePoolName s.d.id)) env.timeoutDelete s.trace
  rw [hawait] at haext
  rw [resourceContainerNodePoolDelete_eq env s ua info trace state hua hinfo hawait] at hfin ⊢
  have hlocked : (deleteLocked env info (getNodePoolName s.d.id)
      { d := s.d, trace := trace ++ [Event.lock info.lockKey] }).1.trace <+: final :=
    ⟨Event.unlock info.lockKey :: tail, by rw [hfin]; simp [St.emit]⟩
  have hbase : t <+: trace ++ [Event.lock info.lockKey] :=
    (hpre.trans haext.isPrefix).trans (List.prefix_append _ _)
  -- the delete call is accepted
  have hcall := H.answer hbase
    (((deleteSubmit_first_call env info (getNodePoolName s.d.id) env.timeoutDelete _ ht).trans
      (deleteLocked_submit_isPrefix env info (getNodePoolName s.d.id)
        { d := s.d, trace := trace ++ [Event.lock info.lockKey] })).trans hlocked)
  cases hop : env.remote.delete (trace ++ [Event.lock info.lockKey])
      (info.fullyQualifiedName (getNodePoolName s.d.id)) with
  | error err => simp [Env.answerOk, hop] at hcall
  | ok op =>
    have hsub := deleteSubmit_ok env info (getNodePoolName s.d.id) env.timeoutDelete _ op ht hop
    -- the operation ends well
    have hw := H.answer (hbase.trans (List.prefix_append _ _))
      ((deleteLocked_wait_isPrefix env info (getNodePoolName s.d.id)
        { d := s.d, trace := trace ++ [Event.lock info.lockKey] } _ _ hsub).trans hlocked)
    have hwait : env.remote.operationWait
        (trace ++ [Event.lock info.lockKey]
          ++ [Event.deleteCall (info.fullyQualifiedName (getNodePoolName s.d.id))])
        (some op) = none := by
      simpa [Env.answerOk] using hw
    rw [deleteLocked_of_wait_ok env info _ _ _ (some op) hsub hwait]
    refine ⟨_, rfl, ?_, rfl⟩
    have e1 : Extends trace
        (trace ++ [Event.lock info.lockKey]
          ++ [Event.deleteCall (info.fullyQualifiedName (getNodePoolName s.d.id))]
          ++ [Event.operationWait (some op) "deleting GKE NodePool", Event.setId ""]
          ++ [Event.unlock info.lockKey])
        [MutatingCall.delete (info.fullyQualifiedName (getNodePoolName s.d.id))] :=
      ⟨[Event.lock info.lockKey,
          Event.deleteCall (info.fullyQualifiedName (getNodePoolName s.d.id)),
          Event.operationWait (some op) "deleting GKE NodePool", Event.setId "",
          Event.unlock info.lockKey],
        by simp, by simp [mutatingCalls, Event.mutating]⟩
    simpa [St.emit] using haext.trans e1

theorem NoMutex.continues {t t' : List Event} (h : NoMutex t t') : t <+: t' := by
  obtain ⟨n, hn, _⟩ := h
  exact ⟨n, hn.symm⟩

/-- The create callback only adds to the trace. -/
theorem resourceContainerNodePoolCreate_isPrefix (env : Env) (s : St) :
    s.trace <+: (resourceContainerNodePoolCreate env s).1.trace := by
  unfold resourceContainerNodePoolCreate
  cases env.generateUserAgentString with
  | error err => exact List.prefix_refl _
  | ok ua =>
    cases extractNodePoolInformation s.d env.config with
    | error err => exact List.prefix_refl _
    | ok info =>
      cases expandNodePool env s.trace s.d with
      | error err => exact List.prefix_refl _
      | ok np =>
        have h := (createLocked_noMutex env info np (s.emit (.lock info.lockKey))).continues
        exact ((List.prefix_append _ _).trans h).trans (List.prefix_append _ _)

/-- With the provider set up and a pool to create, the create callback takes
the cluster mutex first. -/
theorem resourceContainerNodePoolCreate_first_lock (env : Env) (s : St) (ua : String)
    (info : NodePoolInformation) (np : NodePool)
    (hua : env.generateUserAgentString = .ok ua)
    (hinfo : extractNodePoolInformation s.d env.config = .ok info)
    (hnp : expandNodePool env s.trace s.d = .ok np) :
    s.trace ++ [Event.lock info.lockKey] <+: (resourceContainerNodePoolCreate env s).1.trace := by
  rw [resourceContainerNodePoolCreate_eq env s ua info np hua hinfo hnp]
  have h := (createLocked_noMutex env info np (s.emit (.lock info.lockKey))).continues
  exact h.trans (List.prefix_append _ _)

/-- The delete callback only adds to the trace. -/
theorem resourceContainerNodePoolDelete_isPrefix (env : Env) (s : St) :
    s.trace <+: (resourceContainerNodePoolDelete env s).1.trace := by
  unfold resourceContainerNodePoolDelete
  cases env.generateUserAgentString with
  | error err => exact List.prefix_refl _
  | ok ua =>
    cases extractNodePoolInformation s.d env.config with
    | error err => exact List.prefix_refl _
    | ok info =>
      have ha := (containerNodePoolAwaitRestingState_extends env
        (info.fullyQualifiedName (getNodePoolName s.d.id)) env.timeoutDelete s.trace).isPrefix
      simp only
      rcases haw : containerNodePoolAwaitRestingState env
        (info.fullyQualifiedName (getNodePoolName s.d.id)) env.timeoutDelete s.trace
        with ⟨tr, st, _ | e⟩
      · rw [haw] at ha
        have h := (deleteLocked_noMutex env info (getNodePoolName s.d.id)
          ({ s with trace := tr }.emit (.lock info.lockKey))).continues
        exact ((ha.trans (List.prefix_append _ _)).trans h).trans (List.prefix_append _ _)
      · rw [haw] at ha
        simp only
        split <;> exact ha

/-- The delete callback changes nothing in the record but the identity, which
it may clear. -/
theorem resourceContainerNodePoolDelete_record (env : Env) (s : St) :
    (resourceContainerNodePoolDelete env s).1.d = s.d ∨
    (resourceContainerNodePoolDelete env s).1.d = { s.d with id := "" } := by
  unfold resourceContainerNodePoolDelete
  cases env.generateUserAgentString with
  | error err => exact Or.inl rfl
  | ok ua =>
    cases extractNodePoolInformation s.d env.config with
    | error err => exact Or.inl rfl
    | ok info =>
      simp only
      rcases haw : containerNodePoolAwaitRestingState env
        (info.fullyQualifiedName (getNodePoolName s.d.id)) env.timeoutDelete s.trace
        with ⟨tr, st, _ | e⟩
      · simp only
        rcases hds : deleteSubmit env info (getNodePoolName s.d.id) env.timeoutDelete
          ({ s with trace := tr }.emit (.lock info.lockKey)).trace with ⟨tr', op, _ | e⟩
        · cases hw : env.remote.operationWait tr' op with
          | some we =>
            rw [deleteLocked_of_wait_error env info _ _ tr' op we hds hw]
            exact Or.inl rfl
          | none =>
            rw [deleteLocked_of_wait_ok env info _ _ tr' op hds hw]
            exact Or.inr rfl
        · rw [deleteLocked_of_submit_error env info _ _ tr' op e hds]
          exact Or.inl rfl
      · simp only
        split <;> exact Or.inl rfl

/-- The replacement once both of its creations have succeeded. -/
theorem nodePoolUpdate_of_creates (env : Env) (info : NodePoolInformation) (s s1 s3 : St)
    (h1 : resourceContainerNodePoolCreate env
      (((s.setInitialNodeCount 0).SetId
        (getNodePoolIdHead (s.setInitialNodeCount 0).d.id ++ "/" ++ "temp-node-pool")).setName
        "temp-node-pool") = (s1, none))
    (h3 : resourceContainerNodePoolCreate env
      (resourceContainerNodePoolDelete env
        (((s1.SetId (getNodePoolIdHead s1.d.id ++ "/"
          ++ getNodePoolName s.d.id)).setInitialNodeCount 0).setName
          (getNodePoolName s.d.id))).1 = (s3, none)) :
    nodePoolUpdate env info s
      = (((resourceContainerNodePoolDelete env
            ((s3.SetId (getNodePoolIdHead s3.d.id ++ "/" ++ "temp-node-pool")).setName
              "temp-node-pool")).1.SetId
          (getNodePoolIdHead (resourceContainerNodePoolDelete env
            ((s3.SetId (getNodePoolIdHead s3.d.id ++ "/" ++ "temp-node-pool")).setName
              "temp-node-pool")).1.d.id ++ "/" ++ getNodePoolName s.d.id)).setName
          (getNodePoolName s.d.id), none) := by
  unfold nodePoolUpdate
  simp only [h1, h3]

/-- Once the temporary pool is created, the trace of the second creation is a
beginning of the trace of the replacement. -/
theorem nodePoolUpdate_second_create_isPrefix (env : Env) (info : NodePoolInformation)
    (s s1 : St)
    (h1 : resourceContainerNodePoolCreate env
      (((s.setInitialNodeCount 0).SetId
        (getNodePoolIdHead (s.setInitialNodeCount 0).d.id ++ "/" ++ "temp-node-pool")).setName
        "temp-node-pool") = (s1, none)) :
    (resourceContainerNodePoolCreate env
      (resourceContainerNodePoolDelete env
        (((s1.SetId (getNodePoolIdHead s1.d.id ++ "/"
          ++ getNodePoolName s.d.id)).setInitialNodeCount 0).setName
          (getNodePoolName s.d.id))).1).1.trace
      <+: (nodePoolUpdate env info s).1.trace := by
  rcases h3 : resourceContainerNodePoolCreate env
    (resourceContainerNodePoolDelete env
      (((s1.SetId (getNodePoolIdHead s1.d.id ++ "/"
        ++ getNodePoolName s.d.id)).setInitialNodeCount 0).setName
        (getNodePoolName s.d.id))).1 with ⟨s3, _ | e3⟩
  · rw [nodePoolUpdate_of_creates env info s s1 s3 h1 h3]
    have hd2 := resourceContainerNodePoolDelete_isPrefix env
      ((s3.SetId (getNodePoolIdHead s3.d.id ++ "/" ++ "temp-node-pool")).setName
        "temp-node-pool")
    exact ((List.prefix_append _ _).trans hd2).trans (List.prefix_append _ _)
  · unfold nodePoolUpdate
    simp only [h1, h3]
    exact List.prefix_refl _

/-- The trace of the first creation is a beginning of the trace of the
replacement. -/
theorem nodePoolUpdate_first_create_isPrefix (env : Env) (info : NodePoolInformation)
    (s : St) :
    (resourceContainerNodePoolCreate env
      (((s.setInitialNodeCount 0).SetId
        (getNodePoolIdHead (s.setInitialNodeCount 0).d.id ++ "/" ++ "temp-node-pool")).setName
        "temp-node-pool")).1.trace
      <+: (nodePoolUpdate env info s).1.trace := by
  rcases h1 : resourceContainerNodePoolCreate env
    (((s.setInitialNodeCount 0).SetId
      (getNodePoolIdHead (s.setInitialNodeCount 0).d.id ++ "/" ++ "temp-node-pool")).setName
      "temp-node-pool") with ⟨s1, _ | e1⟩
  · have h := nodePoolUpdate_second_create_isPrefix env info s s1 h1
    have hd := resourceContainerNodePoolDelete_isPrefix env
      (((s1.SetId (getNodePoolIdHead s1.d.id ++ "/"
        ++ getNodePoolName s.d.id)).setInitialNodeCount 0).setName (getNodePoolName s.d.id))
    have hc := resourceContainerNodePoolCreate_isPrefix env
      (resourceContainerNodePoolDelete env
        (((s1.SetId (getNodePoolIdHead s1.d.id ++ "/"
          ++ getNodePoolName s.d.id)).setInitialNodeCount 0).setName
          (getNodePoolName s.d.id))).1
    exact (((List.prefix_append _ _).trans hd).trans hc).trans h
  · unfold nodePoolUpdate
    simp only [h1]
    exact List.prefix_refl _

/-- The healthy run of the replacement, judged by its own events: it succeeds,
its mutating calls are the creation of the temporary pool, the deletion of the
original pool, the creation of the pool under its original name and the
deletion of the temporary pool, and the identity it leaves is `/` followed by
the pool name. -/
theorem nodePoolUpdate_of_healthy_run (env : Env) (s : St) (ua : String)
    (info info' : NodePoolInformation)
    (hua : env.generateUserAgentString = .ok ua)
    (hinfo : extractNodePoolInformation s.d env.config = .ok info)
    (hunset : ResourceData.name_prefix s.d = "")
    (hname : getNodePoolName s.d.id ≠ "")
    (htc : 0 < env.timeoutCreate) (htd : 0 < env.timeoutDelete)
    (H : env.Healthy s.trace (nodePoolUpdate env info' s).1.trace) :
    ∃ s', nodePoolUpdate env info' s = (s', none) ∧
      Extends s.trace s'.trace
        [MutatingCall.create info.parent "temp-node-pool",
          MutatingCall.delete (info.fullyQualifiedName (getNodePoolName s.d.id)),
          MutatingCall.create info.parent (getNodePoolName s.d.id),
          MutatingCall.delete (info.fullyQualifiedName "temp-node-pool")] ∧
      s'.d.id = "/" ++ getNodePoolName s.d.id ∧
      extractNodePoolInformation s'.d env.config = .ok info := by
  have e0 : Extends s.trace
      (((s.setInitialNodeCount 0).SetId
        (getNodePoolIdHead (s.setInitialNodeCount 0).d.id ++ "/" ++ "temp-node-pool")).setName
        "temp-node-pool").trace [] := Extends.emit s.trace (Event.setId _)
  -- the temporary pool is created
  obtain ⟨s1, h1, e1, _, pre1, info1⟩ := resourceContainerNodePoolCreate_healthy env
    s.trace _ H
    (((s.setInitialNodeCount 0).SetId
      (getNodePoolIdHead (s.setInitialNodeCount 0).d.id ++ "/" ++ "temp-node-pool")).setName
      "temp-node-pool")
    ua info hua
    (by rw [← hinfo]; exact extractNodePoolInformation_congr _ _ _ rfl rfl rfl)
    (by show "temp-node-pool" ≠ ""; decide) hunset rfl htc e0.isPrefix
    (nodePoolUpdate_first_create_isPrefix env info' s)
  have e1' : Extends s1.trace
      (((s1.SetId (getNodePoolIdHead s1.d.id ++ "/"
        ++ getNodePoolName s.d.id)).setInitialNodeCount 0).setName
        (getNodePoolName s.d.id)).trace [] := Extends.emit s1.trace (Event.setId _)
  have hF3 := nodePoolUpdate_second_create_isPrefix env info' s s1 h1
  -- whatever the outcome of the deletion, the second creation takes the mutex next
  have hrec := resourceContainerNodePoolDelete_record env
    (((s1.SetId (getNodePoolIdHead s1.d.id ++ "/"
      ++ getNodePoolName s.d.id)).setInitialNodeCount 0).setName (getNodePoolName s.d.id))
  have hDname : (resourceContainerNodePoolDelete env
      (((s1.SetId (getNodePoolIdHead s1.d.id ++ "/"
        ++ getNodePoolName s.d.id)).setInitialNodeCount 0).setName
        (getNodePoolName s.d.id))).1.d.name = getNodePoolName s.d.id := by
    rcases hrec with h | h <;> rw [h] <;> rfl
  have hDunset : ResourceData.name_prefix (resourceContainerNodePoolDelete env
      (((s1.SetId (getNodePoolIdHead s1.d.id ++ "/"
        ++ getNodePoolName s.d.id)).setInitialNodeCount 0).setName
        (getNodePoolName s.d.id))).1.d = "" := by
    rcases hrec with h | h <;> rw [h] <;> exact pre1
  have hDcount : (resourceContainerNodePoolDelete env
      (((s1.SetId (getNodePoolIdHead s1.d.id ++ "/"
        ++ getNodePoolName s.d.id)).setInitialNodeCount 0).setName
        (getNodePoolName s.d.id))).1.d.initial_node_count = 0 := by
    rcases hrec with h | h <;> rw [h] <;> rfl
  have hDinfo : extractNodePoolInformation (resourceContainerNodePoolDelete env
      (((s1.SetId (getNodePoolIdHead s1.d.id ++ "/"
        ++ getNodePoolName s.d.id)).setInitialNodeCount 0).setName
        (getNodePoolName s.d.id))).1.d env.config = .ok info := by
    rw [← info1]
    rcases hrec with h | h <;> rw [h] <;>
      exact extractNodePoolInformation_congr _ _ _ rfl rfl rfl
  obtain ⟨npD, hnpD, _⟩ := expandNodePool_named env
    (resourceContainerNodePoolDelete env
      (((s1.SetId (getNodePoolIdHead s1.d.id ++ "/"
        ++ getNodePoolName s.d.id)).setInitialNodeCount 0).setName
        (getNodePoolName s.d.id))).1.trace
    (resourceContainerNodePoolDelete env
      (((s1.SetId (getNodePoolIdHead s1.d.id ++ "/"
        ++ getNodePoolName s.d.id)).setInitialNodeCount 0).setName
        (getNodePoolName s.d.id))).1.d
    (by rw [hDname]; exact hname) hDunset hDcount
  obtain ⟨tailD, htailD⟩ := (resourceContainerNodePoolCreate_first_lock env _ ua info npD hua
    hDinfo hnpD).trans hF3
  -- the original pool is deleted
  obtain ⟨s2, h2, e2, d2⟩ := resourceContainerNodePoolDelete_healthy env s.trace _
    (Event.lock info.lockKey :: tailD) H
    (((s1.SetId (getNodePoolIdHead s1.d.id ++ "/"
      ++ getNodePoolName s.d.id)).setInitialNodeCount 0).setName (getNodePoolName s.d.id))
    ua info hua
    (by rw [← info1]; exact extractNodePoolInformation_congr _ _ _ rfl rfl rfl)
    htd ((e0.trans e1).trans e1').isPrefix
    (by rw [← htailD]; simp)
    (by intro e' rest' h; simp only [List.cons.injEq] at h; rw [← h.1]; rfl)
  have hn2 : getNodePoolName
      (((s1.SetId (getNodePoolIdHead s1.d.id ++ "/" ++ getNodePoolName s.d.id)).setInitialNodeCount
        0).setName (getNodePoolName s.d.id)).d.id = getNodePoolName s.d.id := by
    show getNodePoolName (getNodePoolIdHead s1.d.id ++ "/" ++ getNodePoolName s.d.id) = _
    rw [getNodePoolName_append_slash, getNodePoolName_idem]
  rw [hn2] at e2
  -- the pool is created again under its name
  have hF3' : (resourceContainerNodePoolCreate env s2).1.trace
      <+: (nodePoolUpdate env info' s).1.trace := by
    have h := hF3
    rw [h2] at h
    exact h
  obtain ⟨s3, h3, e3, _, _, info3⟩ := resourceContainerNodePoolCreate_healthy env
    s.trace _ H s2 ua info hua
    (by rw [← info1, d2]; exact extractNodePoolInformation_congr _ _ _ rfl rfl rfl)
    (by rw [d2]; exact hname) (by rw [d2]; exact pre1) (by rw [d2]; rfl) htc
    (((e0.trans e1).trans e1').trans e2).isPrefix hF3'
  have hn3 : s2.d.name = getNodePoolName s.d.id := by rw [d2]; rfl
  rw [hn3] at e3
  have e3' : Extends s3.trace
      ((s3.SetId (getNodePoolIdHead s3.d.id ++ "/" ++ "temp-node-pool")).setName
        "temp-node-pool").trace [] := Extends.emit s3.trace (Event.setId _)
  have hU := nodePoolUpdate_of_creates env info' s s1 s3 h1 (by rw [h2]; exact h3)
  -- the temporary pool is deleted
  obtain ⟨s4, h4, e4, d4⟩ := resourceContainerNodePoolDelete_healthy env s.trace _
    [Event.setId (getNodePoolIdHead (resourceContainerNodePoolDelete env
      ((s3.SetId (getNodePoolIdHead s3.d.id ++ "/" ++ "temp-node-pool")).setName
        "temp-node-pool")).1.d.id ++ "/" ++ getNodePoolName s.d.id)] H
    ((s3.SetId (getNodePoolIdHead s3.d.id ++ "/" ++ "temp-node-pool")).setName "temp-node-pool")
    ua info hua
    (by rw [← info3]; exact extractNodePoolInformation_congr _ _ _ rfl rfl rfl)
    htd (((((e0.trans e1).trans e1').trans e2).trans e3).trans e3').isPrefix
    (by rw [hU]; rfl)
    (by intro e' rest' h; simp only [List.cons.injEq] at h; rw [← h.1]; rfl)
  have hn4 : getNodePoolName
      ((s3.SetId (getNodePoolIdHead s3.d.id ++ "/" ++ "temp-node-pool")).setName
        "temp-node-pool").d.id = "temp-node-pool" := by
    show getNodePoolName (getNodePoolIdHead s3.d.id ++ "/" ++ "temp-node-pool") = _
    rw [getNodePoolName_append_slash]
    decide
  rw [hn4] at e4
  rw [hU, h4]
  refine ⟨(s4.SetId (getNodePoolIdHead s4.d.id ++ "/" ++ getNodePoolName s.d.id)).setName
    (getNodePoolName s.d.id), rfl, ?_, ?_, ?_⟩
  · have e5 : Extends s4.trace
        ((s4.SetId (getNodePoolIdHead s4.d.id ++ "/" ++ getNodePoolName s.d.id)).setName
          (getNodePoolName s.d.id)).trace [] := Extends.emit s4.trace (Event.setId _)
    simpa using ((((((e0.trans e1).trans e1').trans e2).trans e3).trans e3').trans e4).trans e5
  · show getNodePoolIdHead s4.d.id ++ "/" ++ getNodePoolName s.d.id = _
    rw [d4]
    show getNodePoolIdHead "" ++ "/" ++ getNodePoolName s.d.id = _
    have : getNodePoolIdHead "" = "" := by decide
    rw [this]
    simp
  · rw [← info3]
    apply extractNodePoolInformation_congr
    · show s4.d.project = s3.d.project
      rw [d4]
      rfl
    · show s4.d.location = s3.d.location
      rw [d4]
      rfl
    · show s4.d.cluster = s3.d.cluster
      rw [d4]
      rfl

/-! ## The call sequence of the replacement -/

/-- The replacement only adds to the trace. -/
theorem nodePoolUpdate_isPrefix (env : Env) (info : NodePoolInformation) (s : St) :
    s.trace <+: (nodePoolUpdate env info s).1.trace := by
  have h0 : s.trace <+: (((s.setInitialNodeCount 0).SetId
      (getNodePoolIdHead (s.setInitialNodeCount 0).d.id ++ "/" ++ "temp-node-pool")).setName
      "temp-node-pool").trace := List.prefix_append _ _
  exact (h0.trans (resourceContainerNodePoolCreate_isPrefix env _)).trans
    (nodePoolUpdate_first_create_isPrefix env info s)

/-- C1 (as amended): for every node pool named by a non-empty `p`, with
`name_prefix` unset, and every run of `nodePoolUpdate` in which the provider
setup succeeds, the timeouts allow an attempt and the run is healthy, that is,
each remote call the run issues succeeds, every pool it fetches is well formed
and not in an error state, and no wait for a resting state gives up (every
fetch that finds a pool in transition is followed by a further fetch), the
update succeeds and the mutating remote calls it issues are exactly
create(`temp-node-pool`), delete(`p`), create(`p`), delete(`temp-node-pool`),
in that order, the creations under the parent of the cluster and the
deletions of names under that same parent. The conditions bear on the calls
of the run alone. -/
theorem nodePoolUpdate_call_sequence (env : Env) (s : St) (ua : String)
    (nodePoolInfo : NodePoolInformation)
    (hua : env.generateUserAgentString = .ok ua)
    (hinfo : extractNodePoolInformation s.d env.config = .ok nodePoolInfo)
    (hunset : ResourceData.name_prefix s.d = "")
    (hname : getNodePoolName s.d.id ≠ "")
    (htc : 0 < env.timeoutCreate) (htd : 0 < env.timeoutDelete)
    (hrun : env.runOk s.trace
      ((nodePoolUpdate env nodePoolInfo s).1.trace.drop s.trace.length) = true) :
    (nodePoolUpdate env nodePoolInfo s).2 = none ∧
    Extends s.trace (nodePoolUpdate env nodePoolInfo s).1.trace
      [MutatingCall.create nodePoolInfo.parent "temp-node-pool",
        MutatingCall.delete (nodePoolInfo.parent ++ "/nodePools/" ++ getNodePoolName s.d.id),
        MutatingCall.create nodePoolInfo.parent (getNodePoolName s.d.id),
        MutatingCall.delete (nodePoolInfo.parent ++ "/nodePools/" ++ "temp-node-pool")] := by
  have H : env.Healthy s.trace (nodePoolUpdate env nodePoolInfo s).1.trace := by
    have h := runOk_healthy env s.trace _ hrun
    rwa [List.prefix_iff_eq_append.mp (nodePoolUpdate_isPrefix env nodePoolInfo s)] at h
  obtain ⟨s', h, hext, _⟩ := nodePoolUpdate_of_healthy_run env s ua nodePoolInfo nodePoolInfo
    hua hinfo hunset hname htc htd H
  rw [h]
  simp only [fullyQualifiedName_eq_parent] at hext
  exact ⟨rfl, hext⟩

/-- C1, instantiated on the pool `p` of cluster `C` and a cluster that keeps
track of its pools: before the run it does not find the temporary pool, and
it reports a pool as `PROVISIONING` at the first fetch after its creation. -/
theorem nodePoolUpdate_call_sequence_witness :
    (clusterRemote ["projects/P/locations/L/clusters/C/nodePools/p"]).get []
        "projects/P/locations/L/clusters/C/nodePools/temp-node-pool" = .error notFoundError ∧
    (nodePoolUpdate (scenarioEnv (clusterRemote ["projects/P/locations/L/clusters/C/nodePools/p"]))
        poolScope ⟨poolRecord, []⟩).2 = none ∧
    Extends []
      (nodePoolUpdate (scenarioEnv (clusterRemote ["projects/P/locations/L/clusters/C/nodePools/p"]))
        poolScope ⟨poolRecord, []⟩).1.trace
      [MutatingCall.create "projects/P/locations/L/clusters/C" "temp-node-pool",
        MutatingCall.delete "projects/P/locations/L/clusters/C/nodePools/p",
        MutatingCall.create "projects/P/locations/L/clusters/C" "p",
        MutatingCall.delete "projects/P/locations/L/clusters/C/nodePools/temp-node-pool"] :=
  ⟨rfl, nodePoolUpdate_call_sequence
    (scenarioEnv (clusterRemote ["projects/P/locations/L/clusters/C/nodePools/p"]))
    ⟨poolRecord, []⟩ "terraform" poolScope rfl rfl rfl (by decide) (by decide) (by decide)
    (by decide)⟩

/-! ## The update callback -/

/-- C17 (as amended): the update callback has no patch path and does not look
at what changed. Whatever the node configuration of the record, once the
provider is set up and the wait for a resting state before the replacement
has returned without error, `resourceContainerNodePoolUpdate` runs the
blue/green replacement; when the run of the replacement is healthy (each
remote call it issues succeeds, every pool it fetches is well formed and not
in an error state, no wait for a resting state gives up), for a pool named by
a non-empty `p` with `name_prefix` unset, the replacement succeeds and the
mutating remote calls of the update are exactly create(`temp-node-pool`),
delete(`p`), create(`p`), delete(`temp-node-pool`). The update returns
success exactly when the wait for a resting state and the read-back that
follow the replacement end without error. -/
theorem resourceContainerNodePoolUpdate_always_replaces (env : Env) (s : St) (ua : String)
    (nodePoolInfo : NodePoolInformation) (trace1 : List Event) (state1 : String)
    (hua : env.generateUserAgentString = .ok ua)
    (hinfo : extractNodePoolInformation s.d env.config = .ok nodePoolInfo)
    (hunset : ResourceData.name_prefix s.d = "")
    (hname : getNodePoolName s.d.id ≠ "")
    (htc : 0 < env.timeoutCreate) (htd : 0 < env.timeoutDelete)
    (hfirst : containerNodePoolAwaitRestingState env
      (nodePoolInfo.fullyQualifiedName (getNodePoolName s.d.id)) env.timeoutUpdate s.trace
      = (trace1, state1, none))
    (hrun : env.runOk trace1
      ((nodePoolUpdate env nodePoolInfo { s with trace := trace1 }).1.trace.drop
        trace1.length) = true) :
    (nodePoolUpdate env nodePoolInfo { s with trace := trace1 }).2 = none ∧
    Extends s.trace (resourceContainerNodePoolUpdate env s).1.trace
      [MutatingCall.create nodePoolInfo.parent "temp-node-pool",
        MutatingCall.delete (nodePoolInfo.fullyQualifiedName (getNodePoolName s.d.id)),
        MutatingCall.create nodePoolInfo.parent (getNodePoolName s.d.id),
        MutatingCall.delete (nodePoolInfo.fullyQualifiedName "temp-node-pool")] ∧
    ((resourceContainerNodePoolUpdate env s).2 = none ↔
      ∃ trace2 state2,
        containerNodePoolAwaitRestingState env
          (nodePoolInfo.fullyQualifiedName (getNodePoolName s.d.id)) env.timeoutUpdate
          (nodePoolUpdate env nodePoolInfo { s with trace := trace1 }).1.trace
          = (trace2, state2, none) ∧
        (resourceContainerNodePoolRead env
          { (nodePoolUpdate env nodePoolInfo { s with trace := trace1 }).1 with
            trace := trace2 }).2 = none) := by
  -- the pool rests before the update
  have e0 := containerNodePoolAwaitRestingState_extends env
    (nodePoolInfo.fullyQualifiedName (getNodePoolName s.d.id)) env.timeoutUpdate s.trace
  rw [hfirst] at e0
  -- the replacement
  have H : env.Healthy trace1
      (nodePoolUpdate env nodePoolInfo { s with trace := trace1 }).1.trace := by
    have h := runOk_healthy env trace1 _ hrun
    rwa [List.prefix_iff_eq_append.mp
      (nodePoolUpdate_isPrefix env nodePoolInfo { s with trace := trace1 })] at h
  obtain ⟨s', hup, eup, _, _⟩ := nodePoolUpdate_of_healthy_run env { s with trace := trace1 }
    ua nodePoolInfo nodePoolInfo hua hinfo hunset hname htc htd H
  -- the wait and the read-back after the replacement
  have e2 := containerNodePoolAwaitRestingState_extends env
    (nodePoolInfo.fullyQualifiedName (getNodePoolName s.d.id)) env.timeoutUpdate s'.trace
  rw [hup]
  refine ⟨rfl, ?_, ?_⟩
  · unfold resourceContainerNodePoolUpdate
    simp only [hua, hinfo, hfirst, hup]
    rcases ha2 : containerNodePoolAwaitRestingState env
      (nodePoolInfo.fullyQualifiedName (getNodePoolName s.d.id)) env.timeoutUpdate s'.trace
      with ⟨trace2, state2, _ | err⟩
    · rw [ha2] at e2
      have eread := resourceContainerNodePoolRead_extends env { s' with trace := trace2 }
      simpa using ((e0.trans eup).trans e2).trans eread
    · rw [ha2] at e2
      simpa using (e0.trans eup).trans e2
  · unfold resourceContainerNodePoolUpdate
    simp only [hua, hinfo, hfirst, hup]
    rcases ha2 : containerNodePoolAwaitRestingState env
      (nodePoolInfo.fullyQualifiedName (getNodePoolName s.d.id)) env.timeoutUpdate s'.trace
      with ⟨trace2, state2, _ | err⟩
    · simp
    · simp

/-- C17, instantiated on the pool `p` of cluster `C` and a cluster that keeps
track of its pools. -/
theorem resourceContainerNodePoolUpdate_always_replaces_witness :
    (nodePoolUpdate (scenarioEnv (clusterRemote ["projects/P/locations/L/clusters/C/nodePools/p"]))
        poolScope ⟨poolRecord, [Event.getCall "projects/P/locations/L/clusters/C/nodePools/p"]⟩).2
      = none ∧
    Extends []
      (resourceContainerNodePoolUpdate
        (scenarioEnv (clusterRemote ["projects/P/locations/L/clusters/C/nodePools/p"]))
        ⟨poolRecord, []⟩).1.trace
      [MutatingCall.create "projects/P/locations/L/clusters/C" "temp-node-pool",
        MutatingCall.delete "projects/P/locations/L/clusters/C/nodePools/p",
        MutatingCall.create "projects/P/locations/L/clusters/C" "p",
        MutatingCall.delete "projects/P/locations/L/clusters/C/nodePools/temp-node-pool"] ∧
    (resourceContainerNodePoolUpdate
      (scenarioEnv (clusterRemote ["projects/P/locations/L/clusters/C/nodePools/p"]))
      ⟨poolRecord, []⟩).2 = none :=
  have h := resourceContainerNodePoolUpdate_always_replaces
    (scenarioEnv (clusterRemote ["projects/P/locations/L/clusters/C/nodePools/p"]))
    ⟨poolRecord, []⟩ "terraform" poolScope
    [Event.getCall "projects/P/locations/L/clusters/C/nodePools/p"] "RUNNING"
    rfl rfl rfl (by decide) (by decide) (by decide) (by decide) (by decide)
  ⟨h.1, h.2.1, by decide⟩

end RollGcp
